import Mathlib

/-!
Shallow embedding of the activity-classification engine of `lib/shared.js`
(`src/unnamed/part_000`): feed paging (`fetchPagedAccount`), hydration of
missing externals, the two-tier classifier, the priority-based
reconciler/deduplicator (`buildActivity`) and the aggregator (`buildStats`).

Conventions of the embedding:
* JS strings are `String` (all data here is ASCII); `undefined` string fields
  are `Option.none`.  JS `a || dflt` on strings is `jsOr` (treats `""` as
  falsy), JS `a ?? b` is `Option.orElse`.
* Numeric feed fields (`timeStamp`, `blockNumber`, `tokenDecimal`) are parsed
  `Option Nat`; `value` is a parsed `Option Int` (base units).  `Number(x)` of
  an absent value is JS `NaN`, modelled by `JsNum.nan`.
* Network effects are oracles: `txOracle`/`rcptOracle` return `none` when the
  RPC fetch fails (retries exhausted), mirroring `getTransactionsSelective` /
  `getReceiptsSelective` which leave such hashes out of their result map.
  Caching and bounded concurrency do not change any per-call result.
* The float mirror fields `valueNorm` (always `Number` of the formatted
  string, resp. the literal `0` for erc721 rows) are omitted from `Row`:
  no claim concerns them and they are floating point.
* Core `String` functions use well-founded recursion and do not reduce in the
  kernel, so lower-casing, slicing etc. are defined over `String.data`.
-/

/-- ASCII lower-casing of one character, as `String.prototype.toLowerCase`
acts on the ASCII range. -/
def chLower (c : Char) : Char :=
  if 'A' ≤ c ∧ c ≤ 'Z' then Char.ofNat (c.toNat + 32) else c

/-- JS `s.toLowerCase()` (ASCII). -/
def jsToLower (s : String) : String := ⟨s.data.map chLower⟩

/-- JS `s.slice(0, n)`. -/
def jsTake (s : String) (n : Nat) : String := ⟨s.data.take n⟩

/-- JS `s.slice(n)`. -/
def jsDrop (s : String) (n : Nat) : String := ⟨s.data.drop n⟩

/-- JS `s.startsWith(p)`. -/
def jsStartsWith (s p : String) : Bool := p.data.isPrefixOf s.data

/-- JS `a || dflt` for an optional string: `undefined` and `""` are falsy. -/
def jsOr (a : Option String) (dflt : String) : String :=
  match a with
  | none => dflt
  | some s => if s = "" then dflt else s

/-- JS `a || b` keeping an optional result (used for `hash || transactionHash`). -/
def jsOrOpt (a b : Option String) : Option String :=
  match a with
  | none => b
  | some s => if s = "" then b else some s

/-- JS truthiness of an optional string (`!!a`). -/
def jsTruthy (a : Option String) : Bool := jsOr a "" ≠ ""

/-- Helper for `strIncludes`: does `p` occur as a contiguous run in the list. -/
def inclAux (p : List Char) : List Char → Bool
  | [] => p.isEmpty
  | c :: t => p.isPrefixOf (c :: t) || inclAux p t

/-- JS `s.includes(pat)`. -/
def strIncludes (s pat : String) : Bool := inclAux pat.data s.data

/-- Regex word character (`\w` = `[A-Za-z0-9_]`). -/
def isWordChar (c : Char) : Bool := c.isAlphanum || c = '_'

/-- A regex word boundary is satisfied next to this (optional) character. -/
def boundaryOk : Option Char → Bool
  | none => true
  | some c => !isWordChar c

/-- Does `pat` match at the head of `l`, with word boundaries on both sides
(`prev` is the character just before `l`)? -/
def wbHere (pat l : List Char) (prev : Option Char) : Bool :=
  pat.isPrefixOf l && boundaryOk prev && boundaryOk (l.drop pat.length).head?

/-- Scan `l` for a word-bounded occurrence of `pat`. -/
def wbAux (pat : List Char) : Option Char → List Char → Bool
  | prev, [] => wbHere pat [] prev
  | prev, c :: t => wbHere pat (c :: t) prev || wbAux pat (some c) t

/-- Regex test `\b pat \b` on `s`, for patterns that start and end with word
characters (all patterns used by `looksLikeDomainText` do). -/
def wordBounded (s pat : String) : Bool := wbAux pat.data none s.data

/-- JS number that may be `NaN`: `timeMs` is `Number(timeStamp) * 1000`,
which is `NaN` when the `timeStamp` field is absent. -/
inductive JsNum where
  | nan : JsNum
  | val : Int → JsNum
  deriving Repr, DecidableEq

/-- Number(timeStamp) * 1000` of an optional timestamp. -/
def jsTimes1000 : Option Nat → JsNum
  | none => JsNum.nan
  | some n => JsNum.val (n * 1000)

/-- One raw item of any explorer feed (`txlist`, `txlistinternal`, `tokentx`,
`tokennfttx`, `token1155tx`): the union of the fields the code reads.
`from`, `to` and `type` are Lean keywords, hence the underscores. -/
structure FeedItem where
  hash : Option String := none
  transactionHash : Option String := none
  blockNumber : Option Nat := none
  timeStamp : Option Nat := none
  from_ : Option String := none
  to_ : Option String := none
  value : Option Int := none
  input : Option String := none
  methodId : Option String := none
  functionName : Option String := none
  isError : Option String := none
  txreceipt_status : Option String := none
  status : Option String := none
  contractAddress : Option String := none
  tokenSymbol : Option String := none
  tokenName : Option String := none
  tokenDecimal : Option Nat := none
  tokenID : Option String := none
  tokenId : Option String := none
  type_ : Option String := none
  deriving Repr, DecidableEq

/-- Receipt status as delivered by the RPC client: a string
(`'reverted'`, `'0'`, `'0x0'`, `'success'`, ...) or a number (`0`, `0n`, `1`). -/
inductive RStatus where
  | str : String → RStatus
  | num : Int → RStatus
  deriving Repr, DecidableEq

/-- One receipt log: emitting address and topic list. -/
structure LogEntry where
  address : Option String := none
  topics : List String := []
  deriving Repr, DecidableEq

/-- Transaction receipt (absent `logs` is modelled as `[]`, which the code
treats identically: `!rcp.logs || rcp.logs.length === 0`). -/
structure Receipt where
  status : RStatus
  logs : List LogEntry := []
  deriving Repr, DecidableEq

/-- Result of `client.getTransaction`. -/
structure RpcTx where
  blockNumber : Option Nat := none
  from_ : String := ""
  to_ : Option String := none
  value : Int := 0
  input : Option String := none
  deriving Repr, DecidableEq

/-- Normalized output row of `buildActivity` (the float mirror `valueNorm` is
omitted, see the header comment). -/
structure Row where
  kind : String
  standard : Option String := none
  hash : Option String := none
  blockNumber : Nat := 0
  timeMs : JsNum := JsNum.nan
  from_ : String := ""
  to_ : Option String := none
  direction : String := ""
  value : Option String := none
  amount : Option String := none
  contract : Option String := none
  symbol : Option String := none
  tokenId : Option String := none
  category : Option String := none
  deriving Repr, DecidableEq

/-- The zero address constant `ZERO`. -/
def ZERO : String := "0x0000000000000000000000000000000000000000"

/-- `CCO_TARGET` (already lower case in the source). -/
def CCO_TARGET : String := "0x016ef0f56d7344d0e55f6bc2a20618e02dae8be0"

/-- `GM_CONTRACTS` allow-list (lower-cased by `toLowerSet`). -/
def GM_CONTRACTS : List String :=
  ["0xf617d89a811a39f06f5271f89db346a0ae297f71",
   "0x1290b4f2a419a316467b580a088453a233e9adcc"]

/-- `CC_CONTRACTS` deploy-relay allow-list. -/
def CC_CONTRACTS : List String :=
  ["0x2f96d7dd813b8e17071188791b78ea3fab5c109c"]

/-- `DOMAIN_CONTRACTS`: empty in the source ("fill these if you know them"). -/
def DOMAIN_CONTRACTS : List String := []

/-- Hydration / candidate bounds from the source configuration. -/
def HYDRATE_INT_LIMIT : Nat := 200

/-- Token-feed hydration bound. -/
def HYDRATE_TOKEN_LIMIT : Nat := 350

/-- Cap on the mint/domain receipt-scan candidate list. -/
def MAX_MINTDOMAIN_CANDIDATES : Nat := 220

/-- keccak256 of `Transfer(address,address,uint256)`. -/
def TOPIC_ERC721_TRANSFER : String :=
  "0xddf252ad1be2c89b69c2b068fc378daa952ba7f163c4a11628f55a4df523b3ef"

/-- keccak256 of `ConsecutiveTransfer(uint256,uint256,address,address)`. -/
def TOPIC_ERC721A_CONSEC : String :=
  "0xdeaa91b6123d068f5821d0fb0678463d1a8a6079fe8af5de3ce5e896dcf9133d"

/-- keccak256 of `TransferSingle(address,address,address,uint256,uint256)`. -/
def TOPIC_ERC1155_SINGLE : String :=
  "0xc3d58168c5ae7397731d063d5bbf3d657854427343f4c083240f7aacaa2d0f62"

/-- keccak256 of `TransferBatch(address,address,address,uint256[],uint256[])`. -/
def TOPIC_ERC1155_BATCH : String :=
  "0x4a39dc06d4c0dbc64b70af90fd698a233a518aa5d07e595d983b8c0526c8f7fb"

/-- `DOMAIN_TOPICS`: keccak256 event topics, in source order:
NameRegistered(bytes32,address,uint256), NameRegistered(string,address,uint256),
NameRegistered(bytes32,address,uint256,uint256),
NameRegistered(string,address,uint256,uint256),
DomainRegistered(address,string,uint256),
DomainRegistered(address,string,uint256,uint256), NewOwner(bytes32,bytes32,address),
SubnodeCreated(bytes32,bytes32,address), Register(address,string,uint256),
Registered(address,string,uint256), NameClaimed(address,string). -/
def DOMAIN_TOPICS : List String :=
  ["0xb6090d914a9708da24e13a3c0752d4b6d484ba0c8a9a25ca6f3ced6a0d0feb00",
   "0x8a168ef997ae6a1723ef504e6a0205acfe336ccb522561e95accebadde414b87",
   "0x68e5f1cbcd550dfe48b75260ad1c796c5518d2b52c20644b70990ece599f2619",
   "0xf7ab1b84e0afb8ee4014a7fc4343c995a6eed5d4a096d59940f33ef56efc5851",
   "0x939473682d97589f386b75d5ed902de6e714d125d816c3e0f4d45a89a9832292",
   "0xde0add4b774ac5356f2c6b4e913e1d7994796d87c89d7996d5cea924c790b549",
   "0xce0457fe73731f824cc272376169235128c118b49d344817417c6d108d155e82",
   "0x6216eb290e1c08e4115057a4fb17aac4bf4e253347dade5f6bc6682957e46e7f",
   "0xd741a63ddb805bd1ed3216c3a05c67b4e900126b903e69169fe3940657d280c7",
   "0x89b886e508b5806f8c28179176052458c2bd0f54106811773b56be2d51a14e60",
   "0x9b15f899d7d0612a57fe7cbb7161c378e987fa2c3ade807d80b8c3bb1771dd2b"]

/-- `DOMAIN_SELECTORS`: 4-byte selectors, in source order:
registerDomains(string[],address,uint256), registerDomains(string[],address),
registerDomain(string,address,uint256), registerDomain(string,address),
register(string,address,uint256), register(bytes32,address,uint256),
registerWithConfig(string,address,uint256,address,address),
registerWithConfig(bytes32,address,uint256,address,address),
registerName(string,address,uint256), claim(string), claim(bytes32),
commit(bytes32). -/
def DOMAIN_SELECTORS : List String :=
  ["0x82cf14ec", "0xe3b0fdd5", "0xfe1e1f5f", "0xf52433cb", "0xd393c871",
   "0xa5b0d68c", "0xb2d3ed39", "0xb59b85a2", "0x9bc83cfa", "0xf3fe12c9",
   "0xbd66528a", "0xf14fcbc8"]

/-- `GM_SELECTORS`: sayGM(), gm(), plus the literal `0x84a3bb6b`. -/
def GM_SELECTORS : List String := ["0x25406903", "0xc0129d43", "0x84a3bb6b"]

/-- `STAKE_SELECTORS`, in source order: stake(uint256), stake(uint256,address),
deposit(uint256), deposit(uint256,address), deposit(), delegate(address,uint256),
delegate(uint256), bond(uint256), bondExtra(uint256), bondExtra(),
bondMore(uint256), nominate(address[]), unbond(uint256),
withdrawUnbonded(uint32), restake(uint256), redelegate(address,uint256). -/
def STAKE_SELECTORS : List String :=
  ["0xa694fc3a", "0x7acb7757", "0xb6b55f25", "0x6e553f65", "0xd0e30db0",
   "0x026e402b", "0x9fa6dd35", "0x9940686e", "0xeaca88de", "0x55807703",
   "0x7de3abc7", "0x19f2fdad", "0x27de9e32", "0x548a6706", "0xbce1b520",
   "0x936dc23e"]

/-- `SWAP_SELECTORS`, in source order (V2 swap family, then V3
exactInput/exactInputSingle/exactOutput/exactOutputSingle). -/
def SWAP_SELECTORS : List String :=
  ["0x38ed1739", "0x8803dbee", "0x7ff36ab5", "0xfb3bdb41", "0x18cbafe5",
   "0x4a25d94a", "0x5c11d795", "0xb6f9de95", "0x791ac947", "0x89cf0f4a",
   "0x414bf389", "0xc0bcfe67", "0xdb3e2198"]

/-- `ADD_LIQ_SELECTORS`: addLiquidity(...), addLiquidityETH(...). -/
def ADD_LIQ_SELECTORS : List String := ["0xe8e33700", "0xf305d719"]

/-- `REM_LIQ_SELECTORS`, in source order. -/
def REM_LIQ_SELECTORS : List String :=
  ["0xbaa2abde", "0x02751cec", "0x2195995c", "0xded9382a", "0xaf2979eb",
   "0x5b0d5984"]

/-- `APPROVE_SELECTORS`: approve, increaseAllowance, decreaseAllowance,
setApprovalForAll. -/
def APPROVE_SELECTORS : List String :=
  ["0x095ea7b3", "0x39509351", "0xa457c2d7", "0xa22cb465"]

/-- `NFT_MINT_SELECTORS` (declared in the source; not consulted by
`buildActivity`), in source order: mint(), mint(uint256), mint(address),
mint(address,uint256), mintTo(address,uint256), safeMint(address),
safeMint(address,uint256), publicMint(uint256), batchMint(address,uint256),
batchMint(address,uint256[]), claim(), claim(uint256), claim(address,uint256). -/
def NFT_MINT_SELECTORS : List String :=
  ["0x1249c58b", "0xa0712d68", "0x6a627842", "0x40c10f19", "0x449a52f8",
   "0x40d097c3", "0xa1448194", "0x2db11544", "0x43508b05", "0x4684d7e9",
   "0x4e71d92d", "0x379607f5", "0xaad3ec96"]

/-- `inputSig`: `String(tx?.input ?? tx?.methodId ?? '0x').slice(0, 10).toLowerCase()`. -/
def inputSig (t : FeedItem) : String :=
  jsToLower (jsTake ((Option.orElse t.input (fun _ => t.methodId)).getD "0x") 10)

/-- `emptyInput`: regex `/^0x0*$/i` applied to `d || '0x'`. -/
def emptyInput (d : Option String) : Bool :=
  let s := jsToLower (jsOr d "0x")
  jsStartsWith s "0x" && (jsDrop s 2).data.all (fun c => c = '0')

/-- `isPrecompile`: `(to || '').toLowerCase().startsWith('0x' + 37 zeros)`. -/
def isPrecompile (to_ : Option String) : Bool :=
  jsStartsWith (jsToLower (jsOr to_ "")) "0x0000000000000000000000000000000000000"

/-- `isFailed(rcpt)`: `s === 'reverted' || s === 0 || s === 0n || s === '0' || s === '0x0'`. -/
def isFailed (r : Receipt) : Bool :=
  match r.status with
  | RStatus.str s => s = "reverted" || s = "0" || s = "0x0"
  | RStatus.num n => n = 0

/-- `isFailedByTxlist(t)`: feed-reported failure flags. -/
def isFailedByTxlist (t : FeedItem) : Bool :=
  let e := jsToLower (t.isError.getD "")
  let s := jsToLower ((Option.orElse t.txreceipt_status (fun _ => t.status)).getD "")
  e = "1" || s = "0" || s = "0x0" || s = "reverted"

/-- `isNativeSendCandidate(tx, user)`: outgoing plain value transfer shape. -/
def isNativeSendCandidate (tx : FeedItem) (user : String) : Bool :=
  let f := jsToLower (jsOr tx.from_ "")
  let t := jsToLower (jsOr tx.to_ "")
  if f ≠ user then false
  else if t = "" then false
  else if isPrecompile (some t) then false
  else if tx.value.getD 0 ≤ 0 then false
  else if !emptyInput tx.input then false
  else true

/-- `looksLikeDomainText(s)`: the strict domain-text heuristic. -/
def looksLikeDomainText (s : Option String) : Bool :=
  if !jsTruthy s then false
  else
    let x := jsToLower (jsOr s "")
    if strIncludes x ".ztc" || strIncludes x ".zen" then true
    else if wordBounded x "zns" || wordBounded x "ens" then true
    else if wordBounded x "name service" || wordBounded x "domain service" ||
            wordBounded x "domain registrar" || wordBounded x "registry" ||
            wordBounded x "name registry" then true
    else false

/-- `isDomainBySigOrEvent(tx, rcpt)`. -/
def isDomainBySigOrEvent (tx : FeedItem) (rcpt : Receipt) : Bool :=
  let sig := inputSig tx
  let fn := jsToLower (jsOr tx.functionName "")
  if fn ≠ "" ∧ (strIncludes fn "register" || strIncludes fn "domain" ||
                strIncludes fn "name" || strIncludes fn "zns") then true
  else if DOMAIN_SELECTORS.contains sig then true
  else rcpt.logs.any (fun lg => DOMAIN_TOPICS.contains (jsToLower (lg.topics.headD "")))

/-- `addrFromTopic(t)`: `(t && t.length >= 66) ? ('0x' + t.slice(26)).toLowerCase() : null`. -/
def addrFromTopic (t : String) : Option String :=
  if t.data.length ≥ 66 then some (jsToLower ("0x" ++ jsDrop t 26)) else none

/-- `parse721AAddresses(lg)`: ERC-721A ConsecutiveTransfer address decoding. -/
def parse721AAddresses (lg : LogEntry) : Option (String × String) :=
  let t := lg.topics.map (fun x => jsToLower x)
  if t.length ≥ 4 then
    match addrFromTopic (t.getD 2 ""), addrFromTopic (t.getD 3 "") with
    | some f, some tt => some (f, tt)
    | _, _ => none
  else none

/-- Insertion into a JS `Set` (insertion-ordered, duplicates ignored). -/
def setAdd (l : List String) (x : String) : List String :=
  if l.contains x then l else l ++ [x]

/-- `mintedContractsForUser(rcpt, user)`: contracts emitting a mint-shaped
transfer (from the zero address to `user`) in the receipt's logs. -/
def mintedContractsForUser (rcpt : Receipt) (user : String) : List String :=
  rcpt.logs.foldl (fun set lg =>
    let t0 := jsToLower (lg.topics.headD "")
    if t0 = TOPIC_ERC721_TRANSFER then
      let f := addrFromTopic (lg.topics.getD 1 "")
      let toT := addrFromTopic (lg.topics.getD 2 "")
      if f = some ZERO ∧ toT = some user then
        setAdd set (jsToLower (jsOr lg.address "")) else set
    else if t0 = TOPIC_ERC721A_CONSEC then
      match parse721AAddresses lg with
      | some pair =>
          if pair.1 = ZERO ∧ pair.2 = user then
            setAdd set (jsToLower (jsOr lg.address "")) else set
      | none => set
    else if t0 = TOPIC_ERC1155_SINGLE || t0 = TOPIC_ERC1155_BATCH then
      let f := addrFromTopic (lg.topics.getD 2 "")
      let toT := addrFromTopic (lg.topics.getD 3 "")
      if f = some ZERO ∧ toT = some user then
        setAdd set (jsToLower (jsOr lg.address "")) else set
    else set) []

/-- `isStakeQuick(tx)`. -/
def isStakeQuick (t : FeedItem) : Bool :=
  let sig := inputSig t
  let fn := jsToLower (jsOr t.functionName "")
  if fn ≠ "" ∧ (strIncludes fn "bond" || strIncludes fn "stake" ||
                strIncludes fn "delegate" || strIncludes fn "nominate" ||
                strIncludes fn "unbond" || strIncludes fn "withdraw" ||
                strIncludes fn "restake" || strIncludes fn "redelegate") then true
  else STAKE_SELECTORS.contains sig

/-- `isGMQuick(tx)`. -/
def isGMQuick (t : FeedItem) : Bool :=
  let sig := inputSig t
  let fn := jsToLower (jsOr t.functionName "")
  if fn ≠ "" ∧ (strIncludes fn "saygm" || fn = "gm") then true
  else GM_SELECTORS.contains sig

/-- `isSwapQuick(tx)` (no truthiness guard on `fn` in the source). -/
def isSwapQuick (t : FeedItem) : Bool :=
  let sig := inputSig t
  let fn := jsToLower (jsOr t.functionName "")
  if strIncludes fn "swap" || strIncludes fn "exactinput" ||
     strIncludes fn "exactoutput" then true
  else SWAP_SELECTORS.contains sig

/-- `isAddLiquidityQuick(tx)` (deliberately does not match a bare "mint"). -/
def isAddLiquidityQuick (t : FeedItem) : Bool :=
  let sig := inputSig t
  let fn := jsToLower (jsOr t.functionName "")
  if strIncludes fn "addliquidity" || strIncludes fn "addliquidityeth" then true
  else ADD_LIQ_SELECTORS.contains sig

/-- `isRemoveLiquidityQuick(tx)`. -/
def isRemoveLiquidityQuick (t : FeedItem) : Bool :=
  let sig := inputSig t
  let fn := jsToLower (jsOr t.functionName "")
  if strIncludes fn "removeliquidity" || strIncludes fn "decreaseliquidity" then true
  else REM_LIQ_SELECTORS.contains sig

/-- `isApproveQuick(tx)`. -/
def isApproveQuick (t : FeedItem) : Bool :=
  let sig := inputSig t
  let fn := jsToLower (jsOr t.functionName "")
  if fn = "approve" || strIncludes fn "allowance" || strIncludes fn "approval" then true
  else APPROVE_SELECTORS.contains sig

/-- `isCCO(tx)`: `to` equals the relay-target constant. -/
def isCCO (t : FeedItem) : Bool := jsToLower (jsOr t.to_ "") = CCO_TARGET

/-- strip trailing `'0'` characters (`.replace(/0+$/g, '')` on the fraction). -/
def stripTrailingZeros (l : List Char) : List Char :=
  (l.reverse.dropWhile (fun c => c = '0')).reverse

/-- `formatUnits(raw, decimals)`: decimal rendering of a base-unit integer. -/
def formatUnits (raw : Int) (decimals : Nat) : String :=
  let base : Int := (10 : Int) ^ decimals
  let neg := raw < 0
  let x := if neg then -raw else raw
  let intPart := x / base
  let fracRaw := toString (x % base).toNat
  let fracPadded := List.replicate (decimals - fracRaw.data.length) '0' ++ fracRaw.data
  let frac := stripTrailingZeros fracPadded
  let s := if frac.length > 0 then toString intPart ++ "." ++ (⟨frac⟩ : String)
           else toString intPart
  if neg then "-" ++ s else s

/-- `Number(x.timeStamp || 0)`: the timestamp as the paging filter reads it. -/
def tsOf (x : FeedItem) : Nat := x.timeStamp.getD 0

/-- `String(t.hash || '').toLowerCase()`: merge key of external rows. -/
def extKey (t : FeedItem) : String := jsToLower (jsOr t.hash "")

/-- `String(x.hash || x.transactionHash || '').toLowerCase()`: key used by
paging dedup, internal/token feeds and hydration. -/
def itemKey (t : FeedItem) : String :=
  jsToLower (jsOr (jsOrOpt t.hash t.transactionHash) "")

/-- `uniqueBy(arr, keyFn)`: keep the first item per key. -/
def uniqueBy (arr : List FeedItem) (keyFn : FeedItem → String) : List FeedItem :=
  (arr.foldl (fun acc x =>
    let k := keyFn x
    if acc.1.contains k then acc else (acc.1 ++ [k], acc.2 ++ [x])) ([], [])).2

/-- Insertion-ordered key list of a JS `Map` built by repeated `set` (a later
`set` of an existing key keeps its original position). -/
def firstOccur (ks : List String) : List String :=
  ks.foldl (fun acc k => if acc.contains k then acc else acc ++ [k]) []

/-- Value lookup in a JS `Map` built by repeated `set`: the last item wins. -/
def lastWithKey (feed : List FeedItem) (h : String) : Option FeedItem :=
  (feed.filter (fun it => itemKey it = h)).getLast?

/-- The `missing` list of `hydrateMissingExternalsFromInternals`: the keys of
`intByHash` (nonempty, first-insertion order) absent from the external set,
capped at `limit`. -/
def intMissing (internalsFeed externals : List FeedItem) (limit : Nat) : List String :=
  let extSet := externals.map extKey
  let keys := firstOccur ((internalsFeed.map itemKey).filter (fun h => h ≠ ""))
  (keys.filter (fun h => !extSet.contains h)).take limit

/-- The minimal synthesized ExternalTx pushed by both hydration stages. -/
def synthExternal (h : String) (tx : RpcTx) (ts : Nat) : FeedItem :=
  { hash := some h,
    blockNumber := some (tx.blockNumber.getD 0),
    timeStamp := if ts ≠ 0 then some ts else none,
    from_ := some (jsToLower tx.from_),
    to_ := match tx.to_ with
           | some s => if s ≠ "" then some (jsToLower s) else none
           | none => none,
    value := some tx.value,
    input := some (jsOr tx.input "0x"),
    functionName := some "" }

/-- The body of the `for (const h of missing)` loop of
`hydrateMissingExternalsFromInternals`: `none` when the RPC fetch failed
(`if (!tx) continue`), else the synthesized item with the originating
internal record's timestamp. -/
def hydrateIntItem (txOracle : String → Option RpcTx)
    (internalsFeed : List FeedItem) (h : String) : Option FeedItem :=
  match txOracle h with
  | none => none
  | some tx =>
      let ts := (match lastWithKey internalsFeed h with
                 | some it => it.timeStamp.getD 0
                 | none => 0)
      some (synthExternal h tx ts)

/-- `hydrateMissingExternalsFromInternals`. -/
def hydrateMissingExternalsFromInternals (txOracle : String → Option RpcTx)
    (internalsFeed externals : List FeedItem)
    (limit : Nat := HYDRATE_INT_LIMIT) : List FeedItem :=
  let missing := intMissing internalsFeed externals limit
  if missing.isEmpty then externals
  else externals ++ missing.filterMap (hydrateIntItem txOracle internalsFeed)

/-- Association-list read of the `tsMap` JS `Map`. -/
def aGetN (l : List (String × Nat)) (h : String) : Option Nat :=
  (l.find? (fun p => p.1 = h)).map Prod.snd

/-- Association-list `Map.set` for `tsMap` (update in place or append). -/
def aSetN (l : List (String × Nat)) (h : String) (v : Nat) : List (String × Nat) :=
  if (l.find? (fun p => p.1 = h)).isSome then
    l.map (fun p => if p.1 = h then (h, v) else p)
  else l ++ [(h, v)]

/-- The `tsMap` of `hydrateMissingExternalsFromTokenFeeds`: erc20 entries set
unconditionally; erc721/erc1155 entries keep the strictly smaller timestamp. -/
def tsMapBuild (extSet : List String)
    (token20 token721 token1155 : List FeedItem) : List (String × Nat) :=
  let m1 := token20.foldl (fun m e =>
    let h := itemKey e
    if h ≠ "" ∧ !extSet.contains h then aSetN m h (tsOf e) else m) []
  let step := fun (m : List (String × Nat)) (n : FeedItem) =>
    let h := itemKey n
    if h ≠ "" ∧ !extSet.contains h then
      let t := tsOf n
      match aGetN m h with
      | none => aSetN m h t
      | some prev => if t < prev then aSetN m h t else m
    else m
  let m2 := token721.foldl step m1
  token1155.foldl step m2

/-- The body of the `for (const h of missing)` loop of
`hydrateMissingExternalsFromTokenFeeds` (`const ts = tsMap.get(h) || 0`). -/
def hydrateTokenItem (txOracle : String → Option RpcTx)
    (tsMap : List (String × Nat)) (h : String) : Option FeedItem :=
  match txOracle h with
  | none => none
  | some tx => some (synthExternal h tx ((aGetN tsMap h).getD 0))

/-- `hydrateMissingExternalsFromTokenFeeds`. -/
def hydrateMissingExternalsFromTokenFeeds (txOracle : String → Option RpcTx)
    (token20 token721 token1155 externals : List FeedItem)
    (limit : Nat := HYDRATE_TOKEN_LIMIT) : List FeedItem :=
  let extSet := externals.map extKey
  let tsMap := tsMapBuild extSet token20 token721 token1155
  let missing := (tsMap.map Prod.fst).take limit
  if missing.isEmpty then externals
  else externals ++ missing.filterMap (hydrateTokenItem txOracle tsMap)

/-- The pure input of one `buildActivity` call: the five fetched feeds plus
the RPC oracles (see the header comment). -/
structure BuildIn where
  address : String
  externalsRaw : List FeedItem := []
  internalsFeed : List FeedItem := []
  erc20 : List FeedItem := []
  erc721 : List FeedItem := []
  erc1155 : List FeedItem := []
  txOracle : String → Option RpcTx := fun _ => none
  rcptOracle : String → Option Receipt := fun _ => none

/-- `externals` after both hydration stages (both `ENABLE_HYDRATE_*` flags are
`true` in the source). -/
def hydratedExternals (inp : BuildIn) : List FeedItem :=
  hydrateMissingExternalsFromTokenFeeds inp.txOracle inp.erc20 inp.erc721 inp.erc1155
    (hydrateMissingExternalsFromInternals inp.txOracle inp.internalsFeed inp.externalsRaw)

/-- `domainTxFromFeed`: hashes of erc721 transfers from the zero address to the
queried address whose token symbol/name passes the domain-text heuristic. -/
def domainTxFromFeed (addr : String) (erc721 : List FeedItem) : List String :=
  ((erc721.filter (fun n => jsToLower (jsOr n.from_ "") = ZERO ∧
                            jsToLower (jsOr n.to_ "") = addr)).filter
    (fun n => looksLikeDomainText n.tokenSymbol || looksLikeDomainText n.tokenName)).map
    itemKey

/-- `nftMintFromFeed`: hashes of erc721/erc1155 transfers from the zero address
to the queried address. -/
def nftMintFromFeed (addr : String) (erc721 erc1155 : List FeedItem) : List String :=
  ((erc721.filter (fun n => jsToLower (jsOr n.from_ "") = ZERO ∧
                            jsToLower (jsOr n.to_ "") = addr)).map itemKey) ++
  ((erc1155.filter (fun m => jsToLower (jsOr m.from_ "") = ZERO ∧
                             jsToLower (jsOr m.to_ "") = addr)).map itemKey)

/-- Outcome of the first (no-receipt) classification pass for one external:
the assigned category, whether the hash joins `nativeConfirmSet`, and whether
it is pushed onto `candidateList`. -/
structure T1Out where
  category : String
  confirm : Bool
  candidate : Bool
  deriving Repr, DecidableEq

/-- The `hintedCreation` test of the final Tier-1 branch: the internal feed
shows a CREATE/CREATE2 trace (or a created contract address) for this hash,
from the queried address. -/
def hintedCreation (addr : String) (internalsFeed : List FeedItem) (t : FeedItem) : Bool :=
  (internalsFeed.filter (fun i => itemKey i ≠ "" ∧ itemKey i = extKey t)).any (fun i =>
    let typ := jsToLower (jsOr i.type_ "")
    let created := jsToLower (jsOr i.contractAddress "")
    (typ = "create" || typ = "create2" || created ≠ "") && jsToLower (jsOr t.from_ "") = addr)

/-- The Tier-1 if/else chain of `buildActivity`'s first pass.  The source's
local consts `toLower`, `fromLower`, `txhashLower` are inlined as
`jsToLower (jsOr t.to_ "")`, `jsToLower (jsOr t.from_ "")` and `extKey t`. -/
def tier1 (addr : String) (domainHints nftHints : List String)
    (internalsFeed : List FeedItem) (t : FeedItem) : T1Out :=
  if isFailedByTxlist t then ⟨"fail", false, false⟩
  else if CC_CONTRACTS.contains (jsToLower (jsOr t.to_ "")) then ⟨"cc", false, false⟩
  else if isCCO t then ⟨"cco", false, false⟩
  else if GM_CONTRACTS.contains (jsToLower (jsOr t.to_ "")) then ⟨"gm", false, false⟩
  else if domainHints.contains (extKey t) then ⟨"domain_mint", false, false⟩
  else if nftHints.contains (extKey t) then ⟨"nft_mint", false, false⟩
  else if isStakeQuick t then ⟨"stake", false, false⟩
  else if isSwapQuick t then ⟨"swap", false, false⟩
  else if isAddLiquidityQuick t then ⟨"add_liquidity", false, false⟩
  else if isRemoveLiquidityQuick t then ⟨"remove_liquidity", false, false⟩
  else if isGMQuick t then ⟨"gm", false, false⟩
  else if isApproveQuick t then ⟨"approve", false, false⟩
  else if isNativeSendCandidate t addr then ⟨"other", true, false⟩
  else
    ⟨if hintedCreation addr internalsFeed t then "cc" else "other", false,
     (jsToLower (jsOr t.from_ "") = addr) &&
       (jsTruthy t.to_ && !isPrecompile t.to_) &&
       ((if hintedCreation addr internalsFeed t then "cc" else "other") = "other") &&
       (!emptyInput t.input || DOMAIN_CONTRACTS.contains (jsToLower (jsOr t.to_ "")))⟩

/-- The native `ActivityRow` pushed for one external in the first pass. -/
def nativeRowOf (addr : String) (t : FeedItem) (category : String) : Row :=
  let toLower := jsToLower (jsOr t.to_ "")
  let fromLower := jsToLower (jsOr t.from_ "")
  { kind := "native",
    hash := t.hash,
    blockNumber := t.blockNumber.getD 0,
    timeMs := jsTimes1000 t.timeStamp,
    from_ := fromLower,
    to_ := if jsTruthy t.to_ then some toLower else none,
    direction := if fromLower = addr then "out" else "in",
    value := some (formatUnits (t.value.getD 0) 18),
    category := some category }

/-- Tier-1 outcome of one external within a `buildActivity` call. -/
def tier1Of (inp : BuildIn) (t : FeedItem) : T1Out :=
  let addr := jsToLower inp.address
  tier1 addr (domainTxFromFeed addr inp.erc721)
    (nftMintFromFeed addr inp.erc721 inp.erc1155) inp.internalsFeed t

/-- `nativeRows` as they stand after the first pass. -/
def nativeRows0 (inp : BuildIn) : List Row :=
  (hydratedExternals inp).map
    (fun t => nativeRowOf (jsToLower inp.address) t (tier1Of inp t).category)

/-- `nativeConfirmSet` (a JS `Set`: deduplicated, insertion order). -/
def nativeConfirmSet (inp : BuildIn) : List String :=
  firstOccur
    (((hydratedExternals inp).filter (fun t => (tier1Of inp t).confirm)).map extKey)

/-- `candidateList` (a plain array, in externals order). -/
def candidateList (inp : BuildIn) : List String :=
  ((hydratedExternals inp).filter (fun t => (tier1Of inp t).candidate)).map extKey

/-- `candidateList.slice(0, MAX_MINTDOMAIN_CANDIDATES)`. -/
def candLimited (inp : BuildIn) : List String :=
  (candidateList inp).take MAX_MINTDOMAIN_CANDIDATES

/-- The receipt map produced by `getReceiptsSelective` on the confirm/candidate
union: empty keys are skipped, failed fetches are absent. -/
def rcptsOf (inp : BuildIn) (h : String) : Option Receipt :=
  if h = "" then none else inp.rcptOracle h

/-- Merge key of an output row: `String(r.hash || '').toLowerCase()`. -/
def rowKey (r : Row) : String := jsToLower (jsOr r.hash "")

/-- Apply `f` to the last row whose key is `h` (the row `rowByHash.get(h)`
denotes); leave the list unchanged if no row has that key. -/
def updateLastWith (h : String) (f : Row → Row) : List Row → List Row
  | [] => []
  | r :: rs =>
    if rs.any (fun r' => rowKey r' = h) then r :: updateLastWith h f rs
    else if rowKey r = h then f r :: rs
    else r :: updateLastWith h f rs

/-- One iteration of the receipt pass over `nativeConfirmSet`: confirm
`native_send` when the receipt succeeded with zero logs
(`if (!row || !rcp) continue` is the no-op cases of the match and of
`updateLastWith`). -/
def tier2aStep (inp : BuildIn) (rows : List Row) (h : String) : List Row :=
  match rcptsOf inp h with
  | none => rows
  | some rcp =>
      if !isFailed rcp && rcp.logs.isEmpty then
        updateLastWith h (fun r => { r with category := some "native_send" }) rows
      else rows

/-- The receipt pass over `nativeConfirmSet`. -/
def tier2a (inp : BuildIn) (rows : List Row) : List Row :=
  (nativeConfirmSet inp).foldl (tier2aStep inp) rows

/-- `extByHash.get(h)`: the last external with key `h`. -/
def lastExt (externals : List FeedItem) (h : String) : Option FeedItem :=
  (externals.filter (fun t => extKey t = h)).getLast?

/-- The category reassignment the `candLimited` receipt pass makes for one
candidate (given its non-failed receipt): `domain_mint` via topics/selectors,
`domain_mint` via the known-registrar fallback, `nft_mint` when the receipt
shows a mint-shaped transfer to the user, else no change. -/
def tier2bCategory (addr : String) (tx : FeedItem) (rcp : Receipt) : Option String :=
  if isDomainBySigOrEvent tx rcp then some "domain_mint"
  else
    let toAddr := jsToLower (jsOr tx.to_ "")
    let fn := jsToLower (jsOr tx.functionName "")
    let sig := inputSig tx
    let looksRegister := strIncludes fn "register" || strIncludes fn "registername" ||
                         strIncludes fn "registerdomain" || DOMAIN_SELECTORS.contains sig
    if DOMAIN_CONTRACTS.contains toAddr && looksRegister then some "domain_mint"
    else if (mintedContractsForUser rcp addr).length > 0 then some "nft_mint"
    else none

/-- One iteration of the receipt pass over `candLimited`: detect domain or NFT
mints for an unknown outgoing call. -/
def tier2bStep (inp : BuildIn) (externals : List FeedItem)
    (rows : List Row) (h : String) : List Row :=
  match rcptsOf inp h, lastExt externals h with
  | some rcp, some tx =>
      if isFailed rcp then rows
      else
        match tier2bCategory (jsToLower inp.address) tx rcp with
        | some c => updateLastWith h (fun r => { r with category := some c }) rows
        | none => rows
  | _, _ => rows

/-- `nativeRows` after both receipt passes. -/
def nativeRowsFinal (inp : BuildIn) : List Row :=
  (candLimited inp).foldl (tier2bStep inp (hydratedExternals inp))
    (tier2a inp (nativeRows0 inp))

/-- One internal-transfer row (category always null). -/
def internalRowOf (addr : String) (it : FeedItem) : Row :=
  let f := jsToLower (jsOr it.from_ "")
  let t := jsToLower (jsOr it.to_ "")
  { kind := "internal",
    hash := jsOrOpt it.hash it.transactionHash,
    blockNumber := it.blockNumber.getD 0,
    timeMs := jsTimes1000 it.timeStamp,
    from_ := f,
    to_ := if t ≠ "" then some t else none,
    direction := if f = addr then "out" else "in",
    value := some (formatUnits (it.value.getD 0) 18),
    category := none }

/-- One ERC-20 row (category always null). -/
def token20RowOf (addr : String) (e : FeedItem) : Row :=
  let dec := e.tokenDecimal.getD 18
  let amt := formatUnits (e.value.getD 0) dec
  let f := jsToLower (jsOr e.from_ "")
  let t := jsToLower (jsOr e.to_ "")
  let c := jsToLower (jsOr e.contractAddress "")
  { kind := "token",
    standard := some "erc20",
    hash := jsOrOpt e.hash e.transactionHash,
    blockNumber := e.blockNumber.getD 0,
    timeMs := jsTimes1000 e.timeStamp,
    from_ := f,
    to_ := if t ≠ "" then some t else none,
    direction := if f = addr then "out" else "in",
    contract := if c ≠ "" then some c else none,
    symbol := some (jsOr e.tokenSymbol "TOKEN"),
    amount := some amt,
    category := none }

/-- One ERC-721 row: category `nft_mint` iff the feed itself shows a mint from
the zero address to the queried address, else null. -/
def token721RowOf (addr : String) (n : FeedItem) : Row :=
  let isMintFromFeed := jsToLower (jsOr n.from_ "") = ZERO ∧
                        jsToLower (jsOr n.to_ "") = addr
  let f := jsToLower (jsOr n.from_ "")
  let t := jsToLower (jsOr n.to_ "")
  let c := jsToLower (jsOr n.contractAddress "")
  { kind := "token",
    standard := some "erc721",
    hash := jsOrOpt n.hash n.transactionHash,
    blockNumber := n.blockNumber.getD 0,
    timeMs := jsTimes1000 n.timeStamp,
    from_ := f,
    to_ := if t ≠ "" then some t else none,
    direction := if f = addr then "out" else "in",
    contract := if c ≠ "" then some c else none,
    symbol := some (jsOr n.tokenSymbol "NFT"),
    tokenId := some ((Option.orElse n.tokenID (fun _ => n.tokenId)).getD ""),
    category := if isMintFromFeed then some "nft_mint" else none }

/-- The internal rows of one call. -/
def internalRows (inp : BuildIn) : List Row :=
  inp.internalsFeed.map (internalRowOf (jsToLower inp.address))

/-- The ERC-20 rows of one call. -/
def token20Rows (inp : BuildIn) : List Row :=
  inp.erc20.map (token20RowOf (jsToLower inp.address))

/-- The ERC-721 rows of one call (no rows are built from the 1155 feed). -/
def token721Rows (inp : BuildIn) : List Row :=
  inp.erc721.map (token721RowOf (jsToLower inp.address))

/-- The concatenation `[...nativeRows, ...internalRows, ...token20, ...token721]`. -/
def allRows (inp : BuildIn) : List Row :=
  nativeRowsFinal inp ++ internalRows inp ++ token20Rows inp ++ token721Rows inp

/-- The dedup priority `prio(r)` of the reconciler. -/
def prio (r : Row) : Nat :=
  if r.kind = "native" then
    let c := r.category
    if c = some "fail" then 125
    else if c = some "domain_mint" then 120
    else if c = some "cc" then 115
    else if c = some "cco" then 112
    else if c = some "stake" then 105
    else if c = some "swap" then 104
    else if c = some "add_liquidity" then 103
    else if c = some "remove_liquidity" then 103
    else if c = some "gm" then 100
    else if c = some "native_send" then 95
    else if c = some "approve" then 93
    else if c = some "nft_mint" then 90
    else if c = some "other" then 80
    else 50
  else if r.kind = "token" then (if r.category = some "nft_mint" then 85 else 20)
  else if r.kind = "internal" then 10
  else 0

/-- Association-list read of the `best` JS `Map`. -/
def aGet (l : List (String × Row)) (h : String) : Option Row :=
  (l.find? (fun p => p.1 = h)).map Prod.snd

/-- In-place value update of the `best` JS `Map` (key already present). -/
def aSet (l : List (String × Row)) (h : String) (r : Row) : List (String × Row) :=
  l.map (fun p => if p.1 = h then (h, r) else p)

/-- One iteration of the dedup loop: keep the strictly higher-priority row. -/
def bestStep (acc : List (String × Row)) (r : Row) : List (String × Row) :=
  let h := rowKey r
  if h = "" then acc
  else match aGet acc h with
    | none => acc ++ [(h, r)]
    | some cur => if prio r > prio cur then aSet acc h r else acc

/-- The `best` map after the dedup loop, as an insertion-ordered assoc list. -/
def bestFold (all : List Row) : List (String × Row) := all.foldl bestStep []

/-- The ES2023 `sort` comparator `(a, b) => b.timeMs - a.timeMs` as a
"keep `a` before `b`" test (a comparator value of `NaN` counts as `+0`). -/
def rowLe (a b : Row) : Bool :=
  match b.timeMs, a.timeMs with
  | JsNum.nan, _ => true
  | _, JsNum.nan => true
  | JsNum.val y, JsNum.val x => y ≤ x

/-- Stable insertion of a row into an already-sorted suffix. -/
def insertRow (x : Row) : List Row → List Row
  | [] => [x]
  | y :: ys => if rowLe x y then x :: y :: ys else y :: insertRow x ys

/-- Stable sort by `rowLe`, i.e. by `timeMs` descending. -/
def sortRows (l : List Row) : List Row := l.foldr insertRow []

/-- `buildActivity`: classify, reconcile and sort one wallet's activity. -/
def buildActivity (inp : BuildIn) : List Row :=
  sortRows ((bestFold (allRows inp)).map Prod.snd)

/-- The counters returned by `buildStats` (`bridged` is the constant string
`'coming_soon'`). -/
structure Stats where
  stakeActions : Nat
  nativeSends : Nat
  nftMints : Nat
  domainMints : Nat
  gmCount : Nat
  ccCount : Nat
  swapCount : Nat
  addLiquidityCount : Nat
  removeLiquidityCount : Nat
  approveCount : Nat
  bridged : String
  deriving Repr, DecidableEq

/-- `buildStats`: per-category counters over the outgoing native rows of the
same `buildActivity` list. -/
def buildStats (inp : BuildIn) : Stats :=
  let activity := buildActivity inp
  let extOut := activity.filter (fun r =>
    r.kind = "native" ∧ r.direction = "out" ∧ r.category ≠ some "fail")
  let countCat := fun (name : String) =>
    (extOut.filter (fun r => r.category = some name)).length
  let ccBoth := (extOut.filter (fun r =>
    r.category = some "cc" ∨ r.category = some "cco")).length
  { stakeActions := countCat "stake",
    nativeSends := countCat "native_send",
    nftMints := countCat "nft_mint",
    domainMints := countCat "domain_mint",
    gmCount := countCat "gm",
    ccCount := ccBoth,
    swapCount := countCat "swap",
    addLiquidityCount := countCat "add_liquidity",
    removeLiquidityCount := countCat "remove_liquidity",
    approveCount := countCat "approve",
    bridged := "coming_soon" }

/-- Options of `fetchPagedAccount` with the source defaults. -/
structure FetchOpts where
  pageSize : Nat := 100
  maxPages : Nat := 20
  absMaxPages : Nat := 300
  dynamic : Bool := true

/-- `Math.min(...arr.map(x => Number(x.timeStamp || 0)))` (callers guarantee
`arr` nonempty). -/
def minTs (arr : List FeedItem) : Nat :=
  match arr.map tsOf with
  | [] => 0
  | t :: ts => ts.foldl min t

/-- The paging while-loop of `fetchPagedAccount`.  The page oracle returns
`none` for a failed `getJSON` (which breaks pagination) and the page's
`result` array otherwise; `fuel` bounds the iteration count (the loop itself
terminates because `page` grows every iteration while `maxPages` is capped). -/
def fetchLoop (oracle : Nat → Option (List FeedItem)) (startTs pageSize absMaxPages : Nat)
    (dynamic : Bool) : Nat → Nat → Nat → List FeedItem → List FeedItem
  | 0, _, _, out => out
  | fuel + 1, page, maxPages, out =>
      if page > maxPages ∧ ¬(dynamic ∧ maxPages < absMaxPages) then out
      else
        let maxPages' := if page > maxPages then min absMaxPages (maxPages + 20)
                         else maxPages
        match oracle page with
        | none => out
        | some arr =>
            if arr.isEmpty then out
            else
              let out' := out ++ arr
              if minTs arr ≤ startTs ∨ arr.length < pageSize then out'
              else fetchLoop oracle startTs pageSize absMaxPages dynamic
                     fuel (page + 1) maxPages' out'

/-- `fetchPagedAccount(action, address, {startTs, endTs}, opts)`: the page
oracle stands for `getJSON` on the per-(action,address,page) URL. -/
def fetchPagedAccount (oracle : Nat → Option (List FeedItem))
    (startTs endTs : Nat) (opts : FetchOpts := {}) : List FeedItem :=
  let maxPages := if startTs = 0 then max opts.maxPages 250 else opts.maxPages
  let out := fetchLoop oracle startTs opts.pageSize opts.absMaxPages opts.dynamic
               (opts.absMaxPages + maxPages + 2) 1 maxPages []
  let filtered := out.filter (fun x => startTs ≤ tsOf x ∧ tsOf x ≤ endTs)
  uniqueBy filtered itemKey

/-- Modelled from the spec: the Tier-2 rule for mint/domain candidates as
section 4.2 states it, including the metadata-resolution disjunct ("resolve
each contract's symbol/name ... and classify domain_mint if any matches the
domain-text heuristic").  The code of `buildActivity` in the repository never
consults `get721Meta` in this pass, so the metadata resolver is an explicit
oracle argument here (contract address, lower case, to (symbol, name)). -/
def specTier2Category (metaOracle : String → String × String) (addr : String)
    (tx : FeedItem) (rcp : Receipt) : Option String :=
  if isDomainBySigOrEvent tx rcp then some "domain_mint"
  else
    let minted := mintedContractsForUser rcp addr
    if minted.any (fun c => looksLikeDomainText (some (metaOracle c).1) ||
                            looksLikeDomainText (some (metaOracle c).2)) then
      some "domain_mint"
    else if minted.length > 0 then some "nft_mint"
    else none

lemma char_le_iff (a b : Char) : a ≤ b ↔ a.toNat ≤ b.toNat := by
  rw [Char.le_def, UInt32.le_def, BitVec.le_def]; rfl

lemma toNat_ofNat_small (n : Nat) (h : n < 0xd800) : (Char.ofNat n).toNat = n := by
  have hv : n.isValidChar := Or.inl h
  unfold Char.ofNat
  rw [dif_pos hv]
  unfold Char.ofNatAux Char.toNat
  simp [UInt32.toNat, BitVec.ofNatLt]

lemma chLower_idem (c : Char) : chLower (chLower c) = chLower c := by
  unfold chLower
  by_cases h : 'A' ≤ c ∧ c ≤ 'Z'
  · simp only [h, and_self, if_true]
    have h1 : c.toNat ≤ 90 := by
      have := (char_le_iff c 'Z').mp h.2
      simpa using this
    have ht : (Char.ofNat (c.toNat + 32)).toNat = c.toNat + 32 :=
      toNat_ofNat_small _ (by omega)
    have hno : ¬ ('A' ≤ Char.ofNat (c.toNat + 32) ∧ Char.ofNat (c.toNat + 32) ≤ 'Z') := by
      intro hc
      have h2 := (char_le_iff _ 'Z').mp hc.2
      have h3 := (char_le_iff 'A' c).mp h.1
      rw [ht] at h2
      have hz : ('Z').toNat = 90 := by decide
      rw [hz] at h2
      have ha : ('A').toNat = 65 := by decide
      rw [ha] at h3
      omega
    rw [if_neg hno]
  · simp [h]

lemma jsToLower_idem (s : String) : jsToLower (jsToLower s) = jsToLower s := by
  show (⟨(s.data.map chLower).map chLower⟩ : String) = ⟨s.data.map chLower⟩
  rw [List.map_map]
  congr 1
  exact List.map_congr_left (fun c _ => chLower_idem c)

lemma mem_firstOccur_iff {ks : List String} {k : String} :
    k ∈ firstOccur ks ↔ k ∈ ks := by
  have main : ∀ (ks acc : List String), ∀ k,
      (k ∈ ks.foldl (fun acc k => if acc.contains k then acc else acc ++ [k]) acc ↔
        k ∈ ks ∨ k ∈ acc) := by
    intro ks
    induction ks with
    | nil => intro acc k; simp
    | cons a t ih =>
        intro acc k
        simp only [List.foldl_cons]
        by_cases hc : acc.contains a
        · rw [if_pos hc, ih]
          have ha : a ∈ acc := by simpa using hc
          simp only [List.mem_cons]
          constructor
          · rintro (h | h)
            · exact Or.inl (Or.inr h)
            · exact Or.inr h
          · rintro (h | h)
            · rcases h with rfl | h
              · exact Or.inr ha
              · exact Or.inl h
            · exact Or.inr h
        · rw [if_neg hc, ih]
          simp only [List.mem_append, List.mem_cons, List.mem_singleton]
          tauto
  have := main ks [] k
  simpa [firstOccur] using this

lemma firstOccur_nodup (ks : List String) : (firstOccur ks).Nodup := by
  have main : ∀ (ks acc : List String), acc.Nodup →
      (ks.foldl (fun acc k => if acc.contains k then acc else acc ++ [k]) acc).Nodup := by
    intro ks
    induction ks with
    | nil => intro acc h; simpa
    | cons a t ih =>
        intro acc h
        simp only [List.foldl_cons]
        by_cases hc : acc.contains a
        · rw [if_pos hc]; exact ih acc h
        · rw [if_neg hc]
          refine ih _ ?_
          refine List.Nodup.append h (List.nodup_singleton a) ?_
          have hna : a ∉ acc := by simpa using hc
          intro x hx hx'
          simp only [List.mem_singleton] at hx'
          subst hx'
          exact hna hx
  exact main ks [] List.nodup_nil

/-- One comparison of the dedup loop, on option values: keep the strictly
higher-priority row. -/
def pickBest (acc : Option Row) (r : Row) : Option Row :=
  match acc with
  | none => some r
  | some cur => if prio r > prio cur then some r else some cur

/-- The winner of the dedup conflict among a list of rows (same hash). -/
def foldBest (o : Option Row) (l : List Row) : Option Row := l.foldl pickBest o

lemma pickBest_none (r : Row) : pickBest none r = some r := rfl

lemma pickBest_some (cur r : Row) :
    pickBest (some cur) r = if prio r > prio cur then some r else some cur := rfl

lemma foldBest_nil (o : Option Row) : foldBest o [] = o := rfl

lemma foldBest_cons (o : Option Row) (r : Row) (l : List Row) :
    foldBest o (r :: l) = foldBest (pickBest o r) l := rfl

lemma pickBest_isSome (o : Option Row) (r : Row) : (pickBest o r).isSome := by
  cases o with
  | none => rfl
  | some cur =>
      rw [pickBest_some]
      by_cases h : prio r > prio cur
      · rw [if_pos h]; rfl
      · rw [if_neg h]; rfl

lemma foldBest_isSome : ∀ (l : List Row) (o : Option Row),
    o.isSome ∨ l ≠ [] → (foldBest o l).isSome := by
  intro l
  induction l with
  | nil =>
      intro o h
      rcases h with h | h
      · exact h
      · exact absurd rfl h
  | cons r t ih =>
      intro o _
      rw [foldBest_cons]
      exact ih _ (Or.inl (pickBest_isSome o r))

lemma foldBest_mem : ∀ (l : List Row) (o : Option Row) (w : Row),
    foldBest o l = some w → o = some w ∨ w ∈ l := by
  intro l
  induction l with
  | nil => intro o w h; exact Or.inl h
  | cons r t ih =>
      intro o w h
      rw [foldBest_cons] at h
      rcases ih _ _ h with h' | h'
      · cases o with
        | none =>
            rw [pickBest_none] at h'
            have : r = w := Option.some.inj h'
            exact Or.inr (this ▸ List.mem_cons_self r t)
        | some cur =>
            rw [pickBest_some] at h'
            by_cases hp : prio r > prio cur
            · rw [if_pos hp] at h'
              have : r = w := Option.some.inj h'
              exact Or.inr (this ▸ List.mem_cons_self r t)
            · rw [if_neg hp] at h'
              exact Or.inl h'
      · exact Or.inr (List.mem_cons_of_mem _ h')

lemma foldBest_ge : ∀ (l : List Row) (o : Option Row) (w : Row),
    foldBest o l = some w →
    (∀ c, o = some c → prio c ≤ prio w) ∧ (∀ x ∈ l, prio x ≤ prio w) := by
  intro l
  induction l with
  | nil =>
      intro o w h
      refine ⟨fun c hc => ?_, fun x hx => absurd hx (List.not_mem_nil x)⟩
      rw [foldBest_nil, hc] at h
      exact le_of_eq (congrArg prio (Option.some.inj h))
  | cons r t ih =>
      intro o w h
      rw [foldBest_cons] at h
      obtain ⟨ih1, ih2⟩ := ih _ _ h
      have hr : prio r ≤ prio w := by
        cases o with
        | none => exact ih1 r (by rw [pickBest_none])
        | some cur =>
            by_cases hp : prio r > prio cur
            · exact ih1 r (by rw [pickBest_some, if_pos hp])
            · exact le_trans (le_of_not_lt hp)
                (ih1 cur (by rw [pickBest_some, if_neg hp]))
      refine ⟨fun c hc => ?_, fun x hx => ?_⟩
      · subst hc
        by_cases hp : prio r > prio c
        · exact le_trans (le_of_lt hp) hr
        · exact ih1 c (by rw [pickBest_some, if_neg hp])
      · rcases List.mem_cons.mp hx with rfl | hx
        · exact hr
        · exact ih2 x hx

lemma aGet_nil (h : String) : aGet [] h = none := rfl

lemma aGet_cons (p : String × Row) (l : List (String × Row)) (h : String) :
    aGet (p :: l) h = if p.1 = h then some p.2 else aGet l h := by
  by_cases hp : p.1 = h
  · rw [if_pos hp]
    unfold aGet
    rw [List.find?_cons_of_pos _ (by simpa using hp)]
    rfl
  · rw [if_neg hp]
    unfold aGet
    rw [List.find?_cons_of_neg _ (by simpa using hp)]

lemma aGet_append (l₁ l₂ : List (String × Row)) (h : String) :
    aGet (l₁ ++ l₂) h =
      (match aGet l₁ h with
       | some v => some v
       | none => aGet l₂ h) := by
  induction l₁ with
  | nil => simp [aGet_nil]
  | cons p t ih =>
      rw [List.cons_append, aGet_cons, aGet_cons]
      by_cases hp : p.1 = h
      · rw [if_pos hp, if_pos hp]
      · rw [if_neg hp, if_neg hp, ih]

lemma aGet_aSet_self (l : List (String × Row)) (h : String) (r : Row)
    (hs : (aGet l h).isSome) : aGet (aSet l h r) h = some r := by
  induction l with
  | nil => simp [aGet_nil] at hs
  | cons p t ih =>
      unfold aSet
      rw [List.map_cons]
      by_cases hp : p.1 = h
      · rw [if_pos hp, aGet_cons]
        simp
      · rw [if_neg hp, aGet_cons, if_neg hp]
        rw [aGet_cons, if_neg hp] at hs
        exact ih hs

lemma aGet_aSet_ne (l : List (String × Row)) (h h' : String) (r : Row)
    (hne : h' ≠ h) : aGet (aSet l h r) h' = aGet l h' := by
  induction l with
  | nil => rfl
  | cons p t ih =>
      unfold aSet
      rw [List.map_cons]
      by_cases hp : p.1 = h
      · have e1 : ¬((h, r).1 = h') := fun e => hne e.symm
        have e2 : ¬(p.1 = h') := by rw [hp]; exact fun e => hne e.symm
        rw [if_pos hp, aGet_cons, aGet_cons, if_neg e1, if_neg e2]
        exact ih
      · rw [if_neg hp, aGet_cons, aGet_cons]
        by_cases hq : p.1 = h'
        · rw [if_pos hq, if_pos hq]
        · rw [if_neg hq, if_neg hq]
          exact ih

lemma aSet_keys (l : List (String × Row)) (h : String) (r : Row) :
    (aSet l h r).map Prod.fst = l.map Prod.fst := by
  unfold aSet
  rw [List.map_map]
  apply List.map_congr_left
  intro p _
  by_cases hp : p.1 = h
  · simp [hp]
  · simp [hp]

lemma aGet_eq_none_iff (l : List (String × Row)) (h : String) :
    aGet l h = none ↔ ∀ p ∈ l, p.1 ≠ h := by
  unfold aGet
  rw [Option.map_eq_none', List.find?_eq_none]
  constructor
  · intro hf p hp
    exact fun e => by simpa [e] using hf p hp
  · intro hf p hp
    simpa using hf p hp

/-- Invariant of the `best` map: each stored pair is keyed by its row's hash
key, and keys are nonempty. -/
def goodPairs (acc : List (String × Row)) : Prop :=
  ∀ p ∈ acc, rowKey p.2 = p.1 ∧ p.1 ≠ ""

lemma bestStep_empty {acc : List (String × Row)} {r : Row} (hk : rowKey r = "") :
    bestStep acc r = acc := by
  unfold bestStep
  rw [if_pos hk]

lemma bestStep_new {acc : List (String × Row)} {r : Row} (hk : rowKey r ≠ "")
    (hget : aGet acc (rowKey r) = none) : bestStep acc r = acc ++ [(rowKey r, r)] := by
  unfold bestStep
  rw [if_neg hk, hget]

lemma bestStep_update {acc : List (String × Row)} {r cur : Row} (hk : rowKey r ≠ "")
    (hget : aGet acc (rowKey r) = some cur) (hpr : prio r > prio cur) :
    bestStep acc r = aSet acc (rowKey r) r := by
  unfold bestStep
  rw [if_neg hk, hget]
  exact if_pos hpr

lemma bestStep_keep {acc : List (String × Row)} {r cur : Row} (hk : rowKey r ≠ "")
    (hget : aGet acc (rowKey r) = some cur) (hpr : ¬prio r > prio cur) :
    bestStep acc r = acc := by
  unfold bestStep
  rw [if_neg hk, hget]
  exact if_neg hpr

lemma goodPairs_bestStep {acc : List (String × Row)} (r : Row)
    (hg : goodPairs acc) : goodPairs (bestStep acc r) := by
  by_cases hk : rowKey r = ""
  · rw [bestStep_empty hk]; exact hg
  · cases hget : aGet acc (rowKey r) with
    | none =>
        rw [bestStep_new hk hget]
        intro p hp
        rcases List.mem_append.mp hp with hp | hp
        · exact hg p hp
        · simp only [List.mem_singleton] at hp
          subst hp
          exact ⟨rfl, hk⟩
    | some cur =>
        by_cases hpr : prio r > prio cur
        · rw [bestStep_update hk hget hpr]
          intro p hp
          unfold aSet at hp
          rcases List.mem_map.mp hp with ⟨q, hq, hqe⟩
          by_cases hq1 : q.1 = rowKey r
          · rw [if_pos hq1] at hqe
            subst hqe
            exact ⟨rfl, hk⟩
          · rw [if_neg hq1] at hqe
            subst hqe
            exact hg q hq
        · rw [bestStep_keep hk hget hpr]; exact hg

lemma keysNodup_bestStep {acc : List (String × Row)} (r : Row)
    (hn : (acc.map Prod.fst).Nodup) : ((bestStep acc r).map Prod.fst).Nodup := by
  by_cases hk : rowKey r = ""
  · rw [bestStep_empty hk]; exact hn
  · cases hget : aGet acc (rowKey r) with
    | none =>
        rw [bestStep_new hk hget, List.map_append]
        refine List.Nodup.append hn (by simp) ?_
        intro x hx hx'
        simp only [List.map_cons, List.map_nil, List.mem_singleton] at hx'
        subst hx'
        rcases List.mem_map.mp hx with ⟨q, hq, hqe⟩
        exact ((aGet_eq_none_iff acc (rowKey r)).mp hget q hq) hqe
    | some cur =>
        by_cases hpr : prio r > prio cur
        · rw [bestStep_update hk hget hpr, aSet_keys]; exact hn
        · rw [bestStep_keep hk hget hpr]; exact hn

lemma bestStep_aGet {acc : List (String × Row)} (r : Row) (h : String)
    (hne : h ≠ "") :
    aGet (bestStep acc r) h =
      if rowKey r = h then pickBest (aGet acc h) r else aGet acc h := by
  by_cases hk : rowKey r = ""
  · rw [bestStep_empty hk, if_neg (by rw [hk]; exact fun e => hne e.symm)]
  · cases hget : aGet acc (rowKey r) with
    | none =>
        rw [bestStep_new hk hget, aGet_append]
        by_cases hrh : rowKey r = h
        · subst hrh
          rw [hget, if_pos rfl, pickBest_none, aGet_cons, if_pos rfl]
        · rw [if_neg hrh]
          cases hah : aGet acc h with
          | none => rw [aGet_cons, if_neg hrh, aGet_nil]
          | some v => rfl
    | some cur =>
        by_cases hpr : prio r > prio cur
        · rw [bestStep_update hk hget hpr]
          by_cases hrh : rowKey r = h
          · subst hrh
            rw [if_pos rfl, hget, pickBest_some, if_pos hpr]
            exact aGet_aSet_self acc _ r (by rw [hget]; rfl)
          · rw [if_neg hrh]
            exact aGet_aSet_ne acc _ h r (fun e => hrh e.symm)
        · rw [bestStep_keep hk hget hpr]
          by_cases hrh : rowKey r = h
          · subst hrh
            rw [if_pos rfl, hget, pickBest_some, if_neg hpr]
          · rw [if_neg hrh]

lemma bestFold_aux (all : List Row) : ∀ (acc : List (String × Row)),
    goodPairs acc → ((acc.map Prod.fst).Nodup) → ∀ h, h ≠ "" →
    aGet (List.foldl bestStep acc all) h =
      foldBest (aGet acc h) (all.filter (fun r => rowKey r = h)) := by
  induction all with
  | nil => intro acc _ _ h _; rfl
  | cons r t ih =>
      intro acc hg hn h hne
      rw [List.foldl_cons]
      rw [ih (bestStep acc r) (goodPairs_bestStep r hg) (keysNodup_bestStep r hn) h hne]
      rw [bestStep_aGet r h hne]
      by_cases hrh : rowKey r = h
      · rw [if_pos hrh, List.filter_cons_of_pos (by simpa using hrh), foldBest_cons]
      · rw [if_neg hrh, List.filter_cons_of_neg (by simpa using hrh)]

lemma bestFold_goodPairs (all : List Row) : goodPairs (bestFold all) := by
  unfold bestFold
  have main : ∀ (l : List Row) (acc : List (String × Row)), goodPairs acc →
      goodPairs (List.foldl bestStep acc l) := by
    intro l
    induction l with
    | nil => intro acc h; exact h
    | cons r t ih => intro acc h; exact ih _ (goodPairs_bestStep r h)
  exact main all [] (by intro p hp; simp at hp)

lemma bestFold_keysNodup (all : List Row) : ((bestFold all).map Prod.fst).Nodup := by
  unfold bestFold
  have main : ∀ (l : List Row) (acc : List (String × Row)),
      (acc.map Prod.fst).Nodup → ((List.foldl bestStep acc l).map Prod.fst).Nodup := by
    intro l
    induction l with
    | nil => intro acc h; exact h
    | cons r t ih => intro acc h; exact ih _ (keysNodup_bestStep r h)
  exact main all [] (by simp)

lemma bestFold_aGet (all : List Row) (h : String) (hne : h ≠ "") :
    aGet (bestFold all) h = foldBest none (all.filter (fun r => rowKey r = h)) := by
  unfold bestFold
  rw [bestFold_aux all [] (by intro p hp; simp at hp) (by simp) h hne]
  rfl

lemma aGet_of_mem_nodup {l : List (String × Row)} {h : String} {r : Row}
    (hn : (l.map Prod.fst).Nodup) (hm : (h, r) ∈ l) : aGet l h = some r := by
  induction l with
  | nil => simp at hm
  | cons p t ih =>
      rw [List.map_cons, List.nodup_cons] at hn
      rcases List.mem_cons.mp hm with rfl | hm
      · rw [aGet_cons, if_pos rfl]
      · rw [aGet_cons]
        have hp1 : p.1 ≠ h := by
          intro e
          exact hn.1 (e ▸ List.mem_map.mpr ⟨(h, r), hm, rfl⟩)
        rw [if_neg hp1]
        exact ih hn.2 hm

lemma mem_map_snd_iff {l : List (String × Row)} {r : Row} :
    r ∈ l.map Prod.snd ↔ ∃ h, (h, r) ∈ l := by
  rw [List.mem_map]
  constructor
  · rintro ⟨⟨h, r'⟩, hm, rfl⟩
    exact ⟨h, hm⟩
  · rintro ⟨h, hm⟩
    exact ⟨(h, r), hm, rfl⟩

lemma insertRow_perm (x : Row) (l : List Row) : List.Perm (insertRow x l) (x :: l) := by
  induction l with
  | nil => rfl
  | cons y ys ih =>
      unfold insertRow
      by_cases hle : rowLe x y
      · rw [if_pos hle]
      · rw [if_neg hle]
        exact List.Perm.trans (List.Perm.cons y ih) (List.Perm.swap x y ys)

lemma sortRows_perm (l : List Row) : List.Perm (sortRows l) l := by
  induction l with
  | nil => rfl
  | cons a t ih =>
      unfold sortRows
      rw [List.foldr_cons]
      exact List.Perm.trans (insertRow_perm a _) (List.Perm.cons a ih)

lemma mem_sortRows {l : List Row} {r : Row} : r ∈ sortRows l ↔ r ∈ l :=
  (sortRows_perm l).mem_iff

lemma updateLastWith_id (h : String) (f : Row → Row) :
    ∀ rows : List Row, (∀ r ∈ rows, rowKey r ≠ h) → updateLastWith h f rows = rows := by
  intro rows
  induction rows with
  | nil => intro _; rfl
  | cons r rs ih =>
      intro habs
      unfold updateLastWith
      have hany : rs.any (fun r' => rowKey r' = h) = false := by
        rw [List.any_eq_false]
        intro r' hr'
        simpa using habs r' (List.mem_cons_of_mem _ hr')
      rw [hany]
      simp only [Bool.false_eq_true, if_false]
      rw [if_neg (by simpa using habs r (List.mem_cons_self r rs))]
      rw [ih (fun r' hr' => habs r' (List.mem_cons_of_mem _ hr'))]

lemma filter_updateLastWith_ne {h h' : String} (f : Row → Row)
    (hf : ∀ r, rowKey (f r) = rowKey r) (hne : h' ≠ h) :
    ∀ rows : List Row,
      (updateLastWith h f rows).filter (fun r => rowKey r = h') =
      rows.filter (fun r => rowKey r = h') := by
  intro rows
  induction rows with
  | nil => rfl
  | cons r rs ih =>
      unfold updateLastWith
      by_cases hany : rs.any (fun r' => rowKey r' = h)
      · rw [if_pos hany, List.filter_cons, List.filter_cons, ih]
      · simp only [hany, Bool.false_eq_true, if_false]
        by_cases hr : rowKey r = h
        · have h1 : ¬(rowKey (f r) = h') := by rw [hf r, hr]; exact fun e => hne e.symm
          have h2 : ¬(rowKey r = h') := by rw [hr]; exact fun e => hne e.symm
          rw [if_pos hr, List.filter_cons_of_neg (by simpa using h1),
              List.filter_cons_of_neg (by simpa using h2)]
        · rw [if_neg hr, List.filter_cons, List.filter_cons, ih]

lemma filter_updateLastWith_self {h : String} (f : Row → Row) {r0 : Row}
    (hf : ∀ r, rowKey (f r) = rowKey r) :
    ∀ rows : List Row,
      rows.filter (fun r => rowKey r = h) = [r0] →
      (updateLastWith h f rows).filter (fun r => rowKey r = h) = [f r0] := by
  intro rows
  induction rows with
  | nil => intro hemp; simp at hemp
  | cons r rs ih =>
      intro hone
      unfold updateLastWith
      by_cases hany : rs.any (fun r' => rowKey r' = h)
      · rw [if_pos hany]
        by_cases hr : rowKey r = h
        · rw [List.filter_cons_of_pos (by simpa using hr)] at hone
          have hrs : rs.filter (fun r' => rowKey r' = h) = [] := (List.cons.inj hone).2
          rcases List.any_eq_true.mp hany with ⟨r', hr', hkey⟩
          have hmem : r' ∈ rs.filter (fun r' => rowKey r' = h) :=
            List.mem_filter.mpr ⟨hr', hkey⟩
          rw [hrs] at hmem
          simp at hmem
        · rw [List.filter_cons_of_neg (by simpa using hr)] at hone
          rw [List.filter_cons_of_neg (by simpa using hr)]
          exact ih hone
      · simp only [hany, Bool.false_eq_true, if_false]
        have hall : ∀ x ∈ rs, ¬(rowKey x = h) := by simpa using hany
        have hrs : rs.filter (fun r' => rowKey r' = h) = [] := by
          rw [List.filter_eq_nil_iff]
          intro r' hr'
          simpa using hall r' hr'
        by_cases hr : rowKey r = h
        · rw [List.filter_cons_of_pos (by simpa using hr), hrs] at hone
          have hr0 : r = r0 := (List.cons.inj hone).1
          rw [if_pos hr, List.filter_cons_of_pos (by simp [hf r, hr]), hrs, hr0]
        · rw [List.filter_cons_of_neg (by simpa using hr), hrs] at hone
          simp at hone

lemma mem_updateLastWith {h : String} {f : Row → Row} :
    ∀ {rows : List Row} {r' : Row}, r' ∈ updateLastWith h f rows →
      r' ∈ rows ∨ ∃ r0, r0 ∈ rows ∧ r' = f r0 := by
  intro rows
  induction rows with
  | nil => intro r' hm; simp [updateLastWith] at hm
  | cons r rs ih =>
      intro r' hm
      unfold updateLastWith at hm
      by_cases hany : rs.any (fun r'' => rowKey r'' = h)
      · rw [if_pos hany] at hm
        rcases List.mem_cons.mp hm with rfl | hm
        · exact Or.inl (List.mem_cons_self _ _)
        · rcases ih hm with hm' | ⟨r0, hr0, he⟩
          · exact Or.inl (List.mem_cons_of_mem _ hm')
          · exact Or.inr ⟨r0, List.mem_cons_of_mem _ hr0, he⟩
      · simp only [hany, Bool.false_eq_true, if_false] at hm
        by_cases hr : rowKey r = h
        · rw [if_pos hr] at hm
          rcases List.mem_cons.mp hm with rfl | hm
          · exact Or.inr ⟨r, List.mem_cons_self _ _, rfl⟩
          · exact Or.inl (List.mem_cons_of_mem _ hm)
        · rw [if_neg hr] at hm
          rcases List.mem_cons.mp hm with rfl | hm
          · exact Or.inl (List.mem_cons_self _ _)
          · rcases ih hm with hm' | ⟨r0, hr0, he⟩
            · exact Or.inl (List.mem_cons_of_mem _ hm')
            · exact Or.inr ⟨r0, List.mem_cons_of_mem _ hr0, he⟩

lemma uniqueBy_main (k : FeedItem → String) :
    ∀ (arr : List FeedItem) (ks : List String) (out : List FeedItem),
      out.map k = ks → ks.Nodup →
      (let res := arr.foldl (fun acc x =>
          let kx := k x
          if acc.1.contains kx then acc else (acc.1 ++ [kx], acc.2 ++ [x])) (ks, out)
       res.2.map k = res.1 ∧ res.1.Nodup ∧ ∀ x ∈ res.2, x ∈ out ∨ x ∈ arr) := by
  intro arr
  induction arr with
  | nil =>
      intro ks out hmap hnd
      exact ⟨hmap, hnd, fun x hx => Or.inl hx⟩
  | cons a t ih =>
      intro ks out hmap hnd
      simp only [List.foldl_cons]
      by_cases hc : ks.contains (k a)
      · simp only [hc, if_true]
        obtain ⟨h1, h2, h3⟩ := ih ks out hmap hnd
        refine ⟨h1, h2, fun x hx => ?_⟩
        rcases h3 x hx with hx' | hx'
        · exact Or.inl hx'
        · exact Or.inr (List.mem_cons_of_mem _ hx')
      · simp only [hc, if_false]
        have hna : (k a) ∉ ks := by simpa using hc
        have hmap' : (out ++ [a]).map k = ks ++ [k a] := by
          rw [List.map_append, hmap]; rfl
        have hnd' : (ks ++ [k a]).Nodup := by
          refine List.Nodup.append hnd (by simp) ?_
          intro x hx hx'
          simp only [List.mem_singleton] at hx'
          subst hx'
          exact hna hx
        obtain ⟨h1, h2, h3⟩ := ih _ _ hmap' hnd'
        refine ⟨h1, h2, fun x hx => ?_⟩
        rcases h3 x hx with hx' | hx'
        · rcases List.mem_append.mp hx' with hx'' | hx''
          · exact Or.inl hx''
          · simp only [List.mem_singleton] at hx''
            subst hx''
            exact Or.inr (List.mem_cons_self _ _)
        · exact Or.inr (List.mem_cons_of_mem _ hx')

lemma uniqueBy_keys_nodup (arr : List FeedItem) (k : FeedItem → String) :
    ((uniqueBy arr k).map k).Nodup := by
  obtain ⟨h1, h2, _⟩ := uniqueBy_main k arr [] [] rfl List.nodup_nil
  unfold uniqueBy
  rw [h1]
  exact h2

lemma uniqueBy_subset (arr : List FeedItem) (k : FeedItem → String) :
    ∀ x ∈ uniqueBy arr k, x ∈ arr := by
  obtain ⟨_, _, h3⟩ := uniqueBy_main k arr [] [] rfl List.nodup_nil
  intro x hx
  rcases h3 x hx with hx' | hx'
  · simp at hx'
  · exact hx'

lemma prio_internalRowOf (a : String) (it : FeedItem) :
    prio (internalRowOf a it) = 10 := rfl

lemma prio_token20RowOf (a : String) (e : FeedItem) :
    prio (token20RowOf a e) = 20 := rfl

lemma token721RowOf_kind (a : String) (n : FeedItem) :
    (token721RowOf a n).kind = "token" := rfl

lemma token721RowOf_category (a : String) (n : FeedItem) :
    (token721RowOf a n).category =
      if jsToLower (jsOr n.from_ "") = ZERO ∧ jsToLower (jsOr n.to_ "") = a
      then some "nft_mint" else none := rfl

lemma prio_cat_none {r : Row} (hc : r.category = none) : prio r ≤ 50 := by
  unfold prio
  rw [hc]
  by_cases h1 : r.kind = "native"
  · rw [if_pos h1]; decide
  · rw [if_neg h1]
    by_cases h2 : r.kind = "token"
    · rw [if_pos h2]; decide
    · rw [if_neg h2]
      by_cases h3 : r.kind = "internal"
      · rw [if_pos h3]; decide
      · rw [if_neg h3]; decide

lemma prio_token_nft {r : Row} (hk : r.kind = "token")
    (hc : r.category = some "nft_mint") : prio r = 85 := by
  unfold prio
  rw [hk, hc]
  decide

lemma prio_native {r : Row} (hk : r.kind = "native") {c : String}
    (hc : r.category = some c) :
    prio r =
      (if c = "fail" then 125 else if c = "domain_mint" then 120
       else if c = "cc" then 115 else if c = "cco" then 112
       else if c = "stake" then 105 else if c = "swap" then 104
       else if c = "add_liquidity" then 103 else if c = "remove_liquidity" then 103
       else if c = "gm" then 100 else if c = "native_send" then 95
       else if c = "approve" then 93 else if c = "nft_mint" then 90
       else if c = "other" then 80 else 50) := by
  unfold prio
  rw [hk, hc, if_pos rfl]
  simp only [Option.some.injEq]

lemma prio_token721RowOf_le (a : String) (n : FeedItem) :
    prio (token721RowOf a n) ≤ 85 := by
  by_cases hm : jsToLower (jsOr n.from_ "") = ZERO ∧ jsToLower (jsOr n.to_ "") = a
  · have := prio_token_nft (token721RowOf_kind a n)
      (by rw [token721RowOf_category, if_pos hm])
    omega
  · have := prio_cat_none
      (show (token721RowOf a n).category = none by rw [token721RowOf_category, if_neg hm])
    omega

lemma prio_ge_80_cat_isSome {r : Row} (hge : 80 ≤ prio r) : r.category ≠ none := by
  intro hc
  have := prio_cat_none hc
  omega

lemma rowKey_nativeRowOf (a : String) (t : FeedItem) (c : String) :
    rowKey (nativeRowOf a t c) = extKey t := rfl

lemma rowKey_internalRowOf (a : String) (it : FeedItem) :
    rowKey (internalRowOf a it) = itemKey it := rfl

lemma rowKey_token20RowOf (a : String) (e : FeedItem) :
    rowKey (token20RowOf a e) = itemKey e := rfl

lemma rowKey_token721RowOf (a : String) (n : FeedItem) :
    rowKey (token721RowOf a n) = itemKey n := rfl

lemma jsToLower_empty_iff (s : String) : jsToLower s = "" ↔ s = "" := by
  constructor
  · intro h
    have hd : s.data.map chLower = [] := congrArg String.data h
    rcases s with ⟨l⟩
    cases l with
    | nil => rfl
    | cons c t => simp at hd
  · intro h; rw [h]; rfl

lemma extKey_synthExternal (h : String) (tx : RpcTx) (ts : Nat) :
    extKey (synthExternal h tx ts) = jsToLower h := by
  unfold extKey synthExternal jsOr
  by_cases hh : h = ""
  · simp [hh]
  · simp [hh]

lemma itemKey_lower (t : FeedItem) : jsToLower (itemKey t) = itemKey t :=
  jsToLower_idem _

lemma extKey_lower (t : FeedItem) : jsToLower (extKey t) = extKey t :=
  jsToLower_idem _

lemma hydrateInternals_eq (txO : String → Option RpcTx) (f e : List FeedItem) (lim : Nat) :
    hydrateMissingExternalsFromInternals txO f e lim =
      e ++ (intMissing f e lim).filterMap (hydrateIntItem txO f) := by
  unfold hydrateMissingExternalsFromInternals
  by_cases hm : (intMissing f e lim).isEmpty
  · rw [if_pos hm]
    rw [List.isEmpty_iff.mp hm]
    simp
  · rw [if_neg hm]

lemma hydrateTokens_eq (txO : String → Option RpcTx) (t20 t721 t1155 e : List FeedItem)
    (lim : Nat) :
    hydrateMissingExternalsFromTokenFeeds txO t20 t721 t1155 e lim =
      e ++ (((tsMapBuild (e.map extKey) t20 t721 t1155).map Prod.fst).take lim).filterMap
            (hydrateTokenItem txO (tsMapBuild (e.map extKey) t20 t721 t1155)) := by
  unfold hydrateMissingExternalsFromTokenFeeds
  by_cases hm : (((tsMapBuild (e.map extKey) t20 t721 t1155).map Prod.fst).take lim).isEmpty
  · rw [if_pos hm]
    rw [List.isEmpty_iff.mp hm]
    simp
  · rw [if_neg hm]

lemma hydrateIntItem_some {txO : String → Option RpcTx} {f : List FeedItem}
    {h : String} {y : FeedItem} (hy : hydrateIntItem txO f h = some y) :
    extKey y = jsToLower h ∧ y.hash = some h := by
  unfold hydrateIntItem at hy
  cases htx : txO h with
  | none => rw [htx] at hy; exact absurd hy (by simp)
  | some tx =>
      rw [htx] at hy
      have he := Option.some.inj hy
      rw [← he]
      exact ⟨extKey_synthExternal _ _ _, rfl⟩

lemma hydrateTokenItem_some {txO : String → Option RpcTx} {tsMap : List (String × Nat)}
    {h : String} {y : FeedItem} (hy : hydrateTokenItem txO tsMap h = some y) :
    extKey y = jsToLower h ∧ y.hash = some h := by
  unfold hydrateTokenItem at hy
  cases htx : txO h with
  | none => rw [htx] at hy; exact absurd hy (by simp)
  | some tx =>
      rw [htx] at hy
      have he := Option.some.inj hy
      rw [← he]
      exact ⟨extKey_synthExternal _ _ _, rfl⟩

lemma intMissing_facts {f e : List FeedItem} {lim : Nat} {h : String}
    (hm : h ∈ intMissing f e lim) :
    (∃ it ∈ f, itemKey it = h) ∧ h ∉ e.map extKey ∧ h ≠ "" := by
  unfold intMissing at hm
  have hm1 : h ∈ (firstOccur ((f.map itemKey).filter (fun h => h ≠ ""))).filter
      (fun h => !(e.map extKey).contains h) := List.mem_of_mem_take hm
  have hm2 := List.mem_filter.mp hm1
  have hm3 := mem_firstOccur_iff.mp hm2.1
  have hm4 := List.mem_filter.mp hm3
  rcases List.mem_map.mp hm4.1 with ⟨it, hit, he⟩
  refine ⟨⟨it, hit, he⟩, ?_, by simpa using hm4.2⟩
  have := hm2.2
  simp only [Bool.not_eq_true'] at this
  simpa using this

lemma intMissing_lower {f e : List FeedItem} {lim : Nat} {h : String}
    (hm : h ∈ intMissing f e lim) : jsToLower h = h := by
  rcases (intMissing_facts hm).1 with ⟨it, _, he⟩
  rw [← he]
  exact itemKey_lower it

lemma intMissing_nodup (f e : List FeedItem) (lim : Nat) :
    (intMissing f e lim).Nodup := by
  unfold intMissing
  exact List.Nodup.sublist (List.take_sublist _ _)
    (List.Nodup.filter _ (firstOccur_nodup _))

lemma filterMap_keys_sublist (missing : List String) (g : String → Option FeedItem)
    (hg : ∀ h ∈ missing, ∀ y, g h = some y → extKey y = h) :
    List.Sublist ((missing.filterMap g).map extKey) missing := by
  induction missing with
  | nil => simp
  | cons h t ih =>
      have ht : ∀ h' ∈ t, ∀ y, g h' = some y → extKey y = h' :=
        fun h' hh' => hg h' (List.mem_cons_of_mem _ hh')
      cases hgh : g h with
      | none =>
          rw [List.filterMap_cons_none hgh]
          exact List.Sublist.cons h (ih ht)
      | some y =>
          rw [List.filterMap_cons_some hgh, List.map_cons,
              hg h (List.mem_cons_self _ _) y hgh]
          exact List.Sublist.cons₂ h (ih ht)

lemma hydrateInternals_keys_nodup (txO : String → Option RpcTx) (f e : List FeedItem)
    (lim : Nat) (hnd : (e.map extKey).Nodup) :
    ((hydrateMissingExternalsFromInternals txO f e lim).map extKey).Nodup := by
  rw [hydrateInternals_eq, List.map_append]
  have hg : ∀ h ∈ intMissing f e lim, ∀ y, hydrateIntItem txO f h = some y →
      extKey y = h := by
    intro h hm y hy
    rw [(hydrateIntItem_some hy).1, intMissing_lower hm]
  have hsub := filterMap_keys_sublist _ _ hg
  refine List.Nodup.append hnd (List.Nodup.sublist hsub (intMissing_nodup f e lim)) ?_
  intro x hx hx'
  have hxm := hsub.subset hx'
  exact (intMissing_facts hxm).2.1 hx

lemma mem_hydrateInternals_left {txO : String → Option RpcTx} {f e : List FeedItem}
    {lim : Nat} {t : FeedItem} (ht : t ∈ e) :
    t ∈ hydrateMissingExternalsFromInternals txO f e lim := by
  rw [hydrateInternals_eq]
  exact List.mem_append_left _ ht

lemma mem_hydrateInternals_synth {txO : String → Option RpcTx} {f e : List FeedItem}
    {lim : Nat} {h : String} {y : FeedItem} (hm : h ∈ intMissing f e lim)
    (hy : hydrateIntItem txO f h = some y) :
    y ∈ hydrateMissingExternalsFromInternals txO f e lim := by
  rw [hydrateInternals_eq]
  exact List.mem_append_right _ (List.mem_filterMap.mpr ⟨h, hm, hy⟩)

/-- Invariant of the token-hydration `tsMap`: keys are nonempty lower-case
hashes not already in the external set, pairwise distinct. -/
def goodTsMap (extSet : List String) (m : List (String × Nat)) : Prop :=
  (m.map Prod.fst).Nodup ∧
  ∀ p ∈ m, jsToLower p.1 = p.1 ∧ p.1 ∉ extSet ∧ p.1 ≠ ""

lemma find?_isSome_iff_mem_keys (m : List (String × Nat)) (h : String) :
    (m.find? (fun p => p.1 = h)).isSome ↔ h ∈ m.map Prod.fst := by
  rw [List.find?_isSome]
  constructor
  · rintro ⟨p, hp, he⟩
    simp only [decide_eq_true_eq] at he
    exact he ▸ List.mem_map.mpr ⟨p, hp, rfl⟩
  · intro hm
    rcases List.mem_map.mp hm with ⟨p, hp, he⟩
    exact ⟨p, hp, by simpa using he⟩

lemma aSetN_keys (m : List (String × Nat)) (h : String) (v : Nat) :
    (aSetN m h v).map Prod.fst =
      if (m.find? (fun p => p.1 = h)).isSome then m.map Prod.fst
      else m.map Prod.fst ++ [h] := by
  unfold aSetN
  by_cases hf : (m.find? (fun p => p.1 = h)).isSome
  · rw [if_pos hf, if_pos hf, List.map_map]
    apply List.map_congr_left
    intro p _
    by_cases hp : p.1 = h
    · simp [hp]
    · simp [hp]
  · rw [if_neg hf, if_neg hf, List.map_append]
    rfl

lemma goodTsMap_aSetN {es : List String} {m : List (String × Nat)} {h : String}
    (hm : goodTsMap es m) (h1 : jsToLower h = h) (h2 : h ∉ es) (h3 : h ≠ "")
    (v : Nat) : goodTsMap es (aSetN m h v) := by
  constructor
  · rw [aSetN_keys]
    by_cases hf : (m.find? (fun p => p.1 = h)).isSome
    · rw [if_pos hf]; exact hm.1
    · rw [if_neg hf]
      refine List.Nodup.append hm.1 (by simp) ?_
      intro x hx hx'
      simp only [List.mem_singleton] at hx'
      subst hx'
      exact hf ((find?_isSome_iff_mem_keys m x).mpr hx)
  · intro p hp
    unfold aSetN at hp
    by_cases hf : (m.find? (fun p => p.1 = h)).isSome
    · rw [if_pos hf] at hp
      rcases List.mem_map.mp hp with ⟨q, hq, he⟩
      by_cases hq1 : q.1 = h
      · rw [if_pos hq1] at he
        subst he
        exact ⟨h1, h2, h3⟩
      · rw [if_neg hq1] at he
        subst he
        exact hm.2 q hq
    · rw [if_neg hf] at hp
      rcases List.mem_append.mp hp with hp | hp
      · exact hm.2 p hp
      · simp only [List.mem_singleton] at hp
        subst hp
        exact ⟨h1, h2, h3⟩

lemma tsMapBuild_good (es : List String) (t20 t721 t1155 : List FeedItem) :
    goodTsMap es (tsMapBuild es t20 t721 t1155) := by
  have main : ∀ (step : List (String × Nat) → FeedItem → List (String × Nat)),
      (∀ m n, goodTsMap es m → goodTsMap es (step m n)) →
      ∀ (l : List FeedItem) (m : List (String × Nat)),
        goodTsMap es m → goodTsMap es (l.foldl step m) := by
    intro step hstep l
    induction l with
    | nil => intro m hm; exact hm
    | cons n t ih => intro m hm; exact ih _ (hstep m n hm)
  have hstep20 : ∀ (m : List (String × Nat)) (n : FeedItem), goodTsMap es m →
      goodTsMap es (if itemKey n ≠ "" ∧ !es.contains (itemKey n)
                    then aSetN m (itemKey n) (tsOf n) else m) := by
    intro m n hm
    by_cases hc : itemKey n ≠ "" ∧ !es.contains (itemKey n)
    · rw [if_pos hc]
      refine goodTsMap_aSetN hm (itemKey_lower n) ?_ hc.1 _
      have := hc.2
      simp only [Bool.not_eq_true'] at this
      simpa using this
    · rw [if_neg hc]; exact hm
  have hstepMin : ∀ (m : List (String × Nat)) (n : FeedItem), goodTsMap es m →
      goodTsMap es (if itemKey n ≠ "" ∧ !es.contains (itemKey n)
                    then (match aGetN m (itemKey n) with
                          | none => aSetN m (itemKey n) (tsOf n)
                          | some prev => if tsOf n < prev
                                         then aSetN m (itemKey n) (tsOf n) else m)
                    else m) := by
    intro m n hm
    by_cases hc : itemKey n ≠ "" ∧ !es.contains (itemKey n)
    · rw [if_pos hc]
      have hnm : itemKey n ∉ es := by
        have := hc.2
        simp only [Bool.not_eq_true'] at this
        simpa using this
      cases aGetN m (itemKey n) with
      | none => exact goodTsMap_aSetN hm (itemKey_lower n) hnm hc.1 _
      | some prev =>
          show goodTsMap es (if tsOf n < prev then aSetN m (itemKey n) (tsOf n) else m)
          by_cases hlt : tsOf n < prev
          · rw [if_pos hlt]
            exact goodTsMap_aSetN hm (itemKey_lower n) hnm hc.1 _
          · rw [if_neg hlt]; exact hm
    · rw [if_neg hc]; exact hm
  unfold tsMapBuild
  refine main _ hstepMin t1155 _ (main _ hstepMin t721 _ (main _ hstep20 t20 _ ?_))
  exact ⟨List.nodup_nil, fun p hp => absurd hp (List.not_mem_nil p)⟩

lemma tokenMissing_facts {t20 t721 t1155 e : List FeedItem} {lim : Nat} {h : String}
    (hm : h ∈ ((tsMapBuild (e.map extKey) t20 t721 t1155).map Prod.fst).take lim) :
    jsToLower h = h ∧ h ∉ e.map extKey ∧ h ≠ "" := by
  have hm1 : h ∈ (tsMapBuild (e.map extKey) t20 t721 t1155).map Prod.fst :=
    List.mem_of_mem_take hm
  rcases List.mem_map.mp hm1 with ⟨p, hp, he⟩
  have := (tsMapBuild_good (e.map extKey) t20 t721 t1155).2 p hp
  exact he ▸ this

lemma tokenMissing_nodup (t20 t721 t1155 e : List FeedItem) (lim : Nat) :
    (((tsMapBuild (e.map extKey) t20 t721 t1155).map Prod.fst).take lim).Nodup :=
  List.Nodup.sublist (List.take_sublist _ _)
    (tsMapBuild_good (e.map extKey) t20 t721 t1155).1

lemma hydrateTokens_keys_nodup (txO : String → Option RpcTx)
    (t20 t721 t1155 e : List FeedItem) (lim : Nat) (hnd : (e.map extKey).Nodup) :
    ((hydrateMissingExternalsFromTokenFeeds txO t20 t721 t1155 e lim).map extKey).Nodup := by
  rw [hydrateTokens_eq, List.map_append]
  have hg : ∀ h ∈ ((tsMapBuild (e.map extKey) t20 t721 t1155).map Prod.fst).take lim,
      ∀ y, hydrateTokenItem txO (tsMapBuild (e.map extKey) t20 t721 t1155) h = some y →
        extKey y = h := by
    intro h hm y hy
    rw [(hydrateTokenItem_some hy).1, (tokenMissing_facts hm).1]
  have hsub := filterMap_keys_sublist _ _ hg
  refine List.Nodup.append hnd
    (List.Nodup.sublist hsub (tokenMissing_nodup t20 t721 t1155 e lim)) ?_
  intro x hx hx'
  have hxm := hsub.subset hx'
  exact (tokenMissing_facts hxm).2.1 hx

lemma mem_hydrateTokens_left {txO : String → Option RpcTx}
    {t20 t721 t1155 e : List FeedItem} {lim : Nat} {t : FeedItem} (ht : t ∈ e) :
    t ∈ hydrateMissingExternalsFromTokenFeeds txO t20 t721 t1155 e lim := by
  rw [hydrateTokens_eq]
  exact List.mem_append_left _ ht

lemma hydratedExternals_keys_nodup (inp : BuildIn)
    (hnd : (inp.externalsRaw.map extKey).Nodup) :
    ((hydratedExternals inp).map extKey).Nodup := by
  unfold hydratedExternals
  exact hydrateTokens_keys_nodup _ _ _ _ _ _
    (hydrateInternals_keys_nodup _ _ _ _ hnd)

lemma mem_hydratedExternals_of_raw {inp : BuildIn} {t : FeedItem}
    (ht : t ∈ inp.externalsRaw) : t ∈ hydratedExternals inp := by
  unfold hydratedExternals
  exact mem_hydrateTokens_left (mem_hydrateInternals_left ht)

lemma mem_hydratedExternals_synth {inp : BuildIn} {h : String} {y : FeedItem}
    (hm : h ∈ intMissing inp.internalsFeed inp.externalsRaw HYDRATE_INT_LIMIT)
    (hy : hydrateIntItem inp.txOracle inp.internalsFeed h = some y) :
    y ∈ hydratedExternals inp := by
  unfold hydratedExternals
  exact mem_hydrateTokens_left (mem_hydrateInternals_synth hm hy)

lemma filter_eq_single_of_nodup {α : Type} (key : α → String) :
    ∀ {l : List α} {t : α}, ((l.map key).Nodup) → t ∈ l →
      l.filter (fun x => key x = key t) = [t] := by
  intro l
  induction l with
  | nil => intro t _ ht; simp at ht
  | cons a l' ih =>
      intro t hnd ht
      rw [List.map_cons, List.nodup_cons] at hnd
      rcases List.mem_cons.mp ht with rfl | ht'
      · rw [List.filter_cons_of_pos (by simp)]
        have hemp : l'.filter (fun x => key x = key t) = [] := by
          rw [List.filter_eq_nil_iff]
          intro x hx he
          simp only [decide_eq_true_eq] at he
          exact hnd.1 (he ▸ List.mem_map.mpr ⟨x, hx, rfl⟩)
        rw [hemp]
      · have hne : key a ≠ key t := by
          intro he
          exact hnd.1 (he ▸ List.mem_map.mpr ⟨t, ht', rfl⟩)
        rw [List.filter_cons_of_neg (by simpa using hne)]
        exact ih hnd.2 ht'

lemma nativeRows0_filter (inp : BuildIn) (h : String) :
    (nativeRows0 inp).filter (fun r => rowKey r = h) =
      ((hydratedExternals inp).filter (fun t => extKey t = h)).map
        (fun t => nativeRowOf (jsToLower inp.address) t (tier1Of inp t).category) := by
  unfold nativeRows0
  rw [List.filter_map]
  have hfe : ((fun r => decide (rowKey r = h)) ∘ fun t =>
      nativeRowOf (jsToLower inp.address) t (tier1Of inp t).category) =
      (fun t => decide (extKey t = h)) := by
    funext t
    rfl
  rw [hfe]

lemma mem_nativeConfirmSet_iff (inp : BuildIn) (h : String) :
    h ∈ nativeConfirmSet inp ↔
      ∃ t ∈ hydratedExternals inp, (tier1Of inp t).confirm ∧ extKey t = h := by
  unfold nativeConfirmSet
  rw [mem_firstOccur_iff]
  constructor
  · intro hm
    rcases List.mem_map.mp hm with ⟨t, ht, he⟩
    have := List.mem_filter.mp ht
    exact ⟨t, this.1, by simpa using this.2, he⟩
  · rintro ⟨t, ht, hc, he⟩
    exact List.mem_map.mpr ⟨t, List.mem_filter.mpr ⟨ht, by simpa using hc⟩, he⟩

lemma mem_candidateList_iff (inp : BuildIn) (h : String) :
    h ∈ candidateList inp ↔
      ∃ t ∈ hydratedExternals inp, (tier1Of inp t).candidate ∧ extKey t = h := by
  unfold candidateList
  constructor
  · intro hm
    rcases List.mem_map.mp hm with ⟨t, ht, he⟩
    have := List.mem_filter.mp ht
    exact ⟨t, this.1, by simpa using this.2, he⟩
  · rintro ⟨t, ht, hc, he⟩
    exact List.mem_map.mpr ⟨t, List.mem_filter.mpr ⟨ht, by simpa using hc⟩, he⟩

lemma mem_of_candLimited {inp : BuildIn} {h : String} (hm : h ∈ candLimited inp) :
    h ∈ candidateList inp := by
  unfold candLimited at hm
  exact List.mem_of_mem_take hm

lemma catSet_key (c : Option String) (r : Row) :
    rowKey { r with category := c } = rowKey r := rfl

lemma foldl_filter_invariant {step : List Row → String → List Row} {h : String}
    (hstep : ∀ rows h', h' ≠ h →
      (step rows h').filter (fun r => rowKey r = h) = rows.filter (fun r => rowKey r = h)) :
    ∀ (hs : List String) (rows : List Row), (∀ h' ∈ hs, h' ≠ h) →
      (hs.foldl step rows).filter (fun r => rowKey r = h) =
        rows.filter (fun r => rowKey r = h) := by
  intro hs
  induction hs with
  | nil => intro rows _; rfl
  | cons h' t ih =>
      intro rows hall
      rw [List.foldl_cons,
          ih _ (fun x hx => hall x (List.mem_cons_of_mem _ hx)),
          hstep rows h' (hall h' (List.mem_cons_self _ _))]

lemma tier2aStep_filter_ne (inp : BuildIn) {h : String} (rows : List Row) (h' : String)
    (hne : h' ≠ h) :
    (tier2aStep inp rows h').filter (fun r => rowKey r = h) =
      rows.filter (fun r => rowKey r = h) := by
  unfold tier2aStep
  cases rcptsOf inp h' with
  | none => rfl
  | some rcp =>
      show (if !isFailed rcp && rcp.logs.isEmpty then _ else rows).filter _ = _
      by_cases hc : !isFailed rcp && rcp.logs.isEmpty
      · rw [if_pos hc]
        exact filter_updateLastWith_ne
          (fun r => { r with category := some "native_send" })
          (fun r => rfl) (fun e => hne e.symm) rows
      · rw [if_neg hc]

lemma tier2bStep_filter_ne (inp : BuildIn) (ext : List FeedItem) {h : String}
    (rows : List Row) (h' : String) (hne : h' ≠ h) :
    (tier2bStep inp ext rows h').filter (fun r => rowKey r = h) =
      rows.filter (fun r => rowKey r = h) := by
  unfold tier2bStep
  cases rcptsOf inp h' with
  | none => rfl
  | some rcp =>
      cases lastExt ext h' with
      | none => rfl
      | some tx =>
          show (if isFailed rcp then rows else _).filter _ = _
          by_cases hf : isFailed rcp
          · rw [if_pos hf]
          · rw [if_neg hf]
            cases tier2bCategory (jsToLower inp.address) tx rcp with
            | none => rfl
            | some c =>
                show (updateLastWith h' _ rows).filter _ = _
                exact filter_updateLastWith_ne
                  (fun r => { r with category := some c })
                  (fun r => rfl) (fun e => hne e.symm) rows

lemma tier2a_filter_not_mem (inp : BuildIn) (rows : List Row) {h : String}
    (hno : h ∉ nativeConfirmSet inp) :
    (tier2a inp rows).filter (fun r => rowKey r = h) =
      rows.filter (fun r => rowKey r = h) := by
  unfold tier2a
  exact foldl_filter_invariant (tier2aStep_filter_ne inp) _ rows
    (fun h' hh' he => hno (he ▸ hh'))

lemma tier2bFold_filter_not_mem (inp : BuildIn) (ext : List FeedItem)
    (hs : List String) (rows : List Row) {h : String} (hno : h ∉ hs) :
    (hs.foldl (tier2bStep inp ext) rows).filter (fun r => rowKey r = h) =
      rows.filter (fun r => rowKey r = h) :=
  foldl_filter_invariant (tier2bStep_filter_ne inp ext) hs rows
    (fun h' hh' he => hno (he ▸ hh'))

lemma nativeRowsFinal_filter_not_mem (inp : BuildIn) {h : String}
    (hn1 : h ∉ nativeConfirmSet inp) (hn2 : h ∉ candLimited inp) :
    (nativeRowsFinal inp).filter (fun r => rowKey r = h) =
      (nativeRows0 inp).filter (fun r => rowKey r = h) := by
  unfold nativeRowsFinal
  rw [tier2bFold_filter_not_mem inp _ _ _ hn2, tier2a_filter_not_mem inp _ hn1]

lemma nativeConfirmSet_nodup (inp : BuildIn) : (nativeConfirmSet inp).Nodup :=
  firstOccur_nodup _

lemma candidateList_nodup (inp : BuildIn)
    (hnd : ((hydratedExternals inp).map extKey).Nodup) :
    (candidateList inp).Nodup := by
  unfold candidateList
  have hsub : List.Sublist
      (((hydratedExternals inp).filter (fun t => (tier1Of inp t).candidate)).map extKey)
      ((hydratedExternals inp).map extKey) :=
    List.Sublist.map extKey (List.filter_sublist _)
  exact List.Nodup.sublist hsub hnd

lemma candLimited_nodup (inp : BuildIn)
    (hnd : ((hydratedExternals inp).map extKey).Nodup) :
    (candLimited inp).Nodup :=
  List.Nodup.sublist (List.take_sublist _ _) (candidateList_nodup inp hnd)

lemma foldl_step_at_mem {step : List Row → String → List Row} {h : String} {r0 r1 : Row}
    (hstepne : ∀ rows h', h' ≠ h →
      (step rows h').filter (fun r => rowKey r = h) = rows.filter (fun r => rowKey r = h))
    (hstepat : ∀ rows : List Row, rows.filter (fun r => rowKey r = h) = [r0] →
      (step rows h).filter (fun r => rowKey r = h) = [r1]) :
    ∀ (hs : List String) (rows : List Row), hs.Nodup → h ∈ hs →
      rows.filter (fun r => rowKey r = h) = [r0] →
      (hs.foldl step rows).filter (fun r => rowKey r = h) = [r1] := by
  intro hs
  induction hs with
  | nil => intro rows _ hm; simp at hm
  | cons h' t ih =>
      intro rows hnd hm hone
      rw [List.nodup_cons] at hnd
      rw [List.foldl_cons]
      rcases List.mem_cons.mp hm with rfl | hm'
      · rw [foldl_filter_invariant hstepne t _ (fun x hx he => hnd.1 (he ▸ hx))]
        exact hstepat rows hone
      · have hne : h' ≠ h := fun he => hnd.1 (he ▸ hm')
        exact ih _ hnd.2 hm' (by rw [hstepne rows h' hne]; exact hone)

lemma tier2aStep_at (inp : BuildIn) (h : String) (rows : List Row) (r0 : Row)
    (hone : rows.filter (fun r => rowKey r = h) = [r0]) :
    (tier2aStep inp rows h).filter (fun r => rowKey r = h) =
      [match rcptsOf inp h with
       | none => r0
       | some rcp =>
           if !isFailed rcp && rcp.logs.isEmpty
           then { r0 with category := some "native_send" } else r0] := by
  unfold tier2aStep
  cases rcptsOf inp h with
  | none => exact hone
  | some rcp =>
      show (if !isFailed rcp && rcp.logs.isEmpty
            then updateLastWith h (fun r => { r with category := some "native_send" }) rows
            else rows).filter (fun r => rowKey r = h) =
        [if !isFailed rcp && rcp.logs.isEmpty
         then { r0 with category := some "native_send" } else r0]
      by_cases hc : !isFailed rcp && rcp.logs.isEmpty
      · rw [if_pos hc, if_pos hc]
        exact filter_updateLastWith_self
          (fun r => { r with category := some "native_send" }) (fun r => rfl) rows hone
      · rw [if_neg hc, if_neg hc]
        exact hone

lemma tier2bStep_at (inp : BuildIn) (ext : List FeedItem) (h : String)
    (rows : List Row) (r0 : Row)
    (hone : rows.filter (fun r => rowKey r = h) = [r0]) :
    (tier2bStep inp ext rows h).filter (fun r => rowKey r = h) =
      [match rcptsOf inp h, lastExt ext h with
       | some rcp, some tx =>
           if isFailed rcp then r0
           else
             match tier2bCategory (jsToLower inp.address) tx rcp with
             | some c => { r0 with category := some c }
             | none => r0
       | _, _ => r0] := by
  unfold tier2bStep
  cases rcptsOf inp h with
  | none =>
      cases lastExt ext h with
      | none => exact hone
      | some tx => exact hone
  | some rcp =>
      cases lastExt ext h with
      | none => exact hone
      | some tx =>
          show (if isFailed rcp then rows
                else match tier2bCategory (jsToLower inp.address) tx rcp with
                     | some c =>
                         updateLastWith h (fun r => { r with category := some c }) rows
                     | none => rows).filter (fun r => rowKey r = h) =
            [if isFailed rcp then r0
             else match tier2bCategory (jsToLower inp.address) tx rcp with
                  | some c => { r0 with category := some c }
                  | none => r0]
          by_cases hf : isFailed rcp
          · rw [if_pos hf, if_pos hf]
            exact hone
          · rw [if_neg hf, if_neg hf]
            cases tier2bCategory (jsToLower inp.address) tx rcp with
            | none => exact hone
            | some c =>
                exact filter_updateLastWith_self
                  (fun r => { r with category := some c }) (fun r => rfl) rows hone

lemma nativeRowsFinal_filter_confirm (inp : BuildIn) {h : String} {r0 : Row}
    (hmemA : h ∈ nativeConfirmSet inp) (hnoB : h ∉ candLimited inp)
    (hone : (nativeRows0 inp).filter (fun r => rowKey r = h) = [r0]) :
    (nativeRowsFinal inp).filter (fun r => rowKey r = h) =
      [match rcptsOf inp h with
       | none => r0
       | some rcp =>
           if !isFailed rcp && rcp.logs.isEmpty
           then { r0 with category := some "native_send" } else r0] := by
  unfold nativeRowsFinal
  rw [tier2bFold_filter_not_mem inp _ _ _ hnoB]
  unfold tier2a
  exact foldl_step_at_mem (tier2aStep_filter_ne inp)
    (fun rows hone' => tier2aStep_at inp h rows r0 hone')
    _ _ (nativeConfirmSet_nodup inp) hmemA hone

lemma nativeRowsFinal_filter_cand (inp : BuildIn) {h : String} {r0 : Row}
    (hnoA : h ∉ nativeConfirmSet inp) (hmemB : h ∈ candLimited inp)
    (hndB : (candLimited inp).Nodup)
    (hone : (nativeRows0 inp).filter (fun r => rowKey r = h) = [r0]) :
    (nativeRowsFinal inp).filter (fun r => rowKey r = h) =
      [match rcptsOf inp h, lastExt (hydratedExternals inp) h with
       | some rcp, some tx =>
           if isFailed rcp then r0
           else
             match tier2bCategory (jsToLower inp.address) tx rcp with
             | some c => { r0 with category := some c }
             | none => r0
       | _, _ => r0] := by
  unfold nativeRowsFinal
  refine foldl_step_at_mem (tier2bStep_filter_ne inp _)
    (fun rows hone' => tier2bStep_at inp _ h rows r0 hone')
    _ _ hndB hmemB ?_
  rw [tier2a_filter_not_mem inp _ hnoA]
  exact hone

lemma allRows_filter (inp : BuildIn) (h : String) :
    (allRows inp).filter (fun r => rowKey r = h) =
      (nativeRowsFinal inp).filter (fun r => rowKey r = h) ++
      (internalRows inp).filter (fun r => rowKey r = h) ++
      (token20Rows inp).filter (fun r => rowKey r = h) ++
      (token721Rows inp).filter (fun r => rowKey r = h) := by
  unfold allRows
  rw [List.filter_append, List.filter_append, List.filter_append]

lemma internalRows_prio {inp : BuildIn} {r : Row} (hm : r ∈ internalRows inp) :
    prio r = 10 := by
  unfold internalRows at hm
  rcases List.mem_map.mp hm with ⟨it, _, he⟩
  rw [← he]
  exact prio_internalRowOf _ it

lemma token20Rows_prio {inp : BuildIn} {r : Row} (hm : r ∈ token20Rows inp) :
    prio r = 20 := by
  unfold token20Rows at hm
  rcases List.mem_map.mp hm with ⟨e, _, he⟩
  rw [← he]
  exact prio_token20RowOf _ e

lemma token721Rows_prio_le {inp : BuildIn} {r : Row} (hm : r ∈ token721Rows inp) :
    prio r ≤ 85 := by
  unfold token721Rows at hm
  rcases List.mem_map.mp hm with ⟨n, _, he⟩
  rw [← he]
  exact prio_token721RowOf_le _ n

lemma rest_prio_le_85 (inp : BuildIn) (h : String) :
    ∀ x ∈ (internalRows inp).filter (fun r => rowKey r = h) ++
          (token20Rows inp).filter (fun r => rowKey r = h) ++
          (token721Rows inp).filter (fun r => rowKey r = h), prio x ≤ 85 := by
  intro x hx
  rcases List.mem_append.mp hx with hx' | hx'
  · rcases List.mem_append.mp hx' with hx'' | hx''
    · have := internalRows_prio (List.mem_of_mem_filter hx'')
      omega
    · have := token20Rows_prio (List.mem_of_mem_filter hx'')
      omega
  · exact token721Rows_prio_le (List.mem_of_mem_filter hx')

lemma foldBest_seed_dominates {c : Row} :
    ∀ {l : List Row}, (∀ x ∈ l, ¬(prio x > prio c)) → foldBest (some c) l = some c := by
  intro l
  induction l with
  | nil => intro _; rfl
  | cons r t ih =>
      intro hdom
      rw [foldBest_cons, pickBest_some, if_neg (hdom r (List.mem_cons_self _ _))]
      exact ih (fun x hx => hdom x (List.mem_cons_of_mem _ hx))

lemma entry_of_native_singleton (inp : BuildIn) {h : String} {rN : Row}
    (hone : (nativeRowsFinal inp).filter (fun r => rowKey r = h) = [rN])
    (hge : 86 ≤ prio rN) (hne : h ≠ "") :
    aGet (bestFold (allRows inp)) h = some rN := by
  rw [bestFold_aGet _ h hne, allRows_filter, hone]
  have hL : ((([rN] ++ (internalRows inp).filter (fun r => rowKey r = h)) ++
      (token20Rows inp).filter (fun r => rowKey r = h)) ++
      (token721Rows inp).filter (fun r => rowKey r = h)) =
      rN :: ((internalRows inp).filter (fun r => rowKey r = h) ++
             (token20Rows inp).filter (fun r => rowKey r = h) ++
             (token721Rows inp).filter (fun r => rowKey r = h)) := by
    simp
  rw [hL, foldBest_cons, pickBest_none]
  refine foldBest_seed_dominates ?_
  intro x hx
  have := rest_prio_le_85 inp h x hx
  omega

lemma entry_of_only_native (inp : BuildIn) {h : String} {rN : Row}
    (hone : (nativeRowsFinal inp).filter (fun r => rowKey r = h) = [rN])
    (hi : (internalRows inp).filter (fun r => rowKey r = h) = [])
    (h20 : (token20Rows inp).filter (fun r => rowKey r = h) = [])
    (h721 : (token721Rows inp).filter (fun r => rowKey r = h) = [])
    (hne : h ≠ "") :
    aGet (bestFold (allRows inp)) h = some rN := by
  rw [bestFold_aGet _ h hne, allRows_filter, hone, hi, h20, h721]
  rfl

lemma mem_buildActivity_of_entry {inp : BuildIn} {h : String} {r : Row}
    (he : aGet (bestFold (allRows inp)) h = some r) : r ∈ buildActivity inp := by
  unfold buildActivity
  rw [mem_sortRows]
  apply mem_map_snd_iff.mpr
  unfold aGet at he
  cases hf : (bestFold (allRows inp)).find? (fun p => p.1 = h) with
  | none => rw [hf] at he; exact absurd he (by simp)
  | some p =>
      rw [hf] at he
      have hp2 : p.2 = r := by simpa using he
      have hp1 : p.1 = h := by simpa using List.find?_some hf
      have hpm := List.mem_of_find?_eq_some hf
      exact ⟨h, by rw [← hp1, ← hp2]; exact hpm⟩

lemma entry_of_mem_buildActivity {inp : BuildIn} {r : Row}
    (hm : r ∈ buildActivity inp) :
    aGet (bestFold (allRows inp)) (rowKey r) = some r := by
  unfold buildActivity at hm
  rw [mem_sortRows] at hm
  rcases mem_map_snd_iff.mp hm with ⟨h', hp⟩
  have hg := bestFold_goodPairs (allRows inp) _ hp
  have hk : rowKey r = h' := hg.1
  rw [hk]
  exact aGet_of_mem_nodup (bestFold_keysNodup _) hp

lemma rowKey_ne_empty_of_mem_buildActivity {inp : BuildIn} {r : Row}
    (hm : r ∈ buildActivity inp) : rowKey r ≠ "" := by
  unfold buildActivity at hm
  rw [mem_sortRows] at hm
  rcases mem_map_snd_iff.mp hm with ⟨h', hp⟩
  have hg := bestFold_goodPairs (allRows inp) _ hp
  rw [(hg.1 : rowKey r = h')]
  exact hg.2

lemma entry_winner_facts {inp : BuildIn} {r0 : Row} (hm : r0 ∈ allRows inp)
    (hne : rowKey r0 ≠ "") :
    ∃ w, aGet (bestFold (allRows inp)) (rowKey r0) = some w ∧
      prio r0 ≤ prio w ∧ w ∈ allRows inp := by
  rw [bestFold_aGet _ _ hne]
  have hr0 : r0 ∈ (allRows inp).filter (fun r => rowKey r = rowKey r0) :=
    List.mem_filter.mpr ⟨hm, by simp⟩
  have hsome := foldBest_isSome ((allRows inp).filter (fun r => rowKey r = rowKey r0))
    none (Or.inr (List.ne_nil_of_mem hr0))
  rcases Option.isSome_iff_exists.mp hsome with ⟨w, hw⟩
  have hge := (foldBest_ge _ _ _ hw).2 r0 hr0
  rcases foldBest_mem _ _ _ hw with habs | hwm
  · exact absurd habs (by simp)
  · exact ⟨w, hw, hge, List.mem_of_mem_filter hwm⟩

lemma fold_member_pres {P : Row → Prop} {step : List Row → String → List Row}
    (hstep : ∀ rows h, (∀ r ∈ rows, P r) → ∀ r ∈ step rows h, P r) :
    ∀ (hs : List String) (rows : List Row), (∀ r ∈ rows, P r) →
      ∀ r ∈ hs.foldl step rows, P r := by
  intro hs
  induction hs with
  | nil => intro rows hP r hr; exact hP r hr
  | cons h t ih => intro rows hP r hr; exact ih _ (hstep rows h hP) r hr

lemma updateLastWith_pres {P : Row → Prop} {f : Row → Row} {h : String}
    (hf : ∀ r, P r → P (f r)) {rows : List Row} (hP : ∀ r ∈ rows, P r) :
    ∀ r ∈ updateLastWith h f rows, P r := by
  intro r hr
  rcases mem_updateLastWith hr with hr' | ⟨r0, hr0, he⟩
  · exact hP r hr'
  · exact he ▸ hf r0 (hP r0 hr0)

lemma tier2bCategory_cases (addr : String) (tx : FeedItem) (rcp : Receipt) :
    tier2bCategory addr tx rcp = none ∨
    tier2bCategory addr tx rcp = some "domain_mint" ∨
    tier2bCategory addr tx rcp = some "nft_mint" := by
  unfold tier2bCategory
  split_ifs <;> simp [DOMAIN_CONTRACTS]

/-- The closed set of categories Tier 1 can assign to a native row. -/
def NATIVE_TIER1_CATS : List String :=
  ["fail", "cc", "cco", "gm", "domain_mint", "nft_mint", "stake", "swap",
   "add_liquidity", "remove_liquidity", "approve", "other"]

lemma tier1_category_cases (addr : String) (dh nh : List String)
    (f : List FeedItem) (t : FeedItem) :
    (tier1 addr dh nh f t).category ∈ NATIVE_TIER1_CATS := by
  unfold tier1
  by_cases h1 : isFailedByTxlist t
  · rw [if_pos h1]; decide
  rw [if_neg h1]
  by_cases h2 : CC_CONTRACTS.contains (jsToLower (jsOr t.to_ ""))
  · rw [if_pos h2]; decide
  rw [if_neg h2]
  by_cases h3 : isCCO t
  · rw [if_pos h3]; decide
  rw [if_neg h3]
  by_cases h4 : GM_CONTRACTS.contains (jsToLower (jsOr t.to_ ""))
  · rw [if_pos h4]; decide
  rw [if_neg h4]
  by_cases h5 : dh.contains (extKey t)
  · rw [if_pos h5]; decide
  rw [if_neg h5]
  by_cases h6 : nh.contains (extKey t)
  · rw [if_pos h6]; decide
  rw [if_neg h6]
  by_cases h7 : isStakeQuick t
  · rw [if_pos h7]; decide
  rw [if_neg h7]
  by_cases h8 : isSwapQuick t
  · rw [if_pos h8]; decide
  rw [if_neg h8]
  by_cases h9 : isAddLiquidityQuick t
  · rw [if_pos h9]; decide
  rw [if_neg h9]
  by_cases h10 : isRemoveLiquidityQuick t
  · rw [if_pos h10]; decide
  rw [if_neg h10]
  by_cases h11 : isGMQuick t
  · rw [if_pos h11]; decide
  rw [if_neg h11]
  by_cases h12 : isApproveQuick t
  · rw [if_pos h12]; decide
  rw [if_neg h12]
  by_cases h13 : isNativeSendCandidate t addr
  · rw [if_pos h13]; decide
  rw [if_neg h13]
  show (if hintedCreation addr f t then "cc" else "other") ∈ NATIVE_TIER1_CATS
  by_cases h14 : hintedCreation addr f t
  · rw [if_pos h14]; decide
  · rw [if_neg h14]; decide

lemma prio_tier1_row_ge (inp : BuildIn) (t : FeedItem) :
    80 ≤ prio (nativeRowOf (jsToLower inp.address) t (tier1Of inp t).category) := by
  have hk : (nativeRowOf (jsToLower inp.address) t (tier1Of inp t).category).kind =
      "native" := rfl
  have hc : (nativeRowOf (jsToLower inp.address) t (tier1Of inp t).category).category =
      some ((tier1Of inp t).category) := rfl
  rw [prio_native hk hc]
  have hcm : (tier1Of inp t).category ∈ NATIVE_TIER1_CATS := tier1_category_cases _ _ _ _ _
  have hcm' := by simpa [NATIVE_TIER1_CATS] using hcm
  rcases hcm' with h|h|h|h|h|h|h|h|h|h|h|h <;> rw [h] <;> decide

lemma nativeRows0_inv (inp : BuildIn) :
    ∀ r ∈ nativeRows0 inp, r.kind = "native" ∧ 80 ≤ prio r := by
  intro r hm
  unfold nativeRows0 at hm
  rcases List.mem_map.mp hm with ⟨t, _, he⟩
  subst he
  exact ⟨rfl, prio_tier1_row_ge inp t⟩

lemma catUpdate_pres {c : String}
    (hcm : c = "native_send" ∨ c = "domain_mint" ∨ c = "nft_mint") :
    ∀ r : Row, (r.kind = "native" ∧ 80 ≤ prio r) →
      (({ r with category := some c } : Row).kind = "native" ∧
        80 ≤ prio ({ r with category := some c } : Row)) := by
  intro r hr
  have hk : ({ r with category := some c } : Row).kind = r.kind := rfl
  refine ⟨by rw [hk]; exact hr.1, ?_⟩
  have hc : ({ r with category := some c } : Row).category = some c := rfl
  rw [prio_native (by rw [hk]; exact hr.1) hc]
  rcases hcm with rfl | rfl | rfl <;> decide

lemma tier2aStep_inv (inp : BuildIn) :
    ∀ (rows : List Row) (h : String),
      (∀ r ∈ rows, r.kind = "native" ∧ 80 ≤ prio r) →
      ∀ r ∈ tier2aStep inp rows h, r.kind = "native" ∧ 80 ≤ prio r := by
  intro rows h hP
  unfold tier2aStep
  cases rcptsOf inp h with
  | none => exact hP
  | some rcp =>
      show ∀ r ∈ (if !isFailed rcp && rcp.logs.isEmpty then _ else rows), _
      by_cases hc : !isFailed rcp && rcp.logs.isEmpty
      · rw [if_pos hc]
        exact updateLastWith_pres (catUpdate_pres (Or.inl rfl)) hP
      · rw [if_neg hc]
        exact hP

lemma tier2bStep_inv (inp : BuildIn) (ext : List FeedItem) :
    ∀ (rows : List Row) (h : String),
      (∀ r ∈ rows, r.kind = "native" ∧ 80 ≤ prio r) →
      ∀ r ∈ tier2bStep inp ext rows h, r.kind = "native" ∧ 80 ≤ prio r := by
  intro rows h hP
  unfold tier2bStep
  cases rcptsOf inp h with
  | none => exact hP
  | some rcp =>
      cases hx : lastExt ext h with
      | none => exact hP
      | some tx =>
          show ∀ r ∈ (if isFailed rcp then rows else _), _
          by_cases hf : isFailed rcp
          · rw [if_pos hf]; exact hP
          · rw [if_neg hf]
            rcases tier2bCategory_cases (jsToLower inp.address) tx rcp with hc | hc | hc <;>
              rw [hc]
            · exact hP
            · exact updateLastWith_pres (catUpdate_pres (Or.inr (Or.inl rfl))) hP
            · exact updateLastWith_pres (catUpdate_pres (Or.inr (Or.inr rfl))) hP

lemma nativeRowsFinal_inv (inp : BuildIn) :
    ∀ r ∈ nativeRowsFinal inp, r.kind = "native" ∧ 80 ≤ prio r := by
  unfold nativeRowsFinal
  exact fold_member_pres (tier2bStep_inv inp _) _ _
    (fold_member_pres (tier2aStep_inv inp) _ _ (nativeRows0_inv inp))

lemma mem_allRows_of_mem_buildActivity {inp : BuildIn} {r : Row}
    (hm : r ∈ buildActivity inp) : r ∈ allRows inp := by
  have he := entry_of_mem_buildActivity hm
  have hne := rowKey_ne_empty_of_mem_buildActivity hm
  rw [bestFold_aGet _ _ hne] at he
  rcases foldBest_mem _ _ _ he with habs | hmm
  · exact absurd habs (by simp)
  · exact List.mem_of_mem_filter hmm

lemma allRows_direction (inp : BuildIn) :
    ∀ r ∈ allRows inp,
      r.direction = (if r.from_ = jsToLower inp.address then "out" else "in") := by
  have hpres : ∀ (c : String) (r : Row),
      r.direction = (if r.from_ = jsToLower inp.address then "out" else "in") →
      ({ r with category := some c } : Row).direction =
        (if ({ r with category := some c } : Row).from_ = jsToLower inp.address
         then "out" else "in") := fun c r hr => hr
  have hnatinv : ∀ r ∈ nativeRowsFinal inp,
      r.direction = (if r.from_ = jsToLower inp.address then "out" else "in") := by
    unfold nativeRowsFinal
    refine fold_member_pres ?_ _ _ (fold_member_pres ?_ _ _ ?_)
    · intro rows h hP
      unfold tier2bStep
      cases rcptsOf inp h with
      | none => exact hP
      | some rcp =>
          cases lastExt (hydratedExternals inp) h with
          | none => exact hP
          | some tx =>
              show ∀ r ∈ (if isFailed rcp then rows else _), _
              by_cases hf : isFailed rcp
              · rw [if_pos hf]; exact hP
              · rw [if_neg hf]
                cases tier2bCategory (jsToLower inp.address) tx rcp with
                | none => exact hP
                | some c => exact updateLastWith_pres (hpres c) hP
    · intro rows h hP
      unfold tier2aStep
      cases rcptsOf inp h with
      | none => exact hP
      | some rcp =>
          show ∀ r ∈ (if !isFailed rcp && rcp.logs.isEmpty then _ else rows), _
          by_cases hc : !isFailed rcp && rcp.logs.isEmpty
          · rw [if_pos hc]
            exact updateLastWith_pres (hpres "native_send") hP
          · rw [if_neg hc]
            exact hP
    · intro r hm
      unfold nativeRows0 at hm
      rcases List.mem_map.mp hm with ⟨t, _, he⟩
      subst he
      rfl
  intro r hm
  unfold allRows at hm
  rcases List.mem_append.mp hm with hm' | h721
  rcases List.mem_append.mp hm' with hm'' | h20
  rcases List.mem_append.mp hm'' with hnat | hint
  · exact hnatinv r hnat
  · unfold internalRows at hint
    rcases List.mem_map.mp hint with ⟨it, _, he⟩
    subst he
    rfl
  · unfold token20Rows at h20
    rcases List.mem_map.mp h20 with ⟨e, _, he⟩
    subst he
    rfl
  · unfold token721Rows at h721
    rcases List.mem_map.mp h721 with ⟨n, _, he⟩
    subst he
    rfl

lemma mem_values_of_aGet {l : List (String × Row)} {h : String} {r : Row}
    (he : aGet l h = some r) : r ∈ l.map Prod.snd := by
  unfold aGet at he
  cases hf : l.find? (fun p => p.1 = h) with
  | none => rw [hf] at he; exact absurd he (by simp)
  | some p =>
      rw [hf] at he
      have hp2 : p.2 = r := by simpa using he
      exact hp2 ▸ List.mem_map.mpr ⟨p, List.mem_of_find?_eq_some hf, rfl⟩

lemma rowKey_of_aGet {l : List (String × Row)} {h : String} {r : Row}
    (hg : goodPairs l) (he : aGet l h = some r) : rowKey r = h := by
  unfold aGet at he
  cases hf : l.find? (fun p => p.1 = h) with
  | none => rw [hf] at he; exact absurd he (by simp)
  | some p =>
      rw [hf] at he
      have hp2 : p.2 = r := by simpa using he
      have hp1 : p.1 = h := by simpa using List.find?_some hf
      have := (hg p (List.mem_of_find?_eq_some hf)).1
      rw [← hp1, ← hp2]
      exact this

/-- C2: no two rows returned by `buildActivity` share a (lower-cased) hash. -/
theorem C2_hash_uniqueness (inp : BuildIn) :
    (buildActivity inp).Pairwise (fun a b => rowKey a ≠ rowKey b) := by
  have hvals : ((bestFold (allRows inp)).map Prod.snd).map rowKey =
      (bestFold (allRows inp)).map Prod.fst := by
    rw [List.map_map]
    apply List.map_congr_left
    intro p hp
    exact (bestFold_goodPairs (allRows inp) p hp).1
  have hnd : (((bestFold (allRows inp)).map Prod.snd).map rowKey).Nodup := by
    rw [hvals]
    exact bestFold_keysNodup _
  have hpw : ((bestFold (allRows inp)).map Prod.snd).Pairwise
      (fun a b => rowKey a ≠ rowKey b) := by
    have := (List.pairwise_map).mp hnd
    exact this
  unfold buildActivity
  exact ((sortRows_perm _).pairwise_iff (fun h e => h e.symm)).mpr hpw

/-- C1: when a native `other` row and a token `nft_mint` row are the only rows
competing for a hash, the reconciler keeps the token `nft_mint` row (priority
85 beats the native-other 80), and it is the only one of the two that reaches
the sorted output. -/
theorem C1_token_mint_beats_native_other (rows : List Row) (r1 r2 : Row) (h : String)
    (hk1 : r1.kind = "native") (hc1 : r1.category = some "other")
    (hk2 : r2.kind = "token") (hc2 : r2.category = some "nft_mint")
    (hh1 : rowKey r1 = h) (hh2 : rowKey r2 = h) (hne : h ≠ "")
    (hfilter : rows.filter (fun r => rowKey r = h) = [r1, r2] ∨
               rows.filter (fun r => rowKey r = h) = [r2, r1]) :
    prio r2 = 85 ∧ prio r1 = 80 ∧
    aGet (bestFold rows) h = some r2 ∧
    r2 ∈ sortRows ((bestFold rows).map Prod.snd) ∧
    r1 ∉ sortRows ((bestFold rows).map Prod.snd) := by
  have hp2 : prio r2 = 85 := prio_token_nft hk2 hc2
  have hp1 : prio r1 = 80 := by
    rw [prio_native hk1 hc1]
    decide
  have hget : aGet (bestFold rows) h = some r2 := by
    rw [bestFold_aGet rows h hne]
    rcases hfilter with hf | hf
    · rw [hf, foldBest_cons, pickBest_none, foldBest_cons, pickBest_some, hp1, hp2,
          if_pos (by omega)]
      rfl
    · rw [hf, foldBest_cons, pickBest_none, foldBest_cons, pickBest_some, hp1, hp2,
          if_neg (by omega)]
      rfl
  refine ⟨hp2, hp1, hget, ?_, ?_⟩
  · rw [mem_sortRows]
    exact mem_values_of_aGet hget
  · intro hmem
    rw [mem_sortRows] at hmem
    rcases mem_map_snd_iff.mp hmem with ⟨h', hp⟩
    have hg := bestFold_goodPairs rows _ hp
    have hk0 : rowKey r1 = h' := hg.1
    rw [hh1] at hk0
    have hk : h' = h := hk0.symm
    subst hk
    have := aGet_of_mem_nodup (bestFold_keysNodup rows) hp
    rw [hget] at this
    have he : r2 = r1 := Option.some.inj this
    rw [← he] at hk1
    rw [hk2] at hk1
    exact absurd hk1 (by decide)

/-- C4: `buildStats.nativeSends` equals the number of `buildActivity` rows
with kind `native`, direction `out` and category `native_send`; the stats are
computed from the same `buildActivity` list. -/
theorem C4_nativeSends_counter (inp : BuildIn) :
    (buildStats inp).nativeSends =
      ((buildActivity inp).filter (fun r =>
        r.kind = "native" ∧ r.direction = "out" ∧
        r.category = some "native_send")).length := by
  simp only [buildStats]
  rw [List.filter_filter]
  apply congrArg List.length
  apply List.filter_congr
  intro r _
  by_cases hns : r.category = some "native_send"
  · have hfail : r.category ≠ some "fail" := by rw [hns]; simp
    by_cases hk : r.kind = "native"
    · by_cases hd : r.direction = "out"
      · simp [hns, hfail, hk, hd]
      · simp [hns, hfail, hk, hd]
    · simp [hns, hfail, hk]
  · simp [hns]

/-- C10: every item returned by `fetchPagedAccount` has its timestamp (read
as `Number(timeStamp || 0)`) within `[startTs, endTs]`, the returned items
have pairwise-distinct lower-cased hashes, and a missing/zero timestamp can
survive the filter only when `startTs = 0`. -/
theorem C10_paging_window_and_unique (oracle : Nat → Option (List FeedItem))
    (startTs endTs : Nat) (opts : FetchOpts) :
    (∀ x ∈ fetchPagedAccount oracle startTs endTs opts,
        startTs ≤ tsOf x ∧ tsOf x ≤ endTs) ∧
    ((fetchPagedAccount oracle startTs endTs opts).map itemKey).Nodup ∧
    (∀ x ∈ fetchPagedAccount oracle startTs endTs opts,
        tsOf x = 0 → startTs = 0) := by
  have hmem : ∀ x ∈ fetchPagedAccount oracle startTs endTs opts,
      startTs ≤ tsOf x ∧ tsOf x ≤ endTs := by
    intro x hx
    unfold fetchPagedAccount at hx
    have hx' := uniqueBy_subset _ _ x hx
    have := List.mem_filter.mp hx'
    simpa using this.2
  refine ⟨hmem, ?_, ?_⟩
  · unfold fetchPagedAccount
    exact uniqueBy_keys_nodup _ _
  · intro x hx hts
    have := (hmem x hx).1
    omega

lemma tier1_fail {addr : String} {dh nh : List String} {f : List FeedItem}
    {t : FeedItem} (h1 : isFailedByTxlist t = true) :
    tier1 addr dh nh f t = ⟨"fail", false, false⟩ := by
  unfold tier1
  rw [if_pos h1]

lemma tier1_shape (addr : String) (dh nh : List String) (f : List FeedItem)
    (t : FeedItem) :
    (∃ c, tier1 addr dh nh f t = ⟨c, false, false⟩) ∨
    tier1 addr dh nh f t = ⟨"other", true, false⟩ ∨
    tier1 addr dh nh f t = ⟨"other", false, true⟩ := by
  unfold tier1
  by_cases h1 : isFailedByTxlist t
  · rw [if_pos h1]; exact Or.inl ⟨"fail", rfl⟩
  rw [if_neg h1]
  by_cases h2 : CC_CONTRACTS.contains (jsToLower (jsOr t.to_ ""))
  · rw [if_pos h2]; exact Or.inl ⟨"cc", rfl⟩
  rw [if_neg h2]
  by_cases h3 : isCCO t
  · rw [if_pos h3]; exact Or.inl ⟨"cco", rfl⟩
  rw [if_neg h3]
  by_cases h4 : GM_CONTRACTS.contains (jsToLower (jsOr t.to_ ""))
  · rw [if_pos h4]; exact Or.inl ⟨"gm", rfl⟩
  rw [if_neg h4]
  by_cases h5 : dh.contains (extKey t)
  · rw [if_pos h5]; exact Or.inl ⟨"domain_mint", rfl⟩
  rw [if_neg h5]
  by_cases h6 : nh.contains (extKey t)
  · rw [if_pos h6]; exact Or.inl ⟨"nft_mint", rfl⟩
  rw [if_neg h6]
  by_cases h7 : isStakeQuick t
  · rw [if_pos h7]; exact Or.inl ⟨"stake", rfl⟩
  rw [if_neg h7]
  by_cases h8 : isSwapQuick t
  · rw [if_pos h8]; exact Or.inl ⟨"swap", rfl⟩
  rw [if_neg h8]
  by_cases h9 : isAddLiquidityQuick t
  · rw [if_pos h9]; exact Or.inl ⟨"add_liquidity", rfl⟩
  rw [if_neg h9]
  by_cases h10 : isRemoveLiquidityQuick t
  · rw [if_pos h10]; exact Or.inl ⟨"remove_liquidity", rfl⟩
  rw [if_neg h10]
  by_cases h11 : isGMQuick t
  · rw [if_pos h11]; exact Or.inl ⟨"gm", rfl⟩
  rw [if_neg h11]
  by_cases h12 : isApproveQuick t
  · rw [if_pos h12]; exact Or.inl ⟨"approve", rfl⟩
  rw [if_neg h12]
  by_cases h13 : isNativeSendCandidate t addr
  · rw [if_pos h13]; exact Or.inr (Or.inl rfl)
  rw [if_neg h13]
  by_cases hcand : ((jsToLower (jsOr t.from_ "") = addr) &&
      (jsTruthy t.to_ && !isPrecompile t.to_) &&
      ((if hintedCreation addr f t then "cc" else "other") = "other") &&
      (!emptyInput t.input || DOMAIN_CONTRACTS.contains (jsToLower (jsOr t.to_ "")))) = true
  · refine Or.inr (Or.inr ?_)
    have hco : ((if hintedCreation addr f t then "cc" else "other") = "other") := by
      have h := hcand
      simp only [Bool.and_eq_true] at h
      exact of_decide_eq_true h.1.2
    rw [hcand, hco]
  · refine Or.inl ⟨if hintedCreation addr f t then "cc" else "other", ?_⟩
    rw [Bool.not_eq_true] at hcand
    rw [hcand]

lemma tier1_of_confirm {addr : String} {dh nh : List String} {f : List FeedItem}
    {t : FeedItem} (hcf : (tier1 addr dh nh f t).confirm = true) :
    tier1 addr dh nh f t = ⟨"other", true, false⟩ := by
  rcases tier1_shape addr dh nh f t with ⟨c, he⟩ | he | he
  · rw [he] at hcf; exact absurd hcf (by simp)
  · exact he
  · rw [he] at hcf; exact absurd hcf (by simp)

lemma tier1_of_candidate {addr : String} {dh nh : List String} {f : List FeedItem}
    {t : FeedItem} (hcf : (tier1 addr dh nh f t).candidate = true) :
    tier1 addr dh nh f t = ⟨"other", false, true⟩ := by
  rcases tier1_shape addr dh nh f t with ⟨c, he⟩ | he | he
  · rw [he] at hcf; exact absurd hcf (by simp)
  · rw [he] at hcf; exact absurd hcf (by simp)
  · exact he

lemma eq_of_same_key_nodup {l : List FeedItem} {t1 t2 : FeedItem}
    (hnd : (l.map extKey).Nodup) (h1 : t1 ∈ l) (h2 : t2 ∈ l)
    (he : extKey t2 = extKey t1) : t2 = t1 := by
  have hf := filter_eq_single_of_nodup extKey hnd h1
  have : t2 ∈ l.filter (fun x => extKey x = extKey t1) :=
    List.mem_filter.mpr ⟨h2, by simpa using he⟩
  rw [hf] at this
  simpa using this

lemma rcptsOf_ne {inp : BuildIn} {h : String} (hne : h ≠ "") :
    rcptsOf inp h = inp.rcptOracle h := by
  unfold rcptsOf
  rw [if_neg hne]

lemma lastExt_single {ext : List FeedItem} {t : FeedItem}
    (hone : ext.filter (fun x => extKey x = extKey t) = [t]) :
    lastExt ext (extKey t) = some t := by
  unfold lastExt
  rw [hone]
  rfl

lemma internalRows_filter_nil (inp : BuildIn) (h : String)
    (hno : ∀ it ∈ inp.internalsFeed, itemKey it ≠ h) :
    (internalRows inp).filter (fun r => rowKey r = h) = [] := by
  unfold internalRows
  rw [List.filter_map, List.filter_eq_nil_iff.mpr, List.map_nil]
  intro it hit
  simp only [Function.comp_apply]
  have : rowKey (internalRowOf (jsToLower inp.address) it) = itemKey it := rfl
  rw [this]
  simpa using hno it hit

lemma token20Rows_filter_nil (inp : BuildIn) (h : String)
    (hno : ∀ e ∈ inp.erc20, itemKey e ≠ h) :
    (token20Rows inp).filter (fun r => rowKey r = h) = [] := by
  unfold token20Rows
  rw [List.filter_map, List.filter_eq_nil_iff.mpr, List.map_nil]
  intro e he
  simp only [Function.comp_apply]
  have : rowKey (token20RowOf (jsToLower inp.address) e) = itemKey e := rfl
  rw [this]
  simpa using hno e he

lemma token721Rows_filter_nil (inp : BuildIn) (h : String)
    (hno : ∀ n ∈ inp.erc721, itemKey n ≠ h) :
    (token721Rows inp).filter (fun r => rowKey r = h) = [] := by
  unfold token721Rows
  rw [List.filter_map, List.filter_eq_nil_iff.mpr, List.map_nil]
  intro n hn
  simp only [Function.comp_apply]
  have : rowKey (token721RowOf (jsToLower inp.address) n) = itemKey n := rfl
  rw [this]
  simpa using hno n hn

lemma tier1Of_eq (inp : BuildIn) (t : FeedItem) :
    tier1Of inp t =
      tier1 (jsToLower inp.address) (domainTxFromFeed (jsToLower inp.address) inp.erc721)
        (nftMintFromFeed (jsToLower inp.address) inp.erc721 inp.erc1155)
        inp.internalsFeed t := rfl

/-- C3: once Tier 1 assigns `fail` to an external, the final `buildActivity`
output still reports that hash with category `fail`: the receipt pass never
touches fail rows (their hash joins neither candidate set), and the `fail`
priority 125 wins deduplication. -/
theorem C3_fail_permanence (inp : BuildIn)
    (hnd : (inp.externalsRaw.map extKey).Nodup)
    (t : FeedItem) (ht : t ∈ hydratedExternals inp)
    (hfail : isFailedByTxlist t = true) (hne : extKey t ≠ "") :
    (∃ r ∈ buildActivity inp, rowKey r = extKey t ∧ r.kind = "native" ∧
        r.category = some "fail") ∧
    (∀ r ∈ buildActivity inp, rowKey r = extKey t → r.category = some "fail") := by
  have hndh := hydratedExternals_keys_nodup inp hnd
  have hfil : (hydratedExternals inp).filter (fun x => extKey x = extKey t) = [t] :=
    filter_eq_single_of_nodup extKey hndh ht
  have huniq : ∀ t' ∈ hydratedExternals inp, extKey t' = extKey t → t' = t :=
    fun t' ht' he => eq_of_same_key_nodup hndh ht ht' he
  have ht1 : tier1Of inp t = ⟨"fail", false, false⟩ := by
    rw [tier1Of_eq]
    exact tier1_fail hfail
  have hnc : extKey t ∉ nativeConfirmSet inp := by
    intro hm
    rcases (mem_nativeConfirmSet_iff inp (extKey t)).mp hm with ⟨t', ht', hcf, he⟩
    have heq := huniq t' ht' he
    subst heq
    rw [ht1] at hcf
    simp at hcf
  have hcand : extKey t ∉ candLimited inp := by
    intro hm
    rcases (mem_candidateList_iff inp (extKey t)).mp (mem_of_candLimited hm) with
      ⟨t', ht', hcf, he⟩
    have heq := huniq t' ht' he
    subst heq
    rw [ht1] at hcf
    simp at hcf
  have h0 : (nativeRows0 inp).filter (fun r => rowKey r = extKey t) =
      [nativeRowOf (jsToLower inp.address) t "fail"] := by
    rw [nativeRows0_filter, hfil, List.map_cons, List.map_nil, ht1]
  have hF : (nativeRowsFinal inp).filter (fun r => rowKey r = extKey t) =
      [nativeRowOf (jsToLower inp.address) t "fail"] := by
    rw [nativeRowsFinal_filter_not_mem inp hnc hcand, h0]
  have hprio : prio (nativeRowOf (jsToLower inp.address) t "fail") = 125 := by
    rw [prio_native rfl rfl]
    decide
  have hentry := entry_of_native_singleton inp hF (by omega) hne
  constructor
  · refine ⟨nativeRowOf (jsToLower inp.address) t "fail",
      mem_buildActivity_of_entry hentry, ?_, rfl, rfl⟩
    exact rowKey_nativeRowOf _ t "fail"
  · intro r hr hkey
    have he2 := entry_of_mem_buildActivity hr
    rw [hkey, hentry] at he2
    have : nativeRowOf (jsToLower inp.address) t "fail" = r := Option.some.inj he2
    rw [← this]
    rfl

def c3T : FeedItem := { hash := some "0xFA1C3", isError := some "1" }

def c3Inp : BuildIn := { address := "0xUserC3", externalsRaw := [c3T] }

/-- C3 witness: one failed external transaction; the output row for its hash
carries category `fail` and no other row claims that hash. -/
theorem C3_fail_permanence_witness :
    (∃ r ∈ buildActivity c3Inp, rowKey r = extKey c3T ∧ r.kind = "native" ∧
        r.category = some "fail") ∧
    (∀ r ∈ buildActivity c3Inp, rowKey r = extKey c3T → r.category = some "fail") :=
  C3_fail_permanence c3Inp (by decide) c3T (by decide) (by decide) (by decide)

lemma tier1_nsc {addr : String} {dh nh : List String} {f : List FeedItem}
    {t : FeedItem}
    (h1 : isFailedByTxlist t = false)
    (h2 : CC_CONTRACTS.contains (jsToLower (jsOr t.to_ "")) = false)
    (h3 : isCCO t = false)
    (h4 : GM_CONTRACTS.contains (jsToLower (jsOr t.to_ "")) = false)
    (h5 : dh.contains (extKey t) = false)
    (h6 : nh.contains (extKey t) = false)
    (h7 : isStakeQuick t = false) (h8 : isSwapQuick t = false)
    (h9 : isAddLiquidityQuick t = false) (h10 : isRemoveLiquidityQuick t = false)
    (h11 : isGMQuick t = false) (h12 : isApproveQuick t = false)
    (h13 : isNativeSendCandidate t addr = true) :
    tier1 addr dh nh f t = ⟨"other", true, false⟩ := by
  unfold tier1
  rw [if_neg (by simp [h1]), if_neg (by simp only [h2]; decide),
      if_neg (by simp [h3]),
      if_neg (by simp only [h4]; decide), if_neg (by simp only [h5]; decide),
      if_neg (by simp only [h6]; decide),
      if_neg (by simp [h7]), if_neg (by simp [h8]), if_neg (by simp [h9]),
      if_neg (by simp [h10]), if_neg (by simp [h11]), if_neg (by simp [h12]),
      if_pos h13]

def c5xT : FeedItem :=
  { hash := some "0xc5bad", from_ := some "0xuserc5",
    to_ := some "0x2f96d7dd813b8e17071188791b78ea3fab5c109c",
    value := some 5, input := some "0x", timeStamp := some 1000 }

def c5xRcp : Receipt := { status := RStatus.num 1, logs := [] }

def c5xInp : BuildIn :=
  { address := "0xUserC5",
    externalsRaw := [c5xT],
    rcptOracle := fun h => if h = "0xc5bad" then some c5xRcp else none }

/-- C5 counterexample: an outgoing empty-calldata value transfer, not marked
failed and with a successful zero-log receipt, is still NOT classified
`native_send` when its `to` sits in the `CC_CONTRACTS` allow-list — rule 2 of
Tier 1 fires before the native-send-candidate rule and the row never enters
the confirmation set. -/
theorem C5_counterexample :
    isNativeSendCandidate c5xT (jsToLower c5xInp.address) = true ∧
    isFailedByTxlist c5xT = false ∧
    rcptsOf c5xInp (extKey c5xT) = some c5xRcp ∧
    isFailed c5xRcp = false ∧ c5xRcp.logs = [] ∧
    (∃ r ∈ buildActivity c5xInp, rowKey r = extKey c5xT) ∧
    (∀ r ∈ buildActivity c5xInp, rowKey r = extKey c5xT →
        r.category = some "cc") := by
  decide

/-- C5 (amended): among externals that REACH the native-send-candidate rule —
i.e. that additionally fail every earlier Tier-1 rule (not failed, `to` not in
`CC_CONTRACTS`, not the CCO target, not a GM contract, hash in neither hint
set, no stake/swap/liquidity/gm/approve selector match) — an outgoing
non-precompile empty-calldata transfer with positive value gets category
`native_send` exactly when its receipt is present, successful and log-free;
otherwise the row keeps the provisional `other`.  (The hash is also assumed
absent from the internal/token feeds so the native row is the hash's only
row.) -/
theorem C5_native_send_confirmation (inp : BuildIn) (t : FeedItem)
    (hnd : (inp.externalsRaw.map extKey).Nodup)
    (ht : t ∈ hydratedExternals inp)
    (hne : extKey t ≠ "")
    (h1 : isFailedByTxlist t = false)
    (h2 : CC_CONTRACTS.contains (jsToLower (jsOr t.to_ "")) = false)
    (h3 : isCCO t = false)
    (h4 : GM_CONTRACTS.contains (jsToLower (jsOr t.to_ "")) = false)
    (h5 : (domainTxFromFeed (jsToLower inp.address) inp.erc721).contains
        (extKey t) = false)
    (h6 : (nftMintFromFeed (jsToLower inp.address) inp.erc721
        inp.erc1155).contains (extKey t) = false)
    (h7 : isStakeQuick t = false) (h8 : isSwapQuick t = false)
    (h9 : isAddLiquidityQuick t = false) (h10 : isRemoveLiquidityQuick t = false)
    (h11 : isGMQuick t = false) (h12 : isApproveQuick t = false)
    (h13 : isNativeSendCandidate t (jsToLower inp.address) = true)
    (hi : ∀ it ∈ inp.internalsFeed, itemKey it ≠ extKey t)
    (h20 : ∀ e ∈ inp.erc20, itemKey e ≠ extKey t)
    (h721 : ∀ n ∈ inp.erc721, itemKey n ≠ extKey t) :
    ∃ r ∈ buildActivity inp, rowKey r = extKey t ∧ r.kind = "native" ∧
      r.category = some (match rcptsOf inp (extKey t) with
        | some rcp =>
            if !isFailed rcp && rcp.logs.isEmpty then "native_send" else "other"
        | none => "other") := by
  have ht1 : tier1Of inp t = ⟨"other", true, false⟩ := by
    rw [tier1Of_eq]
    exact tier1_nsc h1 h2 h3 h4 h5 h6 h7 h8 h9 h10 h11 h12 h13
  have hndh := hydratedExternals_keys_nodup inp hnd
  have hmemA : extKey t ∈ nativeConfirmSet inp :=
    (mem_nativeConfirmSet_iff inp (extKey t)).mpr ⟨t, ht, by rw [ht1], rfl⟩
  have hnoB : extKey t ∉ candLimited inp := by
    intro hm
    rcases (mem_candidateList_iff inp (extKey t)).mp (mem_of_candLimited hm) with
      ⟨t', ht', hc, he⟩
    have heq := eq_of_same_key_nodup hndh ht ht' he
    subst heq
    rw [ht1] at hc
    simp at hc
  have hfil : (hydratedExternals inp).filter (fun x => extKey x = extKey t) = [t] :=
    filter_eq_single_of_nodup extKey hndh ht
  have hone : (nativeRows0 inp).filter (fun r => rowKey r = extKey t) =
      [nativeRowOf (jsToLower inp.address) t "other"] := by
    rw [nativeRows0_filter, hfil, List.map_cons, List.map_nil, ht1]
  have hF := nativeRowsFinal_filter_confirm inp hmemA hnoB hone
  have hinil := internalRows_filter_nil inp (extKey t) hi
  have h20nil := token20Rows_filter_nil inp (extKey t) h20
  have h721nil := token721Rows_filter_nil inp (extKey t) h721
  cases hr : rcptsOf inp (extKey t) with
  | none =>
      rw [hr] at hF
      have hone' : (nativeRowsFinal inp).filter (fun r => rowKey r = extKey t) =
          [nativeRowOf (jsToLower inp.address) t "other"] := hF
      have hentry := entry_of_only_native inp hone' hinil h20nil h721nil hne
      exact ⟨nativeRowOf (jsToLower inp.address) t "other",
        mem_buildActivity_of_entry hentry, rowKey_nativeRowOf _ t "other", rfl, rfl⟩
  | some rcp =>
      rw [hr] at hF
      have hF2 : (nativeRowsFinal inp).filter (fun r => rowKey r = extKey t) =
          [if !isFailed rcp && rcp.logs.isEmpty
           then { nativeRowOf (jsToLower inp.address) t "other" with
                    category := some "native_send" }
           else nativeRowOf (jsToLower inp.address) t "other"] := hF
      by_cases hZ : (!isFailed rcp && rcp.logs.isEmpty) = true
      · rw [if_pos hZ] at hF2
        have hentry := entry_of_only_native inp hF2 hinil h20nil h721nil hne
        refine ⟨_, mem_buildActivity_of_entry hentry, rfl, rfl, ?_⟩
        show some "native_send" =
          some (if !isFailed rcp && rcp.logs.isEmpty then "native_send" else "other")
        rw [if_pos hZ]
      · rw [if_neg hZ] at hF2
        have hentry := entry_of_only_native inp hF2 hinil h20nil h721nil hne
        refine ⟨_, mem_buildActivity_of_entry hentry, rfl, rfl, ?_⟩
        show some "other" =
          some (if !isFailed rcp && rcp.logs.isEmpty then "native_send" else "other")
        rw [if_neg hZ]

def c5T : FeedItem :=
  { hash := some "0xc5ok", from_ := some "0xuserc5w",
    to_ := some "0xabcd0123abcd0123abcd0123abcd0123abcd0123",
    value := some 7, input := some "0x", timeStamp := some 1000 }

def c5Rcp : Receipt := { status := RStatus.str "success", logs := [] }

def c5Inp : BuildIn :=
  { address := "0xUserC5W",
    externalsRaw := [c5T],
    rcptOracle := fun h => if h = "0xc5ok" then some c5Rcp else none }

/-- C5 witness: a lone qualifying transfer with a successful log-free receipt
is reported as `native_send`. -/
theorem C5_native_send_confirmation_witness :
    ∃ r ∈ buildActivity c5Inp, rowKey r = extKey c5T ∧ r.kind = "native" ∧
      r.category = some (match rcptsOf c5Inp (extKey c5T) with
        | some rcp =>
            if !isFailed rcp && rcp.logs.isEmpty then "native_send" else "other"
        | none => "other") :=
  C5_native_send_confirmation c5Inp c5T (by decide) (by decide) (by decide)
    (by decide) (by decide) (by decide) (by decide) (by decide) (by decide)
    (by decide) (by decide) (by decide) (by decide) (by decide) (by decide) (by decide)
    (by decide) (by decide) (by decide)

def c6User : String := "0xaaaaaaaaaaaaaaaaaaaaaaaaaaaaaaaaaaaaaaaa"

def c6Log : LogEntry :=
  { address := some "0xBBBBbbbbBBBBbbbbBBBBbbbbBBBBbbbbBBBBbbbb",
    topics :=
      ["0xddf252ad1be2c89b69c2b068fc378daa952ba7f163c4a11628f55a4df523b3ef",
       "0x0000000000000000000000000000000000000000000000000000000000000000",
       "0x000000000000000000000000aaaaaaaaaaaaaaaaaaaaaaaaaaaaaaaaaaaaaaaa"] }

def c6Rcp : Receipt := { status := RStatus.num 1, logs := [c6Log] }

def c6T : FeedItem :=
  { hash := some "0xc6", from_ := some c6User,
    to_ := some "0xcccccccccccccccccccccccccccccccccccccccc",
    input := some "0x12345678" }

def c6Meta : String → String × String := fun _ => ("ZNS", "Zen Name Service")

/-- C6 counterexample: a candidate whose receipt shows an ERC-721 mint to the
user from a contract whose (resolvable) symbol/name matches the domain-text
heuristic.  The spec's rule would classify it `domain_mint`; the code's
receipt pass never resolves metadata and returns `nft_mint`. -/
theorem C6_counterexample :
    isDomainBySigOrEvent c6T c6Rcp = false ∧
    (mintedContractsForUser c6Rcp c6User).length > 0 ∧
    (mintedContractsForUser c6Rcp c6User).any
        (fun c => looksLikeDomainText (some (c6Meta c).1) ||
                  looksLikeDomainText (some (c6Meta c).2)) = true ∧
    specTier2Category c6Meta c6User c6T c6Rcp = some "domain_mint" ∧
    tier2bCategory c6User c6T c6Rcp = some "nft_mint" := by
  decide

/-- C6 (amended): in the receipt pass over mint/domain candidates the code
classifies `domain_mint` exactly when `isDomainBySigOrEvent` fires (the
known-registrar fallback is dead: `DOMAIN_CONTRACTS` is empty); otherwise it
classifies `nft_mint` whenever the mint-shaped-transfer contract set is
non-empty — the minted contracts' symbol/name metadata is never consulted. -/
theorem C6_tier2_candidate_classification (addr : String) (tx : FeedItem)
    (rcp : Receipt) :
    tier2bCategory addr tx rcp =
      (if isDomainBySigOrEvent tx rcp then some "domain_mint"
       else if (mintedContractsForUser rcp addr).length > 0 then some "nft_mint"
       else none) := by
  unfold tier2bCategory
  by_cases hd : isDomainBySigOrEvent tx rcp
  · rw [if_pos hd, if_pos hd]
  · rw [if_neg hd, if_neg hd]
    rfl

lemma nativeRowsFinal_filter_catonly (inp : BuildIn) {t : FeedItem}
    (hnd : (inp.externalsRaw.map extKey).Nodup)
    (ht : t ∈ hydratedExternals inp) :
    ∃ c, (nativeRowsFinal inp).filter (fun r => rowKey r = extKey t) =
      [{ nativeRowOf (jsToLower inp.address) t (tier1Of inp t).category with
           category := some c }] := by
  have hndh := hydratedExternals_keys_nodup inp hnd
  have hfil : (hydratedExternals inp).filter (fun x => extKey x = extKey t) = [t] :=
    filter_eq_single_of_nodup extKey hndh ht
  have hone : (nativeRows0 inp).filter (fun r => rowKey r = extKey t) =
      [nativeRowOf (jsToLower inp.address) t (tier1Of inp t).category] := by
    rw [nativeRows0_filter, hfil, List.map_cons, List.map_nil]
  by_cases hA : extKey t ∈ nativeConfirmSet inp
  · have hBn : extKey t ∉ candLimited inp := by
      intro hm
      rcases (mem_candidateList_iff inp (extKey t)).mp (mem_of_candLimited hm) with
        ⟨t', ht', hc, he⟩
      have heq := eq_of_same_key_nodup hndh ht ht' he
      rw [heq] at hc
      rcases (mem_nativeConfirmSet_iff inp (extKey t)).mp hA with ⟨t'', ht'', hc2, he2⟩
      have heq2 := eq_of_same_key_nodup hndh ht ht'' he2
      rw [heq2] at hc2
      have hsh := tier1_of_confirm hc2
      rw [tier1Of_eq] at hc
      rw [hsh] at hc
      simp at hc
    have hF := nativeRowsFinal_filter_confirm inp hA hBn hone
    cases hr : rcptsOf inp (extKey t) with
    | none =>
        rw [hr] at hF
        exact ⟨(tier1Of inp t).category, hF⟩
    | some rcp =>
        rw [hr] at hF
        have hF2 : (nativeRowsFinal inp).filter (fun r => rowKey r = extKey t) =
            [if !isFailed rcp && rcp.logs.isEmpty
             then { nativeRowOf (jsToLower inp.address) t (tier1Of inp t).category with
                      category := some "native_send" }
             else nativeRowOf (jsToLower inp.address) t (tier1Of inp t).category] := hF
        by_cases hZ : (!isFailed rcp && rcp.logs.isEmpty) = true
        · rw [if_pos hZ] at hF2
          exact ⟨"native_send", hF2⟩
        · rw [if_neg hZ] at hF2
          exact ⟨(tier1Of inp t).category, hF2⟩
  · by_cases hB : extKey t ∈ candLimited inp
    · have hndB := candLimited_nodup inp hndh
      have hF := nativeRowsFinal_filter_cand inp hA hB hndB hone
      cases hr : rcptsOf inp (extKey t) with
      | none =>
          rw [hr] at hF
          exact ⟨(tier1Of inp t).category, hF⟩
      | some rcp =>
          rw [hr] at hF
          cases hl : lastExt (hydratedExternals inp) (extKey t) with
          | none =>
              rw [hl] at hF
              exact ⟨(tier1Of inp t).category, hF⟩
          | some tx =>
              rw [hl] at hF
              have hF2 : (nativeRowsFinal inp).filter (fun r => rowKey r = extKey t) =
                  [if isFailed rcp
                   then nativeRowOf (jsToLower inp.address) t (tier1Of inp t).category
                   else (match tier2bCategory (jsToLower inp.address) tx rcp with
                     | some c =>
                         { nativeRowOf (jsToLower inp.address) t
                             (tier1Of inp t).category with category := some c }
                     | none =>
                         nativeRowOf (jsToLower inp.address) t
                           (tier1Of inp t).category)] := hF
              by_cases hfl : isFailed rcp = true
              · rw [if_pos hfl] at hF2
                exact ⟨(tier1Of inp t).category, hF2⟩
              · rw [if_neg hfl] at hF2
                cases hc : tier2bCategory (jsToLower inp.address) tx rcp with
                | none =>
                    rw [hc] at hF2
                    exact ⟨(tier1Of inp t).category, hF2⟩
                | some c =>
                    rw [hc] at hF2
                    exact ⟨c, hF2⟩
    · have hF := nativeRowsFinal_filter_not_mem inp hA hB
      rw [hone] at hF
      exact ⟨(tier1Of inp t).category, hF⟩

def c7xT : FeedItem :=
  { hash := some "0xc7bad", from_ := some "0xuserc7",
    to_ := some "0xdddddddddddddddddddddddddddddddddddddddd",
    value := some 3, input := some "0x" }

def c7xInp : BuildIn := { address := "0xUserC7", externalsRaw := [c7xT] }

/-- C7 counterexample: an external with no `timeStamp` stays in the output but
its row carries `timeMs = NaN` (`Number(undefined) * 1000`), not `0` — the
native-row construction has no `|| 0` fallback on the timestamp. -/
theorem C7_counterexample :
    c7xT.timeStamp = none ∧
    (∃ r ∈ buildActivity c7xInp, rowKey r = extKey c7xT) ∧
    (∀ r ∈ buildActivity c7xInp, rowKey r = extKey c7xT →
        r.timeMs = JsNum.nan ∧ r.timeMs ≠ JsNum.val 0) := by
  decide

/-- C8: a hash present in the internal feed but absent from the external feed,
picked up within the hydration bound and successfully fetched over RPC, still
reaches `buildActivity`'s output with a non-null category, and the hydrated
external set keeps its hashes duplicate-free. -/
theorem C8_hydrated_hash_not_dropped (inp : BuildIn)
    (hnd : (inp.externalsRaw.map extKey).Nodup) (h : String)
    (hm : h ∈ intMissing inp.internalsFeed inp.externalsRaw HYDRATE_INT_LIMIT)
    (y : FeedItem)
    (hy : hydrateIntItem inp.txOracle inp.internalsFeed h = some y) :
    ((hydratedExternals inp).map extKey).Nodup ∧
    ∃ r ∈ buildActivity inp, rowKey r = h ∧ r.category ≠ none := by
  have hndh := hydratedExternals_keys_nodup inp hnd
  refine ⟨hndh, ?_⟩
  have hne : h ≠ "" := (intMissing_facts hm).2.2
  have hyk : extKey y = h := by
    rw [(hydrateIntItem_some hy).1, intMissing_lower hm]
  have hmem : y ∈ hydratedExternals inp := mem_hydratedExternals_synth hm hy
  rcases nativeRowsFinal_filter_catonly inp hnd hmem with ⟨c, hF⟩
  have hr0fil : ({ nativeRowOf (jsToLower inp.address) y (tier1Of inp y).category with
      category := some c } : Row) ∈
      (nativeRowsFinal inp).filter (fun r => rowKey r = extKey y) := by
    rw [hF]
    exact List.mem_singleton.mpr rfl
  have hr0mem := List.mem_of_mem_filter hr0fil
  have hr0all : ({ nativeRowOf (jsToLower inp.address) y (tier1Of inp y).category with
      category := some c } : Row) ∈ allRows inp := by
    unfold allRows
    exact List.mem_append_left _ (List.mem_append_left _
      (List.mem_append_left _ hr0mem))
  have hkey : rowKey ({ nativeRowOf (jsToLower inp.address) y
      (tier1Of inp y).category with category := some c } : Row) = h := hyk
  have hprio := (nativeRowsFinal_inv inp _ hr0mem).2
  rcases entry_winner_facts hr0all (by rw [hkey]; exact hne) with ⟨w, hw, hge, hwall⟩
  rw [hkey] at hw
  exact ⟨w, mem_buildActivity_of_entry hw,
    rowKey_of_aGet (bestFold_goodPairs _) hw,
    prio_ge_80_cat_isSome (le_trans hprio hge)⟩

def c8Int : FeedItem :=
  { hash := some "0xc8int", from_ := some "0xffffffffffffffffffffffffffffffffffffffff",
    to_ := some "0xuserc8", value := some 2, timeStamp := some 777 }

def c8Tx : RpcTx :=
  { blockNumber := some 5, from_ := "0xFFFFffffFFFFffffFFFFffffFFFFffffFFFFffff",
    to_ := some "0xUserC8", value := 2, input := some "0x" }

def c8Inp : BuildIn :=
  { address := "0xUserC8",
    internalsFeed := [c8Int],
    txOracle := fun h => if h = "0xc8int" then some c8Tx else none }

def c8Y : FeedItem := synthExternal "0xc8int" c8Tx 777

/-- C8 witness: one internal-only hash, fetchable over RPC, surfaces in the
output with a non-null category. -/
theorem C8_hydrated_hash_not_dropped_witness :
    ((hydratedExternals c8Inp).map extKey).Nodup ∧
    ∃ r ∈ buildActivity c8Inp, rowKey r = "0xc8int" ∧ r.category ≠ none :=
  C8_hydrated_hash_not_dropped c8Inp (by decide) "0xc8int" (by decide) c8Y
    (by decide)

/-- An optional address with its letter case normalized away. -/
def lowOpt (a : Option String) : Option String := a.map jsToLower

/-- A feed item with the case of its address fields (`from`, `to`) normalized;
all other fields are untouched.  Two raw items are "equal up to address case"
exactly when their `lowItem` images coincide. -/
def lowItem (t : FeedItem) : FeedItem :=
  { t with from_ := lowOpt t.from_, to_ := lowOpt t.to_ }

/-- A `buildActivity` input with the queried address and every feed item's
address fields case-normalized. -/
def lowInp (inp : BuildIn) : BuildIn :=
  { address := jsToLower inp.address,
    externalsRaw := inp.externalsRaw.map lowItem,
    internalsFeed := inp.internalsFeed.map lowItem,
    erc20 := inp.erc20.map lowItem,
    erc721 := inp.erc721.map lowItem,
    erc1155 := inp.erc1155.map lowItem,
    txOracle := inp.txOracle,
    rcptOracle := inp.rcptOracle }

lemma jsOr_lowOpt (a : Option String) :
    jsOr (lowOpt a) "" = jsToLower (jsOr a "") := by
  cases a with
  | none => rfl
  | some s =>
      by_cases hs : s = ""
      · subst hs
        decide
      · have hls : ¬ jsToLower s = "" := fun h => hs ((jsToLower_empty_iff s).mp h)
        show (if jsToLower s = "" then "" else jsToLower s) =
          jsToLower (if s = "" then "" else s)
        rw [if_neg hls, if_neg hs]

lemma jsTruthy_lowOpt (a : Option String) : jsTruthy (lowOpt a) = jsTruthy a := by
  unfold jsTruthy
  rw [jsOr_lowOpt]
  exact decide_eq_decide.mpr (not_congr (jsToLower_empty_iff _))

lemma lowItem_from (t : FeedItem) : (lowItem t).from_ = lowOpt t.from_ := rfl

lemma lowItem_to (t : FeedItem) : (lowItem t).to_ = lowOpt t.to_ := rfl

lemma lowItem_hash (t : FeedItem) : (lowItem t).hash = t.hash := rfl

lemma lowItem_blockNumber (t : FeedItem) : (lowItem t).blockNumber = t.blockNumber := rfl

lemma lowItem_timeStamp (t : FeedItem) : (lowItem t).timeStamp = t.timeStamp := rfl

lemma lowItem_value (t : FeedItem) : (lowItem t).value = t.value := rfl

lemma lowItem_input (t : FeedItem) : (lowItem t).input = t.input := rfl

lemma lowItem_functionName (t : FeedItem) : (lowItem t).functionName = t.functionName := rfl

lemma lowItem_contractAddress (t : FeedItem) :
    (lowItem t).contractAddress = t.contractAddress := rfl

lemma lowItem_tokenSymbol (t : FeedItem) : (lowItem t).tokenSymbol = t.tokenSymbol := rfl

lemma lowItem_tokenName (t : FeedItem) : (lowItem t).tokenName = t.tokenName := rfl

lemma lowItem_tokenDecimal (t : FeedItem) : (lowItem t).tokenDecimal = t.tokenDecimal := rfl

lemma lowItem_tokenID (t : FeedItem) : (lowItem t).tokenID = t.tokenID := rfl

lemma lowItem_tokenId (t : FeedItem) : (lowItem t).tokenId = t.tokenId := rfl

lemma extKey_low (t : FeedItem) : extKey (lowItem t) = extKey t := rfl

lemma itemKey_low (t : FeedItem) : itemKey (lowItem t) = itemKey t := rfl

lemma tsOf_low (t : FeedItem) : tsOf (lowItem t) = tsOf t := rfl

lemma isFailedByTxlist_low (t : FeedItem) :
    isFailedByTxlist (lowItem t) = isFailedByTxlist t := rfl

lemma inputSig_low (t : FeedItem) : inputSig (lowItem t) = inputSig t := rfl

lemma isStakeQuick_low (t : FeedItem) : isStakeQuick (lowItem t) = isStakeQuick t := rfl

lemma isSwapQuick_low (t : FeedItem) : isSwapQuick (lowItem t) = isSwapQuick t := rfl

lemma isAddLiquidityQuick_low (t : FeedItem) :
    isAddLiquidityQuick (lowItem t) = isAddLiquidityQuick t := rfl

lemma isRemoveLiquidityQuick_low (t : FeedItem) :
    isRemoveLiquidityQuick (lowItem t) = isRemoveLiquidityQuick t := rfl

lemma isGMQuick_low (t : FeedItem) : isGMQuick (lowItem t) = isGMQuick t := rfl

lemma isApproveQuick_low (t : FeedItem) : isApproveQuick (lowItem t) = isApproveQuick t := rfl

lemma isDomainBySigOrEvent_low (t : FeedItem) (rcp : Receipt) :
    isDomainBySigOrEvent (lowItem t) rcp = isDomainBySigOrEvent t rcp := rfl

lemma isPrecompile_lowOpt (a : Option String) :
    isPrecompile (lowOpt a) = isPrecompile a := by
  unfold isPrecompile
  rw [jsOr_lowOpt, jsToLower_idem]

lemma isCCO_low (t : FeedItem) : isCCO (lowItem t) = isCCO t := by
  unfold isCCO
  rw [lowItem_to, jsOr_lowOpt, jsToLower_idem]

lemma isNativeSendCandidate_low (t : FeedItem) (u : String) :
    isNativeSendCandidate (lowItem t) u = isNativeSendCandidate t u := by
  unfold isNativeSendCandidate
  simp only [lowItem_from, lowItem_to, lowItem_value, lowItem_input, jsOr_lowOpt,
    jsToLower_idem]

lemma hintedCreation_low (addr : String) (feed : List FeedItem) (t : FeedItem) :
    hintedCreation addr (feed.map lowItem) (lowItem t) = hintedCreation addr feed t := by
  unfold hintedCreation
  simp only [extKey_low, lowItem_from, jsOr_lowOpt, jsToLower_idem]
  rw [List.filter_map, List.any_map]
  rfl

lemma zeroMintPred_comp (addr : String) :
    ((fun n => decide (jsToLower (jsOr n.from_ "") = ZERO ∧
        jsToLower (jsOr n.to_ "") = addr)) ∘ lowItem) =
    (fun n => decide (jsToLower (jsOr n.from_ "") = ZERO ∧
        jsToLower (jsOr n.to_ "") = addr)) := by
  funext n
  show decide (jsToLower (jsOr (lowOpt n.from_) "") = ZERO ∧
      jsToLower (jsOr (lowOpt n.to_) "") = addr) = _
  simp only [jsOr_lowOpt, jsToLower_idem]

lemma domainTxFromFeed_low (addr : String) (l : List FeedItem) :
    domainTxFromFeed addr (l.map lowItem) = domainTxFromFeed addr l := by
  unfold domainTxFromFeed
  rw [List.filter_map, zeroMintPred_comp, List.filter_map, List.map_map]
  rfl

lemma nftMintFromFeed_low (addr : String) (l721 l1155 : List FeedItem) :
    nftMintFromFeed addr (l721.map lowItem) (l1155.map lowItem) =
      nftMintFromFeed addr l721 l1155 := by
  unfold nftMintFromFeed
  rw [List.filter_map, List.filter_map, zeroMintPred_comp, List.map_map, List.map_map]
  rfl

lemma tier1_low (addr : String) (dh nh : List String) (feed : List FeedItem)
    (t : FeedItem) :
    tier1 addr dh nh (feed.map lowItem) (lowItem t) = tier1 addr dh nh feed t := by
  unfold tier1
  simp only [isFailedByTxlist_low, lowItem_to, lowItem_from, lowItem_input,
    jsOr_lowOpt, jsToLower_idem, isCCO_low, extKey_low, isStakeQuick_low,
    isSwapQuick_low, isAddLiquidityQuick_low, isRemoveLiquidityQuick_low,
    isGMQuick_low, isApproveQuick_low, isNativeSendCandidate_low,
    hintedCreation_low, jsTruthy_lowOpt, isPrecompile_lowOpt]

lemma lowInp_addr (inp : BuildIn) :
    jsToLower (lowInp inp).address = jsToLower inp.address := by
  show jsToLower (jsToLower inp.address) = jsToLower inp.address
  exact jsToLower_idem _

lemma tier1Of_low (inp : BuildIn) (t : FeedItem) :
    tier1Of (lowInp inp) (lowItem t) = tier1Of inp t := by
  show tier1 (jsToLower (lowInp inp).address)
      (domainTxFromFeed (jsToLower (lowInp inp).address) (inp.erc721.map lowItem))
      (nftMintFromFeed (jsToLower (lowInp inp).address) (inp.erc721.map lowItem)
        (inp.erc1155.map lowItem))
      (inp.internalsFeed.map lowItem) (lowItem t) = tier1Of inp t
  rw [lowInp_addr, domainTxFromFeed_low, nftMintFromFeed_low, tier1_low]
  rfl

lemma nativeRowOf_low (addr : String) (t : FeedItem) (c : String) :
    nativeRowOf addr (lowItem t) c = nativeRowOf addr t c := by
  unfold nativeRowOf
  simp only [lowItem_to, lowItem_from, lowItem_hash, lowItem_blockNumber,
    lowItem_timeStamp, lowItem_value, jsOr_lowOpt, jsToLower_idem, jsTruthy_lowOpt]

lemma map_extKey_low (e : List FeedItem) :
    (e.map lowItem).map extKey = e.map extKey := by
  rw [List.map_map]
  rfl

lemma intMissing_low (f e : List FeedItem) (lim : Nat) :
    intMissing (f.map lowItem) (e.map lowItem) lim = intMissing f e lim := by
  unfold intMissing
  rw [List.map_map, List.map_map]
  rfl

lemma lastWithKey_low (f : List FeedItem) (h : String) :
    lastWithKey (f.map lowItem) h = (lastWithKey f h).map lowItem := by
  unfold lastWithKey
  rw [List.filter_map, List.getLast?_map]
  rfl

lemma hydrateIntItem_low (txO : String → Option RpcTx) (f : List FeedItem)
    (h : String) :
    hydrateIntItem txO (f.map lowItem) h = hydrateIntItem txO f h := by
  unfold hydrateIntItem
  cases txO h with
  | none => rfl
  | some tx =>
      show some (synthExternal h tx (match lastWithKey (f.map lowItem) h with
        | some it => it.timeStamp.getD 0
        | none => 0)) = some (synthExternal h tx (match lastWithKey f h with
        | some it => it.timeStamp.getD 0
        | none => 0))
      rw [lastWithKey_low]
      cases lastWithKey f h with
      | none => rfl
      | some it => rfl

lemma lowItem_synth (h : String) (tx : RpcTx) (ts : Nat) :
    lowItem (synthExternal h tx ts) = synthExternal h tx ts := by
  have hfrom : lowOpt (synthExternal h tx ts).from_ = (synthExternal h tx ts).from_ := by
    show some (jsToLower (jsToLower tx.from_)) = some (jsToLower tx.from_)
    rw [jsToLower_idem]
  have hto : lowOpt (synthExternal h tx ts).to_ = (synthExternal h tx ts).to_ := by
    show lowOpt (match tx.to_ with
      | some s => if s ≠ "" then some (jsToLower s) else none
      | none => none) = (match tx.to_ with
      | some s => if s ≠ "" then some (jsToLower s) else none
      | none => none)
    cases tx.to_ with
    | none => rfl
    | some s =>
        show lowOpt (if s ≠ "" then some (jsToLower s) else none) =
          (if s ≠ "" then some (jsToLower s) else none)
        by_cases hs : s = ""
        · rw [if_neg (by simp [hs])]
          rfl
        · rw [if_pos hs]
          show some (jsToLower (jsToLower s)) = some (jsToLower s)
          rw [jsToLower_idem]
  unfold lowItem
  rw [hfrom, hto]

lemma hydrateIntItem_fix {txO : String → Option RpcTx} {f : List FeedItem}
    {h : String} {y : FeedItem} (hy : hydrateIntItem txO f h = some y) :
    lowItem y = y := by
  unfold hydrateIntItem at hy
  cases htx : txO h with
  | none => rw [htx] at hy; exact absurd hy (by simp)
  | some tx =>
      rw [htx] at hy
      have he := Option.some.inj hy
      rw [← he]
      exact lowItem_synth _ _ _

lemma hydrateInternals_low (txO : String → Option RpcTx) (f e : List FeedItem)
    (lim : Nat) :
    hydrateMissingExternalsFromInternals txO (f.map lowItem) (e.map lowItem) lim =
      (hydrateMissingExternalsFromInternals txO f e lim).map lowItem := by
  unfold hydrateMissingExternalsFromInternals
  rw [intMissing_low]
  by_cases hm : (intMissing f e lim).isEmpty = true
  · rw [if_pos hm, if_pos hm]
  · rw [if_neg hm, if_neg hm, List.map_append]
    congr 1
    have hg : hydrateIntItem txO (f.map lowItem) = hydrateIntItem txO f :=
      funext (hydrateIntItem_low txO f)
    rw [hg]
    symm
    refine (List.map_congr_left ?_).trans (List.map_id _)
    intro y hy
    rcases List.mem_filterMap.mp hy with ⟨h', _, hy'⟩
    exact hydrateIntItem_fix hy'

lemma tsMapBuild_low (extSet : List String) (t20 t721 t1155 : List FeedItem) :
    tsMapBuild extSet (t20.map lowItem) (t721.map lowItem) (t1155.map lowItem) =
      tsMapBuild extSet t20 t721 t1155 := by
  unfold tsMapBuild
  rw [List.foldl_map, List.foldl_map, List.foldl_map]
  rfl

lemma hydrateTokenItem_fix {txO : String → Option RpcTx}
    {tsMap : List (String × Nat)} {h : String} {y : FeedItem}
    (hy : hydrateTokenItem txO tsMap h = some y) : lowItem y = y := by
  unfold hydrateTokenItem at hy
  cases htx : txO h with
  | none => rw [htx] at hy; exact absurd hy (by simp)
  | some tx =>
      rw [htx] at hy
      have he := Option.some.inj hy
      rw [← he]
      exact lowItem_synth _ _ _

lemma hydrateTokens_low (txO : String → Option RpcTx)
    (t20 t721 t1155 e : List FeedItem) (lim : Nat) :
    hydrateMissingExternalsFromTokenFeeds txO (t20.map lowItem) (t721.map lowItem)
      (t1155.map lowItem) (e.map lowItem) lim =
      (hydrateMissingExternalsFromTokenFeeds txO t20 t721 t1155 e lim).map lowItem := by
  simp only [hydrateMissingExternalsFromTokenFeeds]
  rw [map_extKey_low, tsMapBuild_low]
  by_cases hm : (((tsMapBuild (e.map extKey) t20 t721 t1155).map
      Prod.fst).take lim).isEmpty = true
  · rw [if_pos hm, if_pos hm]
  · rw [if_neg hm, if_neg hm, List.map_append]
    congr 1
    symm
    refine (List.map_congr_left ?_).trans (List.map_id _)
    intro y hy
    rcases List.mem_filterMap.mp hy with ⟨h', _, hy'⟩
    exact hydrateTokenItem_fix hy'

lemma hydratedExternals_low (inp : BuildIn) :
    hydratedExternals (lowInp inp) = (hydratedExternals inp).map lowItem := by
  show hydrateMissingExternalsFromTokenFeeds inp.txOracle (inp.erc20.map lowItem)
      (inp.erc721.map lowItem) (inp.erc1155.map lowItem)
      (hydrateMissingExternalsFromInternals inp.txOracle
        (inp.internalsFeed.map lowItem) (inp.externalsRaw.map lowItem)
        HYDRATE_INT_LIMIT) HYDRATE_TOKEN_LIMIT =
      (hydratedExternals inp).map lowItem
  rw [hydrateInternals_low, hydrateTokens_low]
  rfl

lemma lowItem_transactionHash (t : FeedItem) :
    (lowItem t).transactionHash = t.transactionHash := rfl

lemma nativeRows0_low (inp : BuildIn) : nativeRows0 (lowInp inp) = nativeRows0 inp := by
  unfold nativeRows0
  rw [hydratedExternals_low, List.map_map]
  refine List.map_congr_left ?_
  intro t _
  show nativeRowOf (jsToLower (lowInp inp).address) (lowItem t)
      (tier1Of (lowInp inp) (lowItem t)).category =
    nativeRowOf (jsToLower inp.address) t (tier1Of inp t).category
  rw [lowInp_addr, tier1Of_low, nativeRowOf_low]

lemma filter_map_low2 (p q : FeedItem → Bool) (hpq : ∀ n, p (lowItem n) = q n)
    (l : List FeedItem) : (l.map lowItem).filter p = (l.filter q).map lowItem := by
  rw [List.filter_map]
  exact congrArg (List.map lowItem) (List.filter_congr (fun x _ => hpq x))

lemma nativeConfirmSet_low (inp : BuildIn) :
    nativeConfirmSet (lowInp inp) = nativeConfirmSet inp := by
  unfold nativeConfirmSet
  rw [hydratedExternals_low,
    filter_map_low2 (fun t => (tier1Of (lowInp inp) t).confirm)
      (fun t => (tier1Of inp t).confirm)
      (fun t => congrArg T1Out.confirm (tier1Of_low inp t)),
    map_extKey_low]

lemma candidateList_low (inp : BuildIn) :
    candidateList (lowInp inp) = candidateList inp := by
  unfold candidateList
  rw [hydratedExternals_low,
    filter_map_low2 (fun t => (tier1Of (lowInp inp) t).candidate)
      (fun t => (tier1Of inp t).candidate)
      (fun t => congrArg T1Out.candidate (tier1Of_low inp t)),
    map_extKey_low]

lemma candLimited_low (inp : BuildIn) : candLimited (lowInp inp) = candLimited inp := by
  unfold candLimited
  rw [candidateList_low]

lemma rcptsOf_low (inp : BuildIn) (h : String) :
    rcptsOf (lowInp inp) h = rcptsOf inp h := rfl

lemma tier2aStep_low (inp : BuildIn) : tier2aStep (lowInp inp) = tier2aStep inp := rfl

lemma tier2a_low (inp : BuildIn) (rows : List Row) :
    tier2a (lowInp inp) rows = tier2a inp rows := by
  unfold tier2a
  rw [nativeConfirmSet_low, tier2aStep_low]

lemma lastExt_low (ext : List FeedItem) (h : String) :
    lastExt (ext.map lowItem) h = (lastExt ext h).map lowItem := by
  unfold lastExt
  rw [List.filter_map, List.getLast?_map]
  rfl

lemma tier2bCategory_low (addr : String) (tx : FeedItem) (rcp : Receipt) :
    tier2bCategory addr (lowItem tx) rcp = tier2bCategory addr tx rcp := by
  unfold tier2bCategory
  simp only [isDomainBySigOrEvent_low, lowItem_to, lowItem_functionName,
    inputSig_low, jsOr_lowOpt, jsToLower_idem]

lemma tier2bStep_low (inp : BuildIn) (ext : List FeedItem) (rows : List Row)
    (h : String) :
    tier2bStep (lowInp inp) (ext.map lowItem) rows h = tier2bStep inp ext rows h := by
  unfold tier2bStep
  rw [lastExt_low, rcptsOf_low]
  cases hr : rcptsOf inp h with
  | none => rfl
  | some rcp =>
      cases hl : lastExt ext h with
      | none => rfl
      | some tx =>
          show (if isFailed rcp then rows
            else match tier2bCategory (jsToLower (lowInp inp).address) (lowItem tx) rcp with
              | some c => updateLastWith h (fun r => { r with category := some c }) rows
              | none => rows) =
            (if isFailed rcp then rows
             else match tier2bCategory (jsToLower inp.address) tx rcp with
               | some c => updateLastWith h (fun r => { r with category := some c }) rows
               | none => rows)
          rw [lowInp_addr, tier2bCategory_low]

lemma nativeRowsFinal_low (inp : BuildIn) :
    nativeRowsFinal (lowInp inp) = nativeRowsFinal inp := by
  unfold nativeRowsFinal
  rw [candLimited_low, hydratedExternals_low, nativeRows0_low, tier2a_low]
  have hstep : tier2bStep (lowInp inp) ((hydratedExternals inp).map lowItem) =
      tier2bStep inp (hydratedExternals inp) :=
    funext fun rows => funext fun h => tier2bStep_low inp _ rows h
  rw [hstep]

lemma internalRowOf_low (addr : String) (it : FeedItem) :
    internalRowOf addr (lowItem it) = internalRowOf addr it := by
  unfold internalRowOf
  simp only [lowItem_from, lowItem_to, lowItem_hash, lowItem_transactionHash,
    lowItem_blockNumber, lowItem_timeStamp, lowItem_value, jsOr_lowOpt,
    jsToLower_idem]

lemma token20RowOf_low (addr : String) (e : FeedItem) :
    token20RowOf addr (lowItem e) = token20RowOf addr e := by
  unfold token20RowOf
  simp only [lowItem_from, lowItem_to, lowItem_hash, lowItem_transactionHash,
    lowItem_blockNumber, lowItem_timeStamp, lowItem_value, lowItem_tokenDecimal,
    lowItem_tokenSymbol, lowItem_contractAddress, jsOr_lowOpt, jsToLower_idem]

lemma token721RowOf_low (addr : String) (n : FeedItem) :
    token721RowOf addr (lowItem n) = token721RowOf addr n := by
  unfold token721RowOf
  simp only [lowItem_from, lowItem_to, lowItem_hash, lowItem_transactionHash,
    lowItem_blockNumber, lowItem_timeStamp, lowItem_tokenSymbol, lowItem_tokenID,
    lowItem_tokenId, lowItem_contractAddress, jsOr_lowOpt, jsToLower_idem]

lemma internalRows_low (inp : BuildIn) : internalRows (lowInp inp) = internalRows inp := by
  unfold internalRows
  show (inp.internalsFeed.map lowItem).map
      (internalRowOf (jsToLower (lowInp inp).address)) = _
  rw [lowInp_addr, List.map_map]
  refine List.map_congr_left ?_
  intro it _
  exact internalRowOf_low _ it

lemma token20Rows_low (inp : BuildIn) : token20Rows (lowInp inp) = token20Rows inp := by
  unfold token20Rows
  show (inp.erc20.map lowItem).map (token20RowOf (jsToLower (lowInp inp).address)) = _
  rw [lowInp_addr, List.map_map]
  refine List.map_congr_left ?_
  intro e _
  exact token20RowOf_low _ e

lemma token721Rows_low (inp : BuildIn) :
    token721Rows (lowInp inp) = token721Rows inp := by
  unfold token721Rows
  show (inp.erc721.map lowItem).map (token721RowOf (jsToLower (lowInp inp).address)) = _
  rw [lowInp_addr, List.map_map]
  refine List.map_congr_left ?_
  intro n _
  exact token721RowOf_low _ n

lemma allRows_low (inp : BuildIn) : allRows (lowInp inp) = allRows inp := by
  unfold allRows
  rw [nativeRowsFinal_low, internalRows_low, token20Rows_low, token721Rows_low]

lemma buildActivity_low (inp : BuildIn) :
    buildActivity (lowInp inp) = buildActivity inp := by
  unfold buildActivity
  rw [allRows_low]

/-- C9: two `buildActivity` inputs that differ only in the letter case of the
queried address and of the feed items' `from`/`to` fields (i.e. with equal
case-normalizations `lowInp`) produce identical outputs — in particular every
row's direction is unchanged — and in each run a row's direction is `out`
exactly when its (lower-cased) `from` equals the lower-cased queried address,
else `in`. -/
theorem C9_direction_case_invariant (inp inp' : BuildIn)
    (hEq : lowInp inp' = lowInp inp) :
    buildActivity inp' = buildActivity inp ∧
    (∀ r ∈ buildActivity inp,
      r.direction = (if r.from_ = jsToLower inp.address then "out" else "in")) ∧
    (∀ r ∈ buildActivity inp',
      r.direction = (if r.from_ = jsToLower inp'.address then "out" else "in")) := by
  refine ⟨?_, ?_, ?_⟩
  · rw [← buildActivity_low inp', hEq, buildActivity_low inp]
  · intro r hr
    exact allRows_direction inp r (mem_allRows_of_mem_buildActivity hr)
  · intro r hr
    exact allRows_direction inp' r (mem_allRows_of_mem_buildActivity hr)

def c9T : FeedItem :=
  { hash := some "0xc9", from_ := some "0xUserC9",
    to_ := some "0xPeerC9aaaa", value := some 1, input := some "0x",
    timeStamp := some 50 }

def c9Tv : FeedItem :=
  { hash := some "0xc9", from_ := some "0xuserc9",
    to_ := some "0xpeerC9AAAA", value := some 1, input := some "0x",
    timeStamp := some 50 }

def c9Inp : BuildIn := { address := "0xUserC9", externalsRaw := [c9T] }

def c9Inpv : BuildIn := { address := "0xUSERC9", externalsRaw := [c9Tv] }

/-- C9 witness: a case-variant pair of inputs yields identical outputs with
the stated direction rule. -/
theorem C9_direction_case_invariant_witness :
    buildActivity c9Inpv = buildActivity c9Inp ∧
    (∀ r ∈ buildActivity c9Inp,
      r.direction = (if r.from_ = jsToLower c9Inp.address then "out" else "in")) ∧
    (∀ r ∈ buildActivity c9Inpv,
      r.direction = (if r.from_ = jsToLower c9Inpv.address then "out" else "in")) :=
  C9_direction_case_invariant c9Inp c9Inpv rfl

def c1R1 : Row :=
  { kind := "native", hash := some "0xc1", blockNumber := 1,
    timeMs := JsNum.val 1000, from_ := "0xa", to_ := some "0xb",
    direction := "out", value := some "1", category := some "other" }

def c1R2 : Row :=
  { kind := "token", standard := some "erc721", hash := some "0xc1",
    blockNumber := 1, timeMs := JsNum.val 1000, from_ := ZERO, to_ := some "0xa",
    direction := "in", symbol := some "NFT", category := some "nft_mint" }

/-- C1 witness: with one native `other` row and one token `nft_mint` row for
the same hash, the token row (priority 85) wins deduplication over the native
row (priority 80). -/
theorem C1_token_mint_beats_native_other_witness :
    prio c1R2 = 85 ∧ prio c1R1 = 80 ∧
    aGet (bestFold [c1R1, c1R2]) "0xc1" = some c1R2 ∧
    c1R2 ∈ sortRows ((bestFold [c1R1, c1R2]).map Prod.snd) ∧
    c1R1 ∉ sortRows ((bestFold [c1R1, c1R2]).map Prod.snd) :=
  C1_token_mint_beats_native_other [c1R1, c1R2] c1R1 c1R2 "0xc1" (by decide)
    (by decide) (by decide) (by decide) (by decide) (by decide) (by decide)
    (Or.inl (by decide))

lemma mem_aSetN {m : List (String × Nat)} {k : String} {v : Nat} {p : String × Nat}
    (hp : p ∈ aSetN m k v) : p = (k, v) ∨ p ∈ m := by
  unfold aSetN at hp
  by_cases hf : (m.find? (fun q => q.1 = k)).isSome = true
  · rw [if_pos hf] at hp
    rcases List.mem_map.mp hp with ⟨q, hq, he⟩
    by_cases hqk : q.1 = k
    · rw [if_pos hqk] at he
      exact Or.inl he.symm
    · rw [if_neg hqk] at he
      exact Or.inr (he ▸ hq)
  · rw [if_neg hf] at hp
    rcases List.mem_append.mp hp with hq | hq
    · exact Or.inr hq
    · rw [List.mem_singleton] at hq
      exact Or.inl hq

lemma tsMapBuild_at (extSet : List String) (t20 t721 t1155 : List FeedItem)
    (h : String)
    (h20 : ∀ e ∈ t20, itemKey e = h → e.timeStamp = none)
    (h721 : ∀ n ∈ t721, itemKey n = h → n.timeStamp = none)
    (h1155 : ∀ m ∈ t1155, itemKey m = h → m.timeStamp = none) :
    ∀ p ∈ tsMapBuild extSet t20 t721 t1155, p.1 = h → p.2 = 0 := by
  have main : ∀ (step : List (String × Nat) → FeedItem → List (String × Nat))
      (l : List FeedItem),
      (∀ m b, b ∈ l → (∀ p ∈ m, p.1 = h → p.2 = 0) →
        ∀ p ∈ step m b, p.1 = h → p.2 = 0) →
      ∀ m, (∀ p ∈ m, p.1 = h → p.2 = 0) →
        ∀ p ∈ l.foldl step m, p.1 = h → p.2 = 0 := by
    intro step l
    induction l with
    | nil => intro _ m hm; exact hm
    | cons b t ih =>
        intro hstep m hm
        exact ih (fun m' b' hb' => hstep m' b' (List.mem_cons_of_mem b hb'))
          _ (hstep m b (List.mem_cons_self b t) hm)
  have hs20 : ∀ (m : List (String × Nat)) (e : FeedItem), e ∈ t20 →
      (∀ p ∈ m, p.1 = h → p.2 = 0) →
      ∀ p ∈ (if itemKey e ≠ "" ∧ !extSet.contains (itemKey e)
             then aSetN m (itemKey e) (tsOf e) else m), p.1 = h → p.2 = 0 := by
    intro m e he hm
    by_cases hc : itemKey e ≠ "" ∧ !extSet.contains (itemKey e)
    · rw [if_pos hc]
      intro p hp hph
      rcases mem_aSetN hp with heq | hpm
      · rw [heq] at hph ⊢
        have hts : e.timeStamp = none := h20 e he hph
        show tsOf e = 0
        unfold tsOf
        rw [hts]
        rfl
      · exact hm p hpm hph
    · rw [if_neg hc]
      exact hm
  have hsN : ∀ (l : List FeedItem), (∀ n ∈ l, itemKey n = h → n.timeStamp = none) →
      ∀ (m : List (String × Nat)) (n : FeedItem), n ∈ l →
      (∀ p ∈ m, p.1 = h → p.2 = 0) →
      ∀ p ∈ (if itemKey n ≠ "" ∧ !extSet.contains (itemKey n) then
               match aGetN m (itemKey n) with
               | none => aSetN m (itemKey n) (tsOf n)
               | some prev =>
                   if tsOf n < prev then aSetN m (itemKey n) (tsOf n) else m
             else m), p.1 = h → p.2 = 0 := by
    intro l hl m n hn hm
    by_cases hc : itemKey n ≠ "" ∧ !extSet.contains (itemKey n)
    · rw [if_pos hc]
      have hset : ∀ p ∈ aSetN m (itemKey n) (tsOf n), p.1 = h → p.2 = 0 := by
        intro p hp hph
        rcases mem_aSetN hp with heq | hpm
        · rw [heq] at hph ⊢
          have hts : n.timeStamp = none := hl n hn hph
          show tsOf n = 0
          unfold tsOf
          rw [hts]
          rfl
        · exact hm p hpm hph
      cases aGetN m (itemKey n) with
      | none => exact hset
      | some prev =>
          show ∀ p ∈ (if tsOf n < prev then aSetN m (itemKey n) (tsOf n) else m),
            p.1 = h → p.2 = 0
          by_cases ht : tsOf n < prev
          · rw [if_pos ht]; exact hset
          · rw [if_neg ht]; exact hm
    · rw [if_neg hc]
      exact hm
  exact main _ t1155 (fun m n hn hm => hsN t1155 h1155 m n hn hm) _
    (main _ t721 (fun m n hn hm => hsN t721 h721 m n hn hm) _
      (main _ t20 hs20 [] (by intro p hp; simp at hp)))

lemma hydrateIntItem_ts_none {txO : String → Option RpcTx} {f : List FeedItem}
    {h : String} {y : FeedItem} (hy : hydrateIntItem txO f h = some y)
    (hts : ∀ it ∈ f, itemKey it = h → it.timeStamp = none) : y.timeStamp = none := by
  unfold hydrateIntItem at hy
  cases htx : txO h with
  | none => rw [htx] at hy; exact absurd hy (by simp)
  | some tx =>
      rw [htx] at hy
      have he := Option.some.inj hy
      rw [← he]
      have hts0 : (match lastWithKey f h with
          | some it => it.timeStamp.getD 0
          | none => 0) = 0 := by
        cases hl : lastWithKey f h with
        | none => rfl
        | some it =>
            have hm0 : it ∈ (f.filter (fun x => itemKey x = h)).getLast? := by
              unfold lastWithKey at hl
              rw [hl]
              rfl
            rcases List.mem_getLast?_eq_getLast hm0 with ⟨hne, heq⟩
            have hmem : it ∈ f.filter (fun x => itemKey x = h) := by
              rw [heq]
              exact List.getLast_mem hne
            have hf2 := List.mem_filter.mp hmem
            show it.timeStamp.getD 0 = 0
            rw [hts it hf2.1 (by simpa using hf2.2)]
            rfl
      rw [hts0]
      rfl

lemma hydrateTokenItem_ts_none {txO : String → Option RpcTx}
    {tsMap : List (String × Nat)} {h : String} {y : FeedItem}
    (hy : hydrateTokenItem txO tsMap h = some y)
    (hts : ∀ p ∈ tsMap, p.1 = h → p.2 = 0) : y.timeStamp = none := by
  unfold hydrateTokenItem at hy
  cases htx : txO h with
  | none => rw [htx] at hy; exact absurd hy (by simp)
  | some tx =>
      rw [htx] at hy
      have he := Option.some.inj hy
      rw [← he]
      have h0 : (aGetN tsMap h).getD 0 = 0 := by
        cases hg : aGetN tsMap h with
        | none => rfl
        | some v =>
            unfold aGetN at hg
            cases hf : tsMap.find? (fun p => p.1 = h) with
            | none => rw [hf] at hg; exact absurd hg (by simp)
            | some p =>
                rw [hf] at hg
                have hv : p.2 = v := by simpa using hg
                have hp1 : p.1 = h := by simpa using List.find?_some hf
                show v = 0
                rw [← hv]
                exact hts p (List.mem_of_find?_eq_some hf) hp1
      rw [h0]
      rfl

lemma hydrated_ts_none (inp : BuildIn) (h : String)
    (hext : ∀ t ∈ inp.externalsRaw, extKey t = h → t.timeStamp = none)
    (hint : ∀ it ∈ inp.internalsFeed, itemKey it = h → it.timeStamp = none)
    (h20 : ∀ e ∈ inp.erc20, itemKey e = h → e.timeStamp = none)
    (h721 : ∀ n ∈ inp.erc721, itemKey n = h → n.timeStamp = none)
    (h1155 : ∀ m ∈ inp.erc1155, itemKey m = h → m.timeStamp = none) :
    ∀ t ∈ hydratedExternals inp, extKey t = h → t.timeStamp = none := by
  have hE1 : ∀ t ∈ hydrateMissingExternalsFromInternals inp.txOracle
      inp.internalsFeed inp.externalsRaw HYDRATE_INT_LIMIT,
      extKey t = h → t.timeStamp = none := by
    intro t ht hk
    rw [hydrateInternals_eq] at ht
    rcases List.mem_append.mp ht with hraw | hsynth
    · exact hext t hraw hk
    · rcases List.mem_filterMap.mp hsynth with ⟨h', hm', hy'⟩
      have h1 : extKey t = h' := by
        rw [(hydrateIntItem_some hy').1]
        exact intMissing_lower hm'
      have hk' : h' = h := by
        rw [← h1]
        exact hk
      refine hydrateIntItem_ts_none hy' ?_
      rw [hk']
      exact hint
  intro t ht hk
  unfold hydratedExternals at ht
  rw [hydrateTokens_eq] at ht
  rcases List.mem_append.mp ht with hE | hsynth
  · exact hE1 t hE hk
  · rcases List.mem_filterMap.mp hsynth with ⟨h', hm', hy'⟩
    have h1 : extKey t = h' := by
      rw [(hydrateTokenItem_some hy').1]
      exact (tokenMissing_facts hm').1
    have hk' : h' = h := by
      rw [← h1]
      exact hk
    refine hydrateTokenItem_ts_none hy' ?_
    intro p hp hph
    refine tsMapBuild_at _ inp.erc20 inp.erc721 inp.erc1155 h h20 h721 h1155 p hp ?_
    rw [← hk']
    exact hph

lemma allRows_nan (inp : BuildIn) (h : String)
    (hext : ∀ t ∈ inp.externalsRaw, extKey t = h → t.timeStamp = none)
    (hint : ∀ it ∈ inp.internalsFeed, itemKey it = h → it.timeStamp = none)
    (h20 : ∀ e ∈ inp.erc20, itemKey e = h → e.timeStamp = none)
    (h721 : ∀ n ∈ inp.erc721, itemKey n = h → n.timeStamp = none)
    (h1155 : ∀ m ∈ inp.erc1155, itemKey m = h → m.timeStamp = none) :
    ∀ r ∈ allRows inp, rowKey r = h → r.timeMs = JsNum.nan := by
  have hhyd := hydrated_ts_none inp h hext hint h20 h721 h1155
  have hnat0 : ∀ r ∈ nativeRows0 inp, rowKey r = h → r.timeMs = JsNum.nan := by
    intro r hr hk
    unfold nativeRows0 at hr
    rcases List.mem_map.mp hr with ⟨t, ht, he⟩
    rw [← he] at hk ⊢
    have hts : t.timeStamp = none := hhyd t ht hk
    show jsTimes1000 t.timeStamp = JsNum.nan
    rw [hts]
    rfl
  have hP : ∀ (c : String) (r : Row),
      (rowKey r = h → r.timeMs = JsNum.nan) →
      (rowKey ({ r with category := some c } : Row) = h →
        ({ r with category := some c } : Row).timeMs = JsNum.nan) := by
    intro c r hr hk
    exact hr hk
  have hnat : ∀ r ∈ nativeRowsFinal inp, rowKey r = h → r.timeMs = JsNum.nan := by
    unfold nativeRowsFinal
    refine fold_member_pres ?_ _ _ (fold_member_pres ?_ _ _ hnat0)
    · intro rows h' hPrev
      unfold tier2bStep
      cases rcptsOf inp h' with
      | none => exact hPrev
      | some rcp =>
          cases lastExt (hydratedExternals inp) h' with
          | none => exact hPrev
          | some tx =>
              show ∀ r ∈ (if isFailed rcp then rows else _), _
              by_cases hf : isFailed rcp
              · rw [if_pos hf]; exact hPrev
              · rw [if_neg hf]
                cases tier2bCategory (jsToLower inp.address) tx rcp with
                | none => exact hPrev
                | some c => exact updateLastWith_pres (hP c) hPrev
    · intro rows h' hPrev
      unfold tier2aStep
      cases rcptsOf inp h' with
      | none => exact hPrev
      | some rcp =>
          show ∀ r ∈ (if !isFailed rcp && rcp.logs.isEmpty then _ else rows), _
          by_cases hz : (!isFailed rcp && rcp.logs.isEmpty) = true
          · rw [if_pos hz]
            exact updateLastWith_pres (hP "native_send") hPrev
          · rw [if_neg hz]
            exact hPrev
  have hintR : ∀ r ∈ internalRows inp, rowKey r = h → r.timeMs = JsNum.nan := by
    intro r hr hk
    unfold internalRows at hr
    rcases List.mem_map.mp hr with ⟨it, hit, he⟩
    rw [← he] at hk ⊢
    have hts : it.timeStamp = none := hint it hit hk
    show jsTimes1000 it.timeStamp = JsNum.nan
    rw [hts]
    rfl
  have h20R : ∀ r ∈ token20Rows inp, rowKey r = h → r.timeMs = JsNum.nan := by
    intro r hr hk
    unfold token20Rows at hr
    rcases List.mem_map.mp hr with ⟨e, hee, he⟩
    rw [← he] at hk ⊢
    have hts : e.timeStamp = none := h20 e hee hk
    show jsTimes1000 e.timeStamp = JsNum.nan
    rw [hts]
    rfl
  have h721R : ∀ r ∈ token721Rows inp, rowKey r = h → r.timeMs = JsNum.nan := by
    intro r hr hk
    unfold token721Rows at hr
    rcases List.mem_map.mp hr with ⟨n, hn, he⟩
    rw [← he] at hk ⊢
    have hts : n.timeStamp = none := h721 n hn hk
    show jsTimes1000 n.timeStamp = JsNum.nan
    rw [hts]
    rfl
  intro r hr hk
  unfold allRows at hr
  rcases List.mem_append.mp hr with hr3 | hr721
  · rcases List.mem_append.mp hr3 with hr2 | hr20
    · rcases List.mem_append.mp hr2 with hrn | hri
      · exact hnat r hrn hk
      · exact hintR r hri hk
    · exact h20R r hr20 hk
  · exact h721R r hr721 hk

/-- C7 (amended): for a hash none of whose feed records (external, internal,
ERC-20/721/1155) carries a timestamp — i.e. the hash's timestamp is not
resolvable from any feed, so hydrated records synthesize `timeStamp:
undefined` too — every reconciler-input row for that hash (native, hydrated,
internal or token) has `timeMs = NaN`, not `0` (`Number(undefined) * 1000`
has no `|| 0` fallback), and the hash is still not dropped: the output of
`buildActivity` contains a row for it, also with `timeMs = NaN`. -/
theorem C7_missing_timestamp_nan (inp : BuildIn) (h : String)
    (hext : ∀ t ∈ inp.externalsRaw, extKey t = h → t.timeStamp = none)
    (hint : ∀ it ∈ inp.internalsFeed, itemKey it = h → it.timeStamp = none)
    (h20 : ∀ e ∈ inp.erc20, itemKey e = h → e.timeStamp = none)
    (h721 : ∀ n ∈ inp.erc721, itemKey n = h → n.timeStamp = none)
    (h1155 : ∀ m ∈ inp.erc1155, itemKey m = h → m.timeStamp = none)
    (r0 : Row) (hr0 : r0 ∈ allRows inp) (hk : rowKey r0 = h) (hne : h ≠ "") :
    r0.timeMs = JsNum.nan ∧
    ∃ w ∈ buildActivity inp, rowKey w = h ∧ w.timeMs = JsNum.nan := by
  have hnan := allRows_nan inp h hext hint h20 h721 h1155
  refine ⟨hnan r0 hr0 hk, ?_⟩
  rcases entry_winner_facts hr0 (by rw [hk]; exact hne) with ⟨w, hw, hge, hwall⟩
  rw [hk] at hw
  have hwk : rowKey w = h := rowKey_of_aGet (bestFold_goodPairs _) hw
  exact ⟨w, mem_buildActivity_of_entry hw, hwk, hnan w hwall hwk⟩

def c7Int : FeedItem :=
  { hash := some "0xc7ok", from_ := some "0xuserc7w",
    to_ := some "0xeeeeeeeeeeeeeeeeeeeeeeeeeeeeeeeeeeeeeeee",
    value := some 3 }

def c7Tx : RpcTx :=
  { blockNumber := some 9, from_ := "0xUserC7W",
    to_ := some "0xEeeeEeeeEeeeEeeeEeeeEeeeEeeeEeeeEeeeEeee", value := 3,
    input := some "0x" }

def c7InpH : BuildIn :=
  { address := "0xUserC7W",
    internalsFeed := [c7Int],
    txOracle := fun h => if h = "0xc7ok" then some c7Tx else none }

/-- C7 witness: a timestamp-less internal-only hash; its internal row — and,
after hydration, its synthesized native row — carry `timeMs = NaN`, and the
hash still reaches the output with `timeMs = NaN`. -/
theorem C7_missing_timestamp_nan_witness :
    (internalRowOf (jsToLower c7InpH.address) c7Int).timeMs = JsNum.nan ∧
    ∃ w ∈ buildActivity c7InpH, rowKey w = "0xc7ok" ∧ w.timeMs = JsNum.nan :=
  C7_missing_timestamp_nan c7InpH "0xc7ok" (by decide) (by decide) (by decide)
    (by decide) (by decide) (internalRowOf (jsToLower c7InpH.address) c7Int)
    (by decide) (by decide) (by decide)
